import Mathlib

/-!
The german-neo-steno keymap: chord accumulator, macro resolver, layer indicator.

Shallow embedding of `keyboards/ergodox_ez/keymaps/german-neo-steno/keymap.c`
(the older variant, namespace `Older`) and of
`layouts/community/ergodox/german-neo-steno/keymap.c` (the newer variant, namespace
`Newer`).

Machine integers are natural numbers; `uint8_t` arithmetic is written with an
explicit `% 256`.  The global variables of the C file are the fields of `State`;
the bytes handed to `virtser_send` are appended to the field `virtser`.

Layout of the file: constants and macro sequences, the steno layer of the layer
table, the global state, the functions of the source file, key events and their
dispatch, the notions the statements use, the layer indicator, the layer tables, the
newer variant; then helper lemmas and the claims about the chord accumulator, and last
the lemmas and claims about the macro resolver, the layer indicator and the layer
tables of both variants.
-/

set_option linter.unusedVariables false
set_option linter.unnecessarySeqFocus false

namespace Older

/-! ## Constants of the source file -/

def QWERTZ_NEO2 : Nat := 0
def NEO2_NEO2 : Nat := 1
def SYMBOLS : Nat := 2
def NUMBERS : Nat := 3
def FUNCTIONS : Nat := 4
def FKEYS : Nat := 5
def TXBOLT : Nat := 6

def CIRC : Nat := 0
def GRV : Nat := 1

def Sl : Nat := 0b00000001
def Tl : Nat := 0b00000010
def Kl : Nat := 0b00000100
def Pl : Nat := 0b00001000
def Wl : Nat := 0b00010000
def Hl : Nat := 0b00100000
def Rl : Nat := 0b01000001
def Al : Nat := 0b01000010
def Ol : Nat := 0b01000100
def X : Nat := 0b01001000
def Er : Nat := 0b01010000
def Ur : Nat := 0b01100000
def Fr : Nat := 0b10000001
def Rr : Nat := 0b10000010
def Pr : Nat := 0b10000100
def Br : Nat := 0b10001000
def Lr : Nat := 0b10010000
def Gr : Nat := 0b10100000
def Tr : Nat := 0b11000001
def Sr : Nat := 0b11000010
def Dr : Nat := 0b11000100
def Zr : Nat := 0b11001000
def NM : Nat := 0b11010000
def GRPMASK : Nat := 0b11000000
def GRP0 : Nat := 0b00000000
def GRP1 : Nat := 0b01000000
def GRP2 : Nat := 0b10000000
def GRP3 : Nat := 0b11000000

/-! ## Macro sequences -/

/-- Modelled from the spec: the literal keycodes that occur in the macro definitions
of the keymap.  Their numeric values live in framework headers that are not part of
the keymap file; they are kept symbolic, under the names the source uses. -/
inductive Keycode where
  | KC_LSFT
  | KC_SPC
  | DE_CIRC
  | DE_ACUT
  | DE_LESS
  deriving DecidableEq, Repr

/-- Modelled from the spec: one primitive operation of a `MACRO(...)` sequence, as the
framework macros `I(n)` (interval), `DOWN(kc)` (press), `UP(kc)` (release) and
`TYPE(kc)` (type the key) name them. -/
inductive MacroOp where
  | I (n : Nat)
  | DOWN (kc : Keycode)
  | UP (kc : Keycode)
  | TYPE (kc : Keycode)
  deriving DecidableEq, Repr

/-- Modelled from the spec: the framework constant `MACRO_NONE`, the empty sequence:
nothing is played. -/
def MACRO_NONE : List MacroOp := []

/-- Source: `#define MOD(mod, kc) MACRO(I(15), DOWN(mod), TYPE(kc), UP(mod), END)`. -/
def MOD (mod kc : Keycode) : List MacroOp :=
  [.I 15, .DOWN mod, .TYPE kc, .UP mod]

/-- Source: `#define TPE(kc) MACRO(I(15), TYPE(kc), END)`. -/
def TPE (kc : Keycode) : List MacroOp :=
  [.I 15, .TYPE kc]

/-- Source:
`#define MOD_ND(mod, kc) MACRO(I(15), DOWN(mod), TYPE(kc), UP(mod), TYPE(KC_SPC), END)`. -/
def MOD_ND (mod kc : Keycode) : List MacroOp :=
  [.I 15, .DOWN mod, .TYPE kc, .UP mod, .TYPE .KC_SPC]

/-- Source: `#define TPE_ND(kc) MACRO(I(15), TYPE(kc), TYPE(KC_SPC), END)`. -/
def TPE_ND (kc : Keycode) : List MacroOp :=
  [.I 15, .TYPE kc, .TYPE .KC_SPC]

/-! ## The steno layer of the layer table -/

/-- Modelled from the spec: the action bound to a key by one argument of a
`KEYMAP(...)` initialiser: no-op, transparent, a literal keycode (kept by name),
momentary layer `MO(layer)`, layer toggle `TG(layer)`, a macro key `M(id)`, or `RESET`. -/
inductive KeyAction where
  | KC_NO
  | KC_TRNS
  | KC (name : String)
  | MO (layer : Nat)
  | TG (layer : Nat)
  | M (id : Nat)
  | RESET
  deriving DecidableEq, Repr

open KeyAction in
/-- The arguments of `[TXBOLT] = KEYMAP(...)`, in the order of the source: the 38
keys of the left hand, then the 38 keys of the right hand. -/
def TXBOLT_KEYMAP : List KeyAction :=
  [ -- left hand
    KC_NO,   KC_NO,   KC_NO,   KC_NO,   KC_NO,   KC_NO,   KC_NO,
    KC_NO,   M NM,    M NM,    M NM,    M NM,    M NM,    KC_NO,
    KC_NO,   M Sl,    M Tl,    M Pl,    M Hl,    M X,
    KC_NO,   M Sl,    M Kl,    M Wl,    M Rl,    M X,     KC_NO,
    KC_NO,   KC_NO,   KC_NO,   KC_NO,   KC_NO,
                                        KC_TRNS, KC_NO,
                                                 KC_NO,
                               M Al,    M Ol,    KC_NO,
    -- right hand
    KC_NO,   KC_NO,   KC_NO,   KC_NO,   KC_NO,   KC_NO,   KC_NO,
    KC_NO,   M NM,    M NM,    M NM,    M NM,    M NM,    M NM,
             M X,     M Fr,    M Pr,    M Lr,    M Tr,    M Dr,
    KC_NO,   M X,     M Rr,    M Br,    M Gr,    M Sr,    M Zr,
                      KC_NO,   KC_NO,   KC_NO,   KC_NO,   KC_NO,
    KC_NO,   KC_NO,
    KC_NO,
    KC_NO,   M Er,    M Ur ]

/-- The macro id bound on the steno layer to the key at position `k` (its index
among the `KEYMAP` arguments), if that key is a steno macro key. -/
def stenoIdAt (k : Nat) : Option Nat :=
  match TXBOLT_KEYMAP.get? k with
  | some (.M id) => some id
  | _ => none

/-- The id sent for the steno key at position `k` (0 when the key is no steno key). -/
def stenoId (k : Nat) : Nat := (stenoIdAt k).getD 0

/-! ## Global state -/

/-- The array `uint8_t chord[4]`. -/
structure Chord where
  c0 : Nat
  c1 : Nat
  c2 : Nat
  c3 : Nat
  deriving DecidableEq, Repr

/-- Read `chord[i]`; an index outside the array reads 0. -/
def Chord.get (c : Chord) (i : Nat) : Nat :=
  match i with
  | 0 => c.c0
  | 1 => c.c1
  | 2 => c.c2
  | 3 => c.c3
  | _ => 0

/-- Write `chord[i] = v`; an index outside the array leaves it unchanged. -/
def Chord.set (c : Chord) (i : Nat) (v : Nat) : Chord :=
  match i with
  | 0 => { c with c0 := v }
  | 1 => { c with c1 := v }
  | 2 => { c with c2 := v }
  | 3 => { c with c3 := v }
  | _ => c

/-- The four bytes in index order. -/
def Chord.toList (c : Chord) : List Nat := [c.c0, c.c1, c.c2, c.c3]

/-- Every element is a `uint8_t` value. -/
def Chord.WF (c : Chord) : Prop := c.c0 < 256 ∧ c.c1 < 256 ∧ c.c2 < 256 ∧ c.c3 < 256

instance (c : Chord) : Decidable c.WF := by
  unfold Chord.WF; infer_instance

/-- The globals `chord`, `pressed_count`, `scan_no`, and the bytes written to the
virtual serial link so far (oldest first). -/
structure State where
  chord : Chord
  pressed_count : Nat
  scan_no : Nat
  virtser : List Nat
  deriving DecidableEq, Repr

/-- Static initialisers: `chord = {0,0,0,0}`, `pressed_count = 0`, `scan_no = 0`;
nothing has been sent. -/
def init : State :=
  { chord := ⟨0, 0, 0, 0⟩, pressed_count := 0, scan_no := 0, virtser := [] }

/-- Modelled from the spec: the framework primitive `virtser_send(byte)`, which
transmits one byte over the virtual serial link; the bytes sent are logged in order. -/
def virtser_send (s : State) (b : Nat) : State :=
  { s with virtser := s.virtser ++ [b] }

/-! ## Functions of the source file -/

/-- Source function `send_chord`: for `i = 0..3` send `chord[i]` when it is nonzero, then send 0. -/
def send_chord (s : State) : State :=
  let s1 := [0, 1, 2, 3].foldl
    (fun st i => if st.chord.get i ≠ 0 then virtser_send st (st.chord.get i) else st) s
  virtser_send s1 0

/-- Source function `process_record_user(keycode, record)`: `pressed_count++` on a press,
`pressed_count--` on a release (both on a `uint8_t`); returns `true`. -/
def process_record_user (s : State) (keycode : Nat) (pressed : Bool) : State × Bool :=
  if pressed then
    ({ s with pressed_count := (s.pressed_count + 1) % 256 }, true)
  else
    ({ s with pressed_count := (s.pressed_count + 255) % 256 }, true)

/-- Source function `action_get_macro(record, id, opt)`.  `layer` is the value of
`biton32(layer_state)` read at entry, `pressed` is `record->event.pressed`. -/
def action_get_macro (s : State) (layer : Nat) (pressed : Bool) (id : Nat) (opt : Nat) :
    State × List MacroOp :=
  if pressed then
    if layer = TXBOLT then
      let grp := (id &&& GRPMASK) >>> 6
      ({ s with chord := s.chord.set grp ((s.chord.get grp ||| id) % 256) }, MACRO_NONE)
    else if id = CIRC then (s, TPE_ND .DE_CIRC)
    else if id = GRV then (s, MOD_ND .KC_LSFT .DE_ACUT)
    else (s, MACRO_NONE)
  else
    if s.pressed_count = 0 ∧ layer = TXBOLT then
      let s1 := send_chord s
      ({ s1 with chord := ⟨0, 0, 0, 0⟩ }, MACRO_NONE)
    else (s, MACRO_NONE)

/-! ## Key events -/

/-- Modelled from the spec: what the layer table binds to the key of an event, as far
as the hooks can tell: a macro key `M(id)`, or any other keycode. -/
inductive Binding where
  | M (id : Nat)
  | plain (keycode : Nat)
  deriving DecidableEq, Repr

/-- Modelled from the spec: one key event as the hooks see it: the resolved binding,
the edge (`record->event.pressed`), and the value of `biton32(layer_state)` while the
event is handled. -/
structure KeyEvent where
  binding : Binding
  pressed : Bool
  layer : Nat
  deriving DecidableEq, Repr

/-- The keycode passed to `process_record_user` (which does not read it); for a macro
key its id stands in. -/
def KeyEvent.keycode (e : KeyEvent) : Nat :=
  match e.binding with
  | .M id => id
  | .plain kc => kc

/-- Modelled from the spec: the per-key-event dispatch of the firmware framework,
which is not part of the keymap file.  `process_record_user` runs for every event;
when it returns `true` and the key is bound to a macro `M(id)`, the framework then
calls `action_get_macro(record, id, 0)`.  The returned key sequence is played by
the framework and does not touch the keymap globals. -/
def key_event (s : State) (e : KeyEvent) : State :=
  let r := process_record_user s e.keycode e.pressed
  if r.2 then
    match e.binding with
    | .M id => ( action_get_macro r.1 e.layer e.pressed id 0).1
    | .plain _ => r.1
  else r.1

/-- Deliver a list of key events in order. -/
def run (s : State) (es : List KeyEvent) : State := es.foldl key_event s

/-- Bytes put on the serial link by the single event `e` handled in state `s`. -/
def emitted (s : State) (e : KeyEvent) : List Nat :=
  (key_event s e).virtser.drop s.virtser.length

/-- The message a flush of chord `c` puts on the wire, in the words of the spec:
the four group bytes with the zero bytes left out, then one 0 byte. -/
def flushMessage (c : Chord) : List Nat :=
  c.toList.filter (fun b => b ≠ 0) ++ [0]

/-- Press of the macro key `M(id)` with layer `l` active. -/
def pressM (id l : Nat) : KeyEvent := ⟨.M id, true, l⟩

/-- Release of the macro key `M(id)` with layer `l` active. -/
def releaseM (id l : Nat) : KeyEvent := ⟨.M id, false, l⟩

/-- Press of a key that is not macro-backed, with layer `l` active. -/
def pressK (kc l : Nat) : KeyEvent := ⟨.plain kc, true, l⟩

/-- Release of a key that is not macro-backed, with layer `l` active. -/
def releaseK (kc l : Nat) : KeyEvent := ⟨.plain kc, false, l⟩

/-- The group of a steno key id, in the words of the spec: its top two bits,
`id >> 6`. -/
def groupOf (id : Nat) : Nat := id >>> 6

/-- In the words of the spec: the bitwise OR of the ids of those keys in `ids` that
belong to group `g`. -/
def orGroup (g : Nat) (ids : List Nat) : Nat :=
  (ids.filter (fun id => groupOf id = g)).foldr (fun id acc => id ||| acc) 0

/-- In the words of the spec: the message expected for a chord made of the keys
`ids`: for each group 0..3 in order the OR of its ids, left out when zero, then one
0 byte. -/
def expectedMessage (ids : List Nat) : List Nat :=
  [orGroup 0 ids, orGroup 1 ids, orGroup 2 ids, orGroup 3 ids].filter (fun b => b ≠ 0) ++ [0]

/-- Press events, on the steno layer, of the macro keys with the given ids. -/
def pressAll (ids : List Nat) : List KeyEvent := ids.map (fun id => pressM id TXBOLT)

/-- Release events, on the steno layer, of the macro keys with the given ids. -/
def releaseAll (ids : List Nat) : List KeyEvent := ids.map (fun id => releaseM id TXBOLT)

/-- A flush occurs at the event `e` handled in state `s`: the event puts bytes on the
serial link (`send_chord` is the only sender and always sends its terminator). -/
def flushes (s : State) (e : KeyEvent) : Prop := emitted s e ≠ []

instance (s : State) (e : KeyEvent) : Decidable (flushes s e) := by
  unfold flushes; infer_instance

/-- The event is bound to a macro key `M(id)`. -/
def KeyEvent.isMacro (e : KeyEvent) : Bool :=
  match e.binding with
  | .M _ => true
  | .plain _ => false

/-- The guard under which the code flushes: a release of a macro key, with
`pressed_count` 0 once `process_record_user` has counted the release, and the steno
layer active. -/
def flushGuard (s : State) (e : KeyEvent) : Prop :=
  e.pressed = false ∧ e.isMacro = true ∧ (s.pressed_count + 255) % 256 = 0 ∧ e.layer = TXBOLT

instance (s : State) (e : KeyEvent) : Decidable (flushGuard s e) := by
  unfold flushGuard; infer_instance

/-- Number of press events in a sequence. -/
def presses (es : List KeyEvent) : Nat := es.countP (fun e => e.pressed)

/-- Number of release events in a sequence. -/
def releases (es : List KeyEvent) : Nat := es.countP (fun e => !e.pressed)

/-- The id of a steno key press: a press of a macro key handled with the steno
layer active (the only events that set chord bits). -/
def KeyEvent.stenoPress (e : KeyEvent) : Option Nat :=
  match e.binding with
  | .M id => if e.pressed = true ∧ e.layer = TXBOLT then some id else none
  | .plain _ => none

/-- The macro id of the event, if it has one, is a `uint8_t` value. -/
def KeyEvent.byteId (e : KeyEvent) : Prop :=
  match e.binding with
  | .M id => id < 256
  | .plain _ => True

instance (e : KeyEvent) : Decidable e.byteId := by
  unfold KeyEvent.byteId; split <;> infer_instance

/-- In the words of the claim: the ids of the steno keys pressed since
`pressed_count` was last 0.  The events are replayed from state `s`; the list
collected so far is dropped whenever an event starts from `pressed_count = 0`. -/
def pressedSinceIdle (s : State) (acc : List Nat) : List KeyEvent → List Nat
  | [] => acc
  | e :: es =>
    let acc0 := if s.pressed_count = 0 then [] else acc
    match e.stenoPress with
    | some id => pressedSinceIdle (key_event s e) (acc0 ++ [id]) es
    | none => pressedSinceIdle (key_event s e) acc0 es

/-- The ids of the steno keys pressed since the last flush (or since the start when
there was none).  The events are replayed from state `s`; the list collected so far
is dropped at every event that flushes. -/
def pressedSinceFlush (s : State) (acc : List Nat) : List KeyEvent → List Nat
  | [] => acc
  | e :: es =>
    if flushes s e then pressedSinceFlush (key_event s e) [] es
    else
      match e.stenoPress with
      | some id => pressedSinceFlush (key_event s e) (acc ++ [id]) es
      | none => pressedSinceFlush (key_event s e) acc es

/-- The chord bytes are the group-wise OR of the ids in `ids`. -/
def Chord.holds (c : Chord) (ids : List Nat) : Prop :=
  c = ⟨orGroup 0 ids, orGroup 1 ids, orGroup 2 ids, orGroup 3 ids⟩

/-- Well-formed key traffic, `held` keys being down at the start: no release arrives
while no key is held, and never more than 255 keys are held at once (the board has
fewer keys than that). -/
def wellFormed (held : Nat) : List KeyEvent → Bool
  | [] => true
  | e :: es =>
    if e.pressed then decide (held < 255) && wellFormed (held + 1) es
    else decide (0 < held) && wellFormed (held - 1) es

/-- Every release that brings `pressed_count` to 0 is the release of a macro key
delivered with the steno layer active.  The events are replayed from state `s`. -/
def chordsEndOnSteno (s : State) : List KeyEvent → Bool
  | [] => true
  | e :: es =>
    (if e.pressed = false ∧ (key_event s e).pressed_count = 0
      then e.isMacro && decide (e.layer = TXBOLT) else true)
    && chordsEndOnSteno (key_event s e) es

/-- In the words of the spec: the OR of the 6-bit masks (`id & 0x3F`) of those keys in
`ids` that belong to group `g`. -/
def orMask (g : Nat) (ids : List Nat) : Nat :=
  (ids.filter (fun id => groupOf id = g)).foldr (fun id acc => (id &&& 0x3F) ||| acc) 0

/-- The key operations of a macro sequence, in order: the entries that press, release
or type a key.  The interval directive `I(n)` only sets the delay between them. -/
def keyOps (m : List MacroOp) : List MacroOp :=
  m.filter (fun op =>
    match op with
    | .I _ => false
    | _ => true)

/-! ## Layer indicator -/

/-- Modelled from the spec: the LED primitives of the framework that the keymap
calls (`set_indicator_led(id, on|off)` in the words of the spec), under their names
in the source. -/
inductive LedOp where
  | ergodox_board_led_on
  | ergodox_board_led_off
  | ergodox_right_led_1_off
  | ergodox_right_led_2_off
  | ergodox_right_led_3_off
  deriving DecidableEq, Repr

/-- Modelled from the spec: the four indicator LEDs the keymap drives (`true` is on). -/
structure Leds where
  board : Bool
  right_1 : Bool
  right_2 : Bool
  right_3 : Bool
  deriving DecidableEq, Repr

/-- Modelled from the spec: the effect of one LED primitive on the LEDs. -/
def LedOp.apply (leds : Leds) : LedOp → Leds
  | .ergodox_board_led_on => { leds with board := true }
  | .ergodox_board_led_off => { leds with board := false }
  | .ergodox_right_led_1_off => { leds with right_1 := false }
  | .ergodox_right_led_2_off => { leds with right_2 := false }
  | .ergodox_right_led_3_off => { leds with right_3 := false }

/-- The LEDs after a list of LED primitives issued in order. -/
def applyLedOps (leds : Leds) (ops : List LedOp) : Leds := ops.foldl LedOp.apply leds

/-- Source function `matrix_scan_user`.  `layer` is the value of
`biton32(layer_state)` read at entry; `scan_no` is a `uint16_t`.  The result is the new
state and the LED primitives issued, in order. -/
def matrix_scan_user (s : State) (layer : Nat) : State × List LedOp :=
  let ops : List LedOp :=
    [.ergodox_board_led_off, .ergodox_right_led_1_off, .ergodox_right_led_2_off,
      .ergodox_right_led_3_off]
  let s1 : State :=
    if layer = NEO2_NEO2 then { s with scan_no := (s.scan_no + 1) % 65536 }
    else { s with scan_no := 0 }
  if layer = NEO2_NEO2 then
    if s1.scan_no % 1000 < 500 then (s1, ops ++ [.ergodox_board_led_on])
    else (s1, ops)
  else if layer = TXBOLT then (s1, ops ++ [.ergodox_board_led_on])
  else (s1, ops)

/-- The board LED after each of `n` consecutive calls of `matrix_scan_user` with the
same active layer, starting in state `s` with the LEDs `leds`. -/
def boardLedTrace (layer : Nat) : Nat → State → Leds → List Bool
  | 0, _, _ => []
  | n + 1, s, leds =>
    (applyLedOps leds (matrix_scan_user s layer).2).board ::
      boardLedTrace layer n (matrix_scan_user s layer).1
        (applyLedOps leds (matrix_scan_user s layer).2)

/-- The state after `n` consecutive calls of `matrix_scan_user` with the same layer. -/
def scans (layer : Nat) : Nat → State → State
  | 0, s => s
  | n + 1, s => scans layer n (matrix_scan_user s layer).1

/-- The maximal windows of a sequence of LED states: each maximal run of equal
states, with its length, in order. -/
def windows : List Bool → List (Bool × Nat)
  | [] => []
  | b :: t =>
    match windows t with
    | [] => [(b, 1)]
    | (c, n) :: r => if b = c then (c, n + 1) :: r else (b, 1) :: (c, n) :: r

/-- The blink phase computed from the counter alone: the LED state after each of `n`
increments of the 16-bit counter starting at `sn`. -/
def blinkFrom (sn : Nat) : Nat → List Bool
  | 0 => []
  | n + 1 => decide (((sn + 1) % 65536) % 1000 < 500) :: blinkFrom ((sn + 1) % 65536) n

/-! ## The layer table -/

open KeyAction in
/-- The arguments of `[QWERTZ_NEO2] = KEYMAP(...)`, in the order of the source: the 38
keys of the left hand, then the 38 keys of the right hand. -/
def QWERTZ_NEO2_KEYMAP : List KeyAction :=
  [ -- left hand
    KC_NO, KC "KC_1", KC "KC_2", KC "KC_3", KC "KC_4", KC "KC_5", KC "DE_CIRC",
    KC_NO, KC "DE_X", KC "DE_V", KC "DE_L", KC "DE_C", KC "DE_W", KC "KC_PGUP",
    KC "KC_TAB", KC "DE_U", KC "DE_I", KC "DE_A", KC "DE_E", KC "DE_O",
    KC_NO, KC "DE_UE", KC "DE_OE", KC "DE_AE", KC "DE_P", KC "DE_Z", KC "KC_PGDN",
    KC "KC_APP", KC "KC_LGUI", KC_NO, KC_NO, MO NUMBERS,
    TG TXBOLT, MO FKEYS,
    KC "KC_LALT",
    MO SYMBOLS, KC "KC_LSFT", KC "KC_LCTL",
    -- right hand
    KC "DE_ACUT", KC "KC_6", KC "KC_7", KC "KC_8", KC "KC_9", KC "KC_0", KC "DE_GRV",
    KC "KC_ENT", KC "DE_K", KC "DE_H", KC "DE_G", KC "DE_F", KC "DE_Q", KC "DE_SS",
    KC "DE_S", KC "DE_N", KC "DE_R", KC "DE_T", KC "DE_D", KC "DE_Y",
    KC "KC_DEL", KC "DE_B", KC "DE_M", KC "KC_COMM", KC "KC_DOT", KC "DE_J", KC "KC_BSPC",
    MO FUNCTIONS, KC_NO, KC "KC_ESC", KC "KC_RGUI", KC_NO,
    MO FKEYS, TG NEO2_NEO2,
    KC "KC_RALT",
    KC "KC_RCTL", KC "KC_RSFT", KC "KC_SPC" ]

open KeyAction in
/-- The arguments of `[NEO2_NEO2] = KEYMAP(...)`, in the order of the source: the 38
keys of the left hand, then the 38 keys of the right hand. -/
def NEO2_NEO2_KEYMAP : List KeyAction :=
  [ -- left hand
    KC_TRNS, KC_TRNS, KC_TRNS, KC_TRNS, KC_TRNS, KC_TRNS, KC "DE_CIRC",
    KC_TRNS, KC "NEO_X", KC "NEO_V", KC "NEO_L", KC "NEO_C", KC "NEO_W", KC_TRNS,
    KC_TRNS, KC "NEO_U", KC "NEO_I", KC "NEO_A", KC "NEO_E", KC "NEO_O",
    KC_TRNS, KC "NEO_UE", KC "NEO_OE", KC "NEO_AE", KC "NEO_P", KC "NEO_Z", KC_TRNS,
    KC_TRNS, KC_TRNS, KC_TRNS, KC_TRNS, KC "KC_RALT",
    KC_TRNS, KC_TRNS,
    KC_TRNS,
    KC "KC_CAPS", KC_TRNS, KC_TRNS,
    -- right hand
    KC "KC_RBRC", KC_TRNS, KC_TRNS, KC_TRNS, KC_TRNS, KC_TRNS, KC "DE_ACUT",
    KC_TRNS, KC "NEO_K", KC "NEO_H", KC "NEO_G", KC "NEO_F", KC "NEO_Q", KC "NEO_SS",
    KC "NEO_S", KC "NEO_N", KC "NEO_R", KC "NEO_T", KC "NEO_D", KC "NEO_Y",
    KC_TRNS, KC "NEO_B", KC "NEO_M", KC "NEO_COMM", KC "NEO_DOT", KC "NEO_J", KC_TRNS,
    KC "KC_RALT", KC_TRNS, KC_TRNS, KC_TRNS, KC_TRNS,
    KC_TRNS, KC_TRNS,
    KC_TRNS,
    KC_TRNS, KC_TRNS, KC_TRNS ]

open KeyAction in
/-- The arguments of `[SYMBOLS] = KEYMAP(...)`, in the order of the source: the 38
keys of the left hand, then the 38 keys of the right hand. -/
def SYMBOLS_KEYMAP : List KeyAction :=
  [ -- left hand
    KC_TRNS, KC_TRNS, KC_TRNS, KC_TRNS, KC_TRNS, KC_TRNS, KC_TRNS,
    KC_TRNS, KC_TRNS, KC "DE_UNDS", KC "DE_LBRC", KC "DE_RBRC", M CIRC, KC_TRNS,
    KC_TRNS, KC "DE_BSLS", KC "DE_SLSH", KC "DE_LCBR", KC "DE_RCBR", KC "DE_ASTR",
    KC_TRNS, KC "DE_HASH", KC "DE_DLR", KC "DE_PIPE", KC "DE_TILD", M GRV, KC_TRNS,
    KC_TRNS, KC_TRNS, KC_TRNS, KC_TRNS, KC_TRNS,
    KC_TRNS, KC_TRNS,
    KC_TRNS,
    KC_TRNS, KC_TRNS, KC_TRNS,
    -- right hand
    KC_TRNS, KC_TRNS, KC_TRNS, KC_TRNS, KC_TRNS, KC_TRNS, KC_TRNS,
    KC_TRNS, KC "DE_EXLM", KC "DE_LESS", KC "DE_MORE", KC "DE_EQL", KC "DE_AMPR", KC_TRNS,
    KC "DE_QST", KC "DE_LPRN", KC "DE_RPRN", KC "DE_MINS", KC "DE_COLN", KC "DE_AT",
    KC_TRNS, KC "DE_PLUS", KC "DE_PERC", KC "DE_DQOT", KC "DE_QUOT", KC "DE_SCLN", KC_TRNS,
    KC_TRNS, KC_TRNS, KC_TRNS, KC_TRNS, KC_TRNS,
    KC_TRNS, KC_TRNS,
    KC_TRNS,
    KC_TRNS, KC_TRNS, KC_TRNS ]

open KeyAction in
/-- The arguments of `[NUMBERS] = KEYMAP(...)`, in the order of the source: the 38
keys of the left hand, then the 38 keys of the right hand. -/
def NUMBERS_KEYMAP : List KeyAction :=
  [ -- left hand
    KC_TRNS, KC_TRNS, KC_TRNS, KC_TRNS, KC_TRNS, KC_TRNS, KC_TRNS,
    KC_TRNS, KC_TRNS, KC_TRNS, KC_TRNS, KC_TRNS, KC_TRNS, KC_TRNS,
    KC_TRNS, KC_TRNS, KC_TRNS, KC_TRNS, KC_TRNS, KC_TRNS,
    KC_TRNS, KC_TRNS, KC_TRNS, KC_TRNS, KC_TRNS, KC_TRNS, KC_TRNS,
    KC_TRNS, KC_TRNS, KC_TRNS, KC_TRNS, KC_TRNS,
    KC_TRNS, KC_TRNS,
    KC_TRNS,
    KC_TRNS, KC_TRNS, KC_TRNS,
    -- right hand
    KC_TRNS, KC_TRNS, KC_TRNS, KC_TRNS, KC_TRNS, KC_TRNS, KC_TRNS,
    KC_TRNS, KC_TRNS, KC "KC_7", KC "KC_8", KC "KC_9", KC "DE_PLUS", KC "DE_MINS",
    KC_TRNS, KC "KC_4", KC "KC_5", KC "KC_6", KC "DE_COMM", KC "DE_DOT",
    KC_TRNS, KC_TRNS, KC "KC_1", KC "KC_2", KC "KC_3", KC "DE_SCLN", KC_TRNS,
    KC "KC_0", KC_TRNS, KC_TRNS, KC_TRNS, KC_TRNS,
    KC_TRNS, KC_TRNS,
    KC_TRNS,
    KC_TRNS, KC_TRNS, KC_TRNS ]

open KeyAction in
/-- The arguments of `[FUNCTIONS] = KEYMAP(...)`, in the order of the source: the 38
keys of the left hand, then the 38 keys of the right hand. -/
def FUNCTIONS_KEYMAP : List KeyAction :=
  [ -- left hand
    KC_TRNS, KC_TRNS, KC_TRNS, KC_TRNS, KC_TRNS, KC_TRNS, KC_TRNS,
    KC_TRNS, KC "KC_PGUP", KC "KC_BSPC", KC "KC_UP", KC "KC_DELT", KC "KC_PGDN", KC_TRNS,
    KC_TRNS, KC "KC_HOME", KC "KC_LEFT", KC "KC_DOWN", KC "KC_RGHT", KC "KC_END",
    KC_TRNS, KC_TRNS, KC "KC_TAB", KC_TRNS, KC "KC_ENT", KC_TRNS, KC_TRNS,
    KC_TRNS, KC_TRNS, KC_TRNS, KC_TRNS, KC_TRNS,
    KC_TRNS, KC_TRNS,
    KC_TRNS,
    KC_TRNS, KC_TRNS, KC_TRNS,
    -- right hand
    KC_TRNS, KC_TRNS, KC_TRNS, KC_TRNS, KC_TRNS, KC_TRNS, KC_TRNS,
    KC_TRNS, KC_TRNS, KC_TRNS, KC_TRNS, KC_TRNS, KC_TRNS, KC_TRNS,
    KC_TRNS, KC_TRNS, KC_TRNS, KC_TRNS, KC_TRNS, KC_TRNS,
    KC_TRNS, KC_TRNS, KC_TRNS, KC_TRNS, KC_TRNS, KC_TRNS, KC_TRNS,
    KC_TRNS, KC_TRNS, KC_TRNS, KC_TRNS, KC_TRNS,
    KC_TRNS, KC_TRNS,
    KC_TRNS,
    KC_TRNS, KC_TRNS, KC_TRNS ]

open KeyAction in
/-- The arguments of `[FKEYS] = KEYMAP(...)`, in the order of the source: the 38
keys of the left hand, then the 38 keys of the right hand. -/
def FKEYS_KEYMAP : List KeyAction :=
  [ -- left hand
    RESET, KC "KC_F1", KC "KC_F2", KC "KC_F3", KC "KC_F4", KC "KC_F5", KC "KC_F6",
    KC_TRNS, KC_TRNS, KC_TRNS, KC_TRNS, KC_TRNS, KC_TRNS, KC_TRNS,
    KC_TRNS, KC_TRNS, KC_TRNS, KC_TRNS, KC_TRNS, KC_TRNS,
    KC_TRNS, KC_TRNS, KC_TRNS, KC_TRNS, KC_TRNS, KC_TRNS, KC_TRNS,
    KC_TRNS, KC_TRNS, KC_TRNS, KC_TRNS, KC_TRNS,
    KC_TRNS, KC_TRNS,
    KC_TRNS,
    KC_TRNS, KC_TRNS, KC_TRNS,
    -- right hand
    KC "KC_F7", KC "KC_F8", KC "KC_F9", KC "KC_F10", KC "KC_F11", KC "KC_F12", KC_TRNS,
    KC_TRNS, KC_TRNS, KC_TRNS, KC_TRNS, KC_TRNS, KC_TRNS, KC_TRNS,
    KC_TRNS, KC_TRNS, KC_TRNS, KC_TRNS, KC_TRNS, KC_TRNS,
    KC_TRNS, KC_TRNS, KC_TRNS, KC_TRNS, KC_TRNS, KC_TRNS, KC_TRNS,
    KC_TRNS, KC_TRNS, KC_TRNS, KC_TRNS, KC_TRNS,
    KC_TRNS, KC_TRNS,
    KC_TRNS,
    KC_TRNS, KC_TRNS, KC_TRNS ]

/-- The array `keymaps` of the source file: the seven layers, indexed by layer number
(`[QWERTZ_NEO2] = ...` is entry 0, ..., `[TXBOLT] = ...` is entry 6). -/
def keymaps : List (List KeyAction) :=
  [QWERTZ_NEO2_KEYMAP, NEO2_NEO2_KEYMAP, SYMBOLS_KEYMAP, NUMBERS_KEYMAP, FUNCTIONS_KEYMAP,
    FKEYS_KEYMAP, TXBOLT_KEYMAP]

/-- The entry that layer `L` explicitly defines for the key at position `P` (its index
among the arguments of the initialiser), if there is one. -/
def entry (L P : Nat) : Option KeyAction :=
  match keymaps.get? L with
  | some layer => layer.get? P
  | none => none

/-- Modelled from the spec: the layer-table lookup `lookup(layer, position)`.  The
framework macro `KEYMAP`, which is not part of the keymap file, places the 76
arguments of a layer in the key matrix and fills every position it is not given with
`KC_NO`; positions are numbered with the 76 defined keys first, in argument order. -/
def lookup (L P : Nat) : KeyAction := (entry L P).getD .KC_NO

/-- The kind of a table entry. -/
inductive Kind where
  | literal
  | layerAction
  | noop
  | transparent
  | macroKey
  | reset
  deriving DecidableEq, Repr

/-- The kind of a table entry: literal keycode, layer action (`MO`, `TG`), no-op,
transparent, macro key, or reset. -/
def KeyAction.kind : KeyAction → Kind
  | .KC_NO => .noop
  | .KC_TRNS => .transparent
  | .KC _ => .literal
  | .MO _ => .layerAction
  | .TG _ => .layerAction
  | .M _ => .macroKey
  | .RESET => .reset

/-- The binding in force when the entry `upper` lies over the entry `lower`: a
transparent entry lets the lower one through. -/
def KeyAction.over (upper lower : KeyAction) : KeyAction :=
  match upper with
  | .KC_TRNS => lower
  | a => a

/-! ## Notions for the claims about macro sequences, TxBolt codes and layer resolution -/

/-- The keys held down after a macro sequence has played, starting with the keys
`held` down: `DOWN(kc)` presses `kc`, `UP(kc)` releases it, `TYPE(kc)` presses and
releases `kc` at once, `I(n)` only sets the delay.  The result is `none` when the
sequence releases a key that is not down. -/
def playMacro (held : List Keycode) : List MacroOp → Option (List Keycode)
  | [] => some held
  | .I _ :: m => playMacro held m
  | .DOWN kc :: m => playMacro (kc :: held) m
  | .UP kc :: m => if kc ∈ held then playMacro (held.erase kc) m else none
  | .TYPE _ :: m => playMacro held m

/-- A macro sequence is balanced: every release finds its key down, and no key is
left down at the end. -/
def balanced (m : List MacroOp) : Bool := playMacro [] m = some []

/-- The 23 TxBolt codes `Sl` .. `NM` defined by the source file, in its order. -/
def txboltCodes : List Nat :=
  [Sl, Tl, Kl, Pl, Wl, Hl, Rl, Al, Ol, X, Er, Ur, Fr, Rr, Pr, Br, Lr, Gr, Tr, Sr, Dr, Zr, NM]

/-- The entry of layer `L` of the table `km` at position `P` (`KC_NO` where the table
defines nothing). -/
def entryOf (km : List (List KeyAction)) (L P : Nat) : KeyAction :=
  (km.getD L []).getD P .KC_NO

/-- Modelled from the spec: how the framework resolves the key at position `P` when the
overlay layers `L` with `active L = true` are on: the highest active layer among 6..1
whose entry is not transparent decides; when there is none, the base layer 0 does. -/
def resolveKey (km : List (List KeyAction)) (active : Nat → Bool) (P : Nat) : KeyAction :=
  match [6, 5, 4, 3, 2, 1].find? (fun L => active L && decide (entryOf km L P ≠ .KC_TRNS)) with
  | some L => entryOf km L P
  | none => entryOf km 0 P

/-- An entry of the steno layer of the older variant is a steno key: a macro key whose
id is one of the TxBolt codes. -/
def KeyAction.isStenoMacro : KeyAction → Bool
  | .M id => decide (id ∈ txboltCodes)
  | _ => false

/-- An entry of the steno layer of the newer variant is a steno key: a literal keycode
of the framework steno feature, whose names start with `STN_`. -/
def KeyAction.isStenoKeycode : KeyAction → Bool
  | .KC name => decide (name.data.take 4 = "STN_".data)
  | _ => false

end Older

/-! ## The newer variant

Shallow embedding of `layouts/community/ergodox/german-neo-steno/keymap.c`.  Chords
are handled by the framework there; the file keeps the macro resolver and the layer
indicator.  Macro sequences, keycodes and LED primitives are those of the framework,
shared with the older variant. -/

namespace Newer

open Older (MacroOp Keycode LedOp Leds applyLedOps MACRO_NONE)

def QWERTZ_NEO2 : Nat := 0
def NEO2_NEO2 : Nat := 1
def SYMBOLS : Nat := 2
def NUMBERS : Nat := 3
def FUNCTIONS : Nat := 4
def FKEYS : Nat := 5
def TXBOLT : Nat := 6

def CIRC : Nat := 0
def GRV : Nat := 1
def LESS : Nat := 2
def MORE : Nat := 3

/-- Source: `#define MOD(mod, kc) MACRO(I(15), DOWN(mod), TYPE(kc), UP(mod), END)`. -/
def MOD (mod kc : Keycode) : List MacroOp :=
  [.I 15, .DOWN mod, .TYPE kc, .UP mod]

/-- Source: `#define TPE(kc) MACRO(I(15), TYPE(kc), END)`. -/
def TPE (kc : Keycode) : List MacroOp :=
  [.I 15, .TYPE kc]

/-- Source:
`#define MOD_ND(mod, kc) MACRO(I(15), DOWN(mod), TYPE(kc), UP(mod), TYPE(KC_SPC), END)`. -/
def MOD_ND (mod kc : Keycode) : List MacroOp :=
  [.I 15, .DOWN mod, .TYPE kc, .UP mod, .TYPE .KC_SPC]

/-- Source: `#define TPE_ND(kc) MACRO(I(15), TYPE(kc), TYPE(KC_SPC), END)`. -/
def TPE_ND (kc : Keycode) : List MacroOp :=
  [.I 15, .TYPE kc, .TYPE .KC_SPC]

/-- The only global of the newer file: `uint16_t scan_no`. -/
structure State where
  scan_no : Nat
  deriving DecidableEq, Repr

/-- Static initialiser: `scan_no = 0`. -/
def init : State := { scan_no := 0 }

/-- Source function `action_get_macro(record, id, opt)` of the newer file; `pressed`
is `record->event.pressed`.  It reads and writes no global. -/
def action_get_macro (s : State) (pressed : Bool) (id : Nat) (opt : Nat) :
    State × List MacroOp :=
  if pressed then
    if id = CIRC then (s, TPE_ND .DE_CIRC)
    else if id = GRV then (s, MOD_ND .KC_LSFT .DE_ACUT)
    else if id = LESS then (s, TPE .DE_LESS)
    else if id = MORE then (s, MOD .KC_LSFT .DE_LESS)
    else (s, MACRO_NONE)
  else (s, MACRO_NONE)

/-- Source function `matrix_scan_user` of the newer file.  `layer` is the value of
`biton32(layer_state)` read at entry; `scan_no` is a `uint16_t`.  The result is the new
state and the LED primitives issued, in order. -/
def matrix_scan_user (s : State) (layer : Nat) : State × List LedOp :=
  let ops : List LedOp :=
    [.ergodox_board_led_off, .ergodox_right_led_1_off, .ergodox_right_led_2_off,
      .ergodox_right_led_3_off]
  let s1 : State :=
    if layer = NEO2_NEO2 then { s with scan_no := (s.scan_no + 1) % 65536 }
    else { s with scan_no := 0 }
  if layer = NEO2_NEO2 then
    if s1.scan_no % 1000 < 500 then (s1, ops ++ [.ergodox_board_led_on])
    else (s1, ops)
  else if layer = TXBOLT then (s1, ops ++ [.ergodox_board_led_on])
  else (s1, ops)

/-- The board LED after each of `n` consecutive calls of `matrix_scan_user` with the
same active layer, starting in state `s` with the LEDs `leds`. -/
def boardLedTrace (layer : Nat) : Nat → State → Leds → List Bool
  | 0, _, _ => []
  | n + 1, s, leds =>
    (applyLedOps leds (matrix_scan_user s layer).2).board ::
      boardLedTrace layer n (matrix_scan_user s layer).1
        (applyLedOps leds (matrix_scan_user s layer).2)

/-- The state after `n` consecutive calls of `matrix_scan_user` with the same layer. -/
def scans (layer : Nat) : Nat → State → State
  | 0, s => s
  | n + 1, s => scans layer n (matrix_scan_user s layer).1

/-! ### The layer table of the newer variant -/

open Older.KeyAction in
/-- The arguments of `[QWERTZ_NEO2] = LAYOUT_ergodox(...)`, in the order of the source: the 38
keys of the left hand, then the 38 keys of the right hand. -/
def QWERTZ_NEO2_LAYOUT : List Older.KeyAction :=
  [ -- left hand
    KC_NO, KC "KC_1", KC "KC_2", KC "KC_3", KC "KC_4", KC "KC_5", KC "DE_CIRC",
    KC_NO, KC "DE_X", KC "DE_V", KC "DE_L", KC "DE_C", KC "DE_W", KC "KC_PGUP",
    KC "KC_TAB", KC "DE_U", KC "DE_I", KC "DE_A", KC "DE_E", KC "DE_O",
    KC_NO, KC "DE_UE", KC "DE_OE", KC "DE_AE", KC "DE_P", KC "DE_Z", KC "KC_PGDN",
    KC "KC_APP", KC "KC_LGUI", KC_NO, KC_NO, MO NUMBERS,
    TG TXBOLT, MO FKEYS,
    KC "KC_LALT",
    MO SYMBOLS, KC "KC_LSFT", KC "KC_LCTL",
    -- right hand
    KC "DE_ACUT", KC "KC_6", KC "KC_7", KC "KC_8", KC "KC_9", KC "KC_0", KC "DE_GRV",
    KC "KC_ENT", KC "DE_K", KC "DE_H", KC "DE_G", KC "DE_F", KC "DE_Q", KC "DE_SS",
    KC "DE_S", KC "DE_N", KC "DE_R", KC "DE_T", KC "DE_D", KC "DE_Y",
    KC "KC_DEL", KC "DE_B", KC "DE_M", KC "KC_COMM", KC "KC_DOT", KC "DE_J", KC "KC_BSPC",
    MO FUNCTIONS, KC_NO, KC "KC_ESC", KC "KC_RGUI", KC_NO,
    KC_NO, TG NEO2_NEO2,
    KC "KC_RALT",
    KC "KC_RCTL", KC "KC_RSFT", KC "KC_SPC" ]

open Older.KeyAction in
/-- The arguments of `[NEO2_NEO2] = LAYOUT_ergodox(...)`, in the order of the source: the 38
keys of the left hand, then the 38 keys of the right hand. -/
def NEO2_NEO2_LAYOUT : List Older.KeyAction :=
  [ -- left hand
    KC_TRNS, KC "NEO_1", KC "NEO_2", KC "NEO_3", KC "NEO_4", KC "NEO_5", KC "NEO_CIRC",
    KC_TRNS, KC "NEO_X", KC "NEO_V", KC "NEO_L", KC "NEO_C", KC "NEO_W", KC_TRNS,
    KC_TRNS, KC "NEO_U", KC "NEO_I", KC "NEO_A", KC "NEO_E", KC "NEO_O",
    KC_TRNS, KC "NEO_UE", KC "NEO_OE", KC "NEO_AE", KC "NEO_P", KC "NEO_Z", KC_TRNS,
    KC_TRNS, KC_TRNS, KC_TRNS, KC_TRNS, KC_TRNS,
    KC_TRNS, KC_TRNS,
    KC_TRNS,
    KC "NEO_L1_L", KC_TRNS, KC_TRNS,
    -- right hand
    KC "NEO_ACUT", KC "NEO_6", KC "NEO_7", KC "NEO_8", KC "NEO_9", KC "NEO_0", KC "NEO_GRV",
    KC_TRNS, KC "NEO_K", KC "NEO_H", KC "NEO_G", KC "NEO_F", KC "NEO_Q", KC "NEO_SS",
    KC "NEO_S", KC "NEO_N", KC "NEO_R", KC "NEO_T", KC "NEO_D", KC "NEO_Y",
    KC_TRNS, KC "NEO_B", KC "NEO_M", KC "NEO_COMM", KC "NEO_DOT", KC "NEO_J", KC_TRNS,
    KC_TRNS, KC_TRNS, KC_TRNS, KC_TRNS, KC_TRNS,
    KC_TRNS, KC_TRNS,
    KC_TRNS,
    KC_TRNS, KC_TRNS, KC_TRNS ]

open Older.KeyAction in
/-- The arguments of `[SYMBOLS] = LAYOUT_ergodox(...)`, in the order of the source: the 38
keys of the left hand, then the 38 keys of the right hand. -/
def SYMBOLS_LAYOUT : List Older.KeyAction :=
  [ -- left hand
    KC_TRNS, KC_TRNS, KC_TRNS, KC_TRNS, KC_TRNS, KC_TRNS, KC_TRNS,
    KC_TRNS, KC_TRNS, KC "DE_UNDS", KC "DE_LBRC", KC "DE_RBRC", M CIRC, KC_TRNS,
    KC_TRNS, KC "DE_BSLS", KC "DE_SLSH", KC "DE_LCBR", KC "DE_RCBR", KC "DE_ASTR",
    KC_TRNS, KC "DE_HASH", KC "DE_DLR", KC "DE_PIPE", KC "DE_TILD", M GRV, KC_TRNS,
    KC_TRNS, KC_TRNS, KC_TRNS, KC_TRNS, KC_TRNS,
    KC_TRNS, KC_TRNS,
    KC_TRNS,
    KC_TRNS, KC_TRNS, KC_TRNS,
    -- right hand
    KC_TRNS, KC_TRNS, KC_TRNS, KC_TRNS, KC_TRNS, KC_TRNS, KC_TRNS,
    KC_TRNS, KC "DE_EXLM", M LESS, M MORE, KC "DE_EQL", KC "DE_AMPR", KC_TRNS,
    KC "DE_QST", KC "DE_LPRN", KC "DE_RPRN", KC "DE_MINS", KC "DE_COLN", KC "DE_AT",
    KC_TRNS, KC "DE_PLUS", KC "DE_PERC", KC "DE_DQOT", KC "DE_QUOT", KC "DE_SCLN", KC_TRNS,
    KC_TRNS, KC_TRNS, KC_TRNS, KC_TRNS, KC_TRNS,
    KC_TRNS, KC_TRNS,
    KC_TRNS,
    KC_TRNS, KC_TRNS, KC_TRNS ]

open Older.KeyAction in
/-- The arguments of `[NUMBERS] = LAYOUT_ergodox(...)`, in the order of the source: the 38
keys of the left hand, then the 38 keys of the right hand. -/
def NUMBERS_LAYOUT : List Older.KeyAction :=
  [ -- left hand
    KC_TRNS, KC_TRNS, KC_TRNS, KC_TRNS, KC_TRNS, KC_TRNS, KC_TRNS,
    KC_TRNS, KC_TRNS, KC_TRNS, KC_TRNS, KC_TRNS, KC_TRNS, KC_TRNS,
    KC_TRNS, KC_TRNS, KC_TRNS, KC_TRNS, KC_TRNS, KC_TRNS,
    KC_TRNS, KC_TRNS, KC_TRNS, KC_TRNS, KC_TRNS, KC_TRNS, KC_TRNS,
    KC_TRNS, KC_TRNS, KC_TRNS, KC_TRNS, KC_TRNS,
    KC_TRNS, KC_TRNS,
    KC_TRNS,
    KC_TRNS, KC_TRNS, KC_TRNS,
    -- right hand
    KC_TRNS, KC_TRNS, KC_TRNS, KC_TRNS, KC_TRNS, KC_TRNS, KC_TRNS,
    KC_TRNS, KC_TRNS, KC "KC_7", KC "KC_8", KC "KC_9", KC "DE_PLUS", KC "DE_MINS",
    KC_TRNS, KC "KC_4", KC "KC_5", KC "KC_6", KC "DE_COMM", KC "DE_DOT",
    KC_TRNS, KC_TRNS, KC "KC_1", KC "KC_2", KC "KC_3", KC "DE_SCLN", KC_TRNS,
    KC "KC_0", KC_TRNS, KC_TRNS, KC_TRNS, KC_TRNS,
    KC_TRNS, KC_TRNS,
    KC_TRNS,
    KC_TRNS, KC_TRNS, KC_TRNS ]

open Older.KeyAction in
/-- The arguments of `[FUNCTIONS] = LAYOUT_ergodox(...)`, in the order of the source: the 38
keys of the left hand, then the 38 keys of the right hand. -/
def FUNCTIONS_LAYOUT : List Older.KeyAction :=
  [ -- left hand
    KC_TRNS, KC_TRNS, KC_TRNS, KC_TRNS, KC_TRNS, KC_TRNS, KC_TRNS,
    KC_TRNS, KC "KC_PGUP", KC "KC_BSPC", KC "KC_UP", KC "KC_DELT", KC "KC_PGDN", KC_TRNS,
    KC_TRNS, KC "KC_HOME", KC "KC_LEFT", KC "KC_DOWN", KC "KC_RGHT", KC "KC_END",
    KC_TRNS, KC_TRNS, KC "KC_TAB", KC_TRNS, KC "KC_ENT", KC_TRNS, KC_TRNS,
    KC_TRNS, KC_TRNS, KC_TRNS, KC_TRNS, KC_TRNS,
    KC_TRNS, KC_TRNS,
    KC_TRNS,
    KC_TRNS, KC_TRNS, KC_TRNS,
    -- right hand
    KC_TRNS, KC_TRNS, KC_TRNS, KC_TRNS, KC_TRNS, KC_TRNS, KC_TRNS,
    KC_TRNS, KC_TRNS, KC_TRNS, KC_TRNS, KC_TRNS, KC_TRNS, KC_TRNS,
    KC_TRNS, KC_TRNS, KC_TRNS, KC_TRNS, KC_TRNS, KC_TRNS,
    KC_TRNS, KC_TRNS, KC_TRNS, KC_TRNS, KC_TRNS, KC_TRNS, KC_TRNS,
    KC_TRNS, KC_TRNS, KC_TRNS, KC_TRNS, KC_TRNS,
    KC_TRNS, KC_TRNS,
    KC_TRNS,
    KC_TRNS, KC_TRNS, KC_TRNS ]

open Older.KeyAction in
/-- The arguments of `[FKEYS] = LAYOUT_ergodox(...)`, in the order of the source: the 38
keys of the left hand, then the 38 keys of the right hand. -/
def FKEYS_LAYOUT : List Older.KeyAction :=
  [ -- left hand
    RESET, KC_TRNS, KC_TRNS, KC_TRNS, KC_TRNS, KC_TRNS, KC_TRNS,
    KC_TRNS, KC_TRNS, KC_TRNS, KC_TRNS, KC_TRNS, KC_TRNS, KC_TRNS,
    KC_TRNS, KC_TRNS, KC_TRNS, KC_TRNS, KC_TRNS, KC_TRNS,
    KC_TRNS, KC_TRNS, KC_TRNS, KC_TRNS, KC_TRNS, KC_TRNS, KC_TRNS,
    KC_TRNS, KC_TRNS, KC_TRNS, KC_TRNS, KC_TRNS,
    KC_TRNS, KC_TRNS,
    KC_TRNS,
    KC_TRNS, KC_TRNS, KC_TRNS,
    -- right hand
    KC_TRNS, KC_TRNS, KC "KC_F10", KC "KC_F11", KC "KC_F12", KC_TRNS, KC_TRNS,
    KC_TRNS, KC_TRNS, KC "KC_F7", KC "KC_F8", KC "KC_F9", KC_TRNS, KC_TRNS,
    KC_TRNS, KC "KC_F4", KC "KC_F5", KC "KC_F6", KC_TRNS, KC_TRNS,
    KC_TRNS, KC_TRNS, KC "KC_F1", KC "KC_F2", KC "KC_F3", KC_TRNS, KC_TRNS,
    KC_TRNS, KC_TRNS, KC_TRNS, KC_TRNS, KC_TRNS,
    KC_TRNS, KC_TRNS,
    KC_TRNS,
    KC_TRNS, KC_TRNS, KC_TRNS ]

open Older.KeyAction in
/-- The arguments of `[TXBOLT] = LAYOUT_ergodox(...)`, in the order of the source: the 38
keys of the left hand, then the 38 keys of the right hand. -/
def TXBOLT_LAYOUT : List Older.KeyAction :=
  [ -- left hand
    KC_NO, KC_NO, KC_NO, KC_NO, KC_NO, KC_NO, KC_NO,
    KC_NO, KC "STN_N1", KC "STN_N2", KC "STN_N3", KC "STN_N4", KC "STN_N5", KC_NO,
    KC_NO, KC "STN_S1", KC "STN_TL", KC "STN_PL", KC "STN_HL", KC "STN_ST1",
    KC_NO, KC "STN_S2", KC "STN_KL", KC "STN_WL", KC "STN_RL", KC "STN_ST2", KC_NO,
    KC_NO, KC_NO, KC_NO, KC_NO, KC_NO,
    KC_TRNS, KC_NO,
    KC_NO,
    KC "STN_A", KC "STN_O", KC_NO,
    -- right hand
    KC_NO, KC_NO, KC_NO, KC_NO, KC_NO, KC_NO, KC_NO,
    KC_NO, KC "STN_N6", KC "STN_N7", KC "STN_N8", KC "STN_N9", KC "STN_NA", KC "STN_NB",
    KC "STN_ST3", KC "STN_FR", KC "STN_PR", KC "STN_LR", KC "STN_TR", KC "STN_DR",
    KC_NO, KC "STN_ST4", KC "STN_RR", KC "STN_BR", KC "STN_GR", KC "STN_SR", KC "STN_ZR",
    KC_NO, KC_NO, KC_NO, KC_NO, KC_NO,
    KC_NO, KC_NO,
    KC_NO,
    KC_NO, KC "STN_E", KC "STN_U" ]

/-- The array `keymaps` of the newer file: the seven layers, indexed by layer number. -/
def keymaps : List (List Older.KeyAction) :=
  [QWERTZ_NEO2_LAYOUT, NEO2_NEO2_LAYOUT, SYMBOLS_LAYOUT, NUMBERS_LAYOUT, FUNCTIONS_LAYOUT,
    FKEYS_LAYOUT, TXBOLT_LAYOUT]

/-- The entry that layer `L` explicitly defines for the key at position `P` (its index
among the arguments of the initialiser), if there is one. -/
def entry (L P : Nat) : Option Older.KeyAction :=
  match keymaps.get? L with
  | some layer => layer.get? P
  | none => none

/-- Modelled from the spec: the layer-table lookup `lookup(layer, position)` of the
newer variant.  The framework macro `LAYOUT_ergodox`, which is not part of the keymap
file, places the 76 arguments of a layer in the key matrix and fills every position
it is not given with `KC_NO`; positions are numbered with the 76 defined keys first. -/
def lookup (L P : Nat) : Older.KeyAction := (entry L P).getD .KC_NO

end Newer

namespace Older

/-! ## Basic facts about single steps -/

theorem send_chord_eq (s : State) :
    send_chord s = { s with virtser := s.virtser ++ flushMessage s.chord } := by
  obtain ⟨⟨a, b, c, d⟩, pc, sn, v⟩ := s
  simp only [send_chord, flushMessage, Chord.toList, Chord.get, virtser_send, List.foldl]
  by_cases ha : a = 0 <;> by_cases hb : b = 0 <;> by_cases hc : c = 0 <;>
    by_cases hd : d = 0 <;> simp [ha, hb, hc, hd, List.filter]

theorem grp_lt_four (id : Nat) : (id &&& GRPMASK) >>> 6 < 4 := by
  have h : id &&& GRPMASK ≤ GRPMASK := Nat.and_le_right
  rw [Nat.shiftRight_eq_div_pow]
  simp only [GRPMASK] at h ⊢
  omega

set_option maxRecDepth 100000 in
theorem grp_eq_div (id : Nat) (h : id < 256) : (id &&& GRPMASK) >>> 6 = id / 64 := by
  revert id
  decide

set_option maxRecDepth 100000 in
theorem id_eq_group_mask (id : Nat) (h : id < 256) :
    id = ((groupOf id) <<< 6) ||| (id &&& 0x3F) := by
  revert id
  decide

theorem process_record_user_fst (s : State) (kc : Nat) (p : Bool) :
    (process_record_user s kc p).1 =
      { s with pressed_count := (s.pressed_count + (if p then 1 else 255)) % 256 } := by
  cases p <;> simp [process_record_user]

theorem process_record_user_snd (s : State) (kc : Nat) (p : Bool) :
    (process_record_user s kc p).2 = true := by
  cases p <;> simp [process_record_user]

/-- The state after a flush taken in state `s`. -/
theorem action_get_macro_flush (s : State) (id opt : Nat) (h : s.pressed_count = 0) :
    ( action_get_macro s TXBOLT false id opt).1 =
      { s with chord := ⟨0, 0, 0, 0⟩, virtser := s.virtser ++ flushMessage s.chord } := by
  simp [ action_get_macro, h, send_chord_eq]

theorem key_event_plain (s : State) (kc l : Nat) (p : Bool) :
    key_event s ⟨.plain kc, p, l⟩ =
      { s with pressed_count := (s.pressed_count + (if p then 1 else 255)) % 256 } := by
  simp [key_event, process_record_user_fst, process_record_user_snd]

theorem key_event_pressM_steno (s : State) (id : Nat) :
    key_event s (pressM id TXBOLT) =
      { s with pressed_count := (s.pressed_count + 1) % 256,
               chord := s.chord.set ((id &&& GRPMASK) >>> 6)
                 ((s.chord.get ((id &&& GRPMASK) >>> 6) ||| id) % 256) } := by
  simp [key_event, pressM, process_record_user_fst, process_record_user_snd, action_get_macro]

theorem key_event_pressM_other (s : State) (id l : Nat) (hl : l ≠ TXBOLT) :
    key_event s (pressM id l) = { s with pressed_count := (s.pressed_count + 1) % 256 } := by
  simp only [key_event, pressM, process_record_user_fst, process_record_user_snd,
    action_get_macro, if_true, if_neg hl]
  split_ifs <;> rfl

theorem key_event_releaseM_flush (s : State) (id : Nat)
    (h : (s.pressed_count + 255) % 256 = 0) :
    key_event s (releaseM id TXBOLT) =
      { s with pressed_count := 0, chord := ⟨0, 0, 0, 0⟩,
               virtser := s.virtser ++ flushMessage s.chord } := by
  simp [key_event, releaseM, process_record_user_fst, process_record_user_snd,
    action_get_macro, h, send_chord_eq]

theorem key_event_releaseM_noflush (s : State) (id l : Nat)
    (h : (s.pressed_count + 255) % 256 ≠ 0 ∨ l ≠ TXBOLT) :
    key_event s (releaseM id l) =
      { s with pressed_count := (s.pressed_count + 255) % 256 } := by
  have h2 : ¬ ((s.pressed_count + 255) % 256 = 0 ∧ l = TXBOLT) := by
    rintro ⟨a, b⟩
    rcases h with h | h
    · exact h a
    · exact h b
  simp [key_event, releaseM, process_record_user_fst, process_record_user_snd,
    action_get_macro, h2]

theorem run_nil (s : State) : run s [] = s := rfl

theorem run_cons (s : State) (e : KeyEvent) (es : List KeyEvent) :
    run s (e :: es) = run (key_event s e) es := rfl

theorem run_append (s : State) (es fs : List KeyEvent) :
    run s (es ++ fs) = run (run s es) fs := by
  simp [run, List.foldl_append]

theorem byte_or_lt (a b : Nat) (ha : a < 256) (hb : b < 256) : a ||| b < 256 :=
  Nat.or_lt_two_pow (n := 8) ha hb

theorem byte_or_mod (a b : Nat) (ha : a < 256) (hb : b < 256) : (a ||| b) % 256 = a ||| b :=
  Nat.mod_eq_of_lt (byte_or_lt a b ha hb)

theorem Chord.set_WF (c : Chord) (hc : c.WF) (g v : Nat) (hv : v < 256) : (c.set g v).WF := by
  obtain ⟨w0, w1, w2, w3⟩ := hc
  unfold Chord.set
  split
  · exact ⟨hv, w1, w2, w3⟩
  · exact ⟨w0, hv, w2, w3⟩
  · exact ⟨w0, w1, hv, w3⟩
  · exact ⟨w0, w1, w2, hv⟩
  · exact ⟨w0, w1, w2, w3⟩

theorem orGroup_nil (g : Nat) : orGroup g [] = 0 := rfl

theorem orGroup_cons (g id : Nat) (ids : List Nat) :
    orGroup g (id :: ids) = if groupOf id = g then id ||| orGroup g ids else orGroup g ids := by
  unfold orGroup
  by_cases h : groupOf id = g <;> simp [List.filter, h]

theorem orGroup_lt (g : Nat) (ids : List Nat) (hid : ∀ id ∈ ids, id < 256) :
    orGroup g ids < 256 := by
  induction ids with
  | nil => simp [orGroup_nil]
  | cons a t ih =>
    have ht : ∀ id ∈ t, id < 256 := fun id hm => hid id (List.mem_cons_of_mem _ hm)
    rw [orGroup_cons]
    split_ifs
    · exact byte_or_lt _ _ (hid a (List.mem_cons_self _ _)) (ih ht)
    · exact ih ht

theorem grp_eq_groupOf (id : Nat) (h : id < 256) : (id &&& GRPMASK) >>> 6 = groupOf id := by
  rw [grp_eq_div id h, groupOf, Nat.shiftRight_eq_div_pow]

/-- Pressing the steno keys `ids` one after the other ORs each id into its group byte
and counts the presses. -/
theorem run_pressAll (ids : List Nat) (hid : ∀ id ∈ ids, id < 256) (s : State)
    (hwf : s.chord.WF) (hpc : s.pressed_count < 256) :
    run s (pressAll ids) =
      { s with pressed_count := (s.pressed_count + ids.length) % 256,
               chord := ⟨s.chord.c0 ||| orGroup 0 ids, s.chord.c1 ||| orGroup 1 ids,
                         s.chord.c2 ||| orGroup 2 ids, s.chord.c3 ||| orGroup 3 ids⟩ } := by
  induction ids generalizing s with
  | nil =>
    obtain ⟨⟨a, b, c, d⟩, pc, sn, v⟩ := s
    simp only [pressAll, List.map_nil, run_nil, orGroup_nil, Nat.or_zero, List.length_nil,
      Nat.add_zero]
    simp only at hpc
    rw [Nat.mod_eq_of_lt hpc]
  | cons a t ih =>
    have ha : a < 256 := hid a (List.mem_cons_self _ _)
    have ht : ∀ id ∈ t, id < 256 := fun id hm => hid id (List.mem_cons_of_mem _ hm)
    obtain ⟨⟨c0, c1, c2, c3⟩, pc, sn, v⟩ := s
    obtain ⟨w0, w1, w2, w3⟩ := hwf
    simp only at w0 w1 w2 w3 hpc
    have hg : groupOf a < 4 := by
      rw [← grp_eq_groupOf a ha]
      exact grp_lt_four a
    have hstep : pressAll (a :: t) = pressM a TXBOLT :: pressAll t := rfl
    rw [hstep, run_cons, key_event_pressM_steno, grp_eq_groupOf a ha]
    have hmod : ((pc + 1) % 256 + t.length) % 256 = (pc + (t.length + 1)) % 256 := by omega
    have hwf1 : (Chord.set ⟨c0, c1, c2, c3⟩ (groupOf a)
        ((Chord.get ⟨c0, c1, c2, c3⟩ (groupOf a) ||| a) % 256)).WF :=
      Chord.set_WF _ ⟨w0, w1, w2, w3⟩ _ _ (Nat.mod_lt _ (by decide))
    rw [ih ht _ hwf1 (Nat.mod_lt _ (by decide))]
    generalize hgv : groupOf a = g at hg
    interval_cases g
    · simp [Chord.set, Chord.get, orGroup_cons, hgv, byte_or_mod c0 a w0 ha, hmod,
        Nat.lor_assoc]
    · simp [Chord.set, Chord.get, orGroup_cons, hgv, byte_or_mod c1 a w1 ha, hmod,
        Nat.lor_assoc]
    · simp [Chord.set, Chord.get, orGroup_cons, hgv, byte_or_mod c2 a w2 ha, hmod,
        Nat.lor_assoc]
    · simp [Chord.set, Chord.get, orGroup_cons, hgv, byte_or_mod c3 a w3 ha, hmod,
        Nat.lor_assoc]

/-- Releasing fewer keys than are counted as held sends nothing. -/
theorem run_releaseAll_not_all (rs : List Nat) (s : State) (hpc : s.pressed_count < 256)
    (hlt : rs.length < s.pressed_count) :
    run s (releaseAll rs) = { s with pressed_count := s.pressed_count - rs.length } := by
  induction rs generalizing s with
  | nil => rfl
  | cons a t ih =>
    have hstep : releaseAll (a :: t) = releaseM a TXBOLT :: releaseAll t := rfl
    simp only [List.length_cons] at hlt
    have h1 : (s.pressed_count + 255) % 256 = s.pressed_count - 1 := by omega
    rw [hstep, run_cons, key_event_releaseM_noflush s a TXBOLT (Or.inl (by omega)), h1,
      ih _ (by simp only; omega) (by simp only; omega)]
    simp only [List.length_cons]
    congr 1
    omega

/-- Releasing exactly as many keys as are counted as held flushes at the last
release, and only there. -/
theorem run_releaseAll_full (rs : List Nat) (s : State) (hpc : s.pressed_count < 256)
    (hpos : rs ≠ []) (hlen : rs.length = s.pressed_count) :
    run s (releaseAll rs) =
      { s with pressed_count := 0, chord := ⟨0, 0, 0, 0⟩,
               virtser := s.virtser ++ flushMessage s.chord } := by
  induction rs generalizing s with
  | nil => exact absurd rfl hpos
  | cons a t ih =>
    have hstep : releaseAll (a :: t) = releaseM a TXBOLT :: releaseAll t := rfl
    simp only [List.length_cons] at hlen
    rw [hstep, run_cons]
    cases t with
    | nil =>
      simp only [List.length_nil] at hlen
      rw [key_event_releaseM_flush s a (by omega)]
      rfl
    | cons b u =>
      simp only [List.length_cons] at hlen
      have h1 : (s.pressed_count + 255) % 256 = s.pressed_count - 1 := by omega
      rw [key_event_releaseM_noflush s a TXBOLT (Or.inl (by omega)), h1,
        ih _ (by simp only; omega) (by simp) (by simp only [List.length_cons]; omega)]

theorem pressAll_take (ids : List Nat) (n : Nat) :
    (pressAll ids).take n = pressAll (ids.take n) := by
  simp [pressAll, List.map_take]

theorem releaseAll_take (ids : List Nat) (n : Nat) :
    (releaseAll ids).take n = releaseAll (ids.take n) := by
  simp [releaseAll, List.map_take]

theorem pressAll_length (ids : List Nat) : (pressAll ids).length = ids.length := by
  simp [pressAll]

theorem releaseAll_length (ids : List Nat) : (releaseAll ids).length = ids.length := by
  simp [releaseAll]

theorem init_WF : init.chord.WF := by decide

theorem key_event_pressed_count (s : State) (e : KeyEvent) :
    (key_event s e).pressed_count = (s.pressed_count + (if e.pressed then 1 else 255)) % 256 := by
  obtain ⟨b, p, l⟩ := e
  cases b with
  | plain kc => rw [key_event_plain]
  | M id =>
    cases p with
    | true =>
      by_cases hl : l = TXBOLT
      · subst hl
        exact congrArg State.pressed_count (key_event_pressM_steno s id)
      · exact congrArg State.pressed_count (key_event_pressM_other s id l hl)
    | false =>
      by_cases hf : (s.pressed_count + 255) % 256 = 0 ∧ l = TXBOLT
      · obtain ⟨h0, hl⟩ := hf
        subst hl
        have := congrArg State.pressed_count (key_event_releaseM_flush s id h0)
        simp only [releaseM] at this
        simp [this, h0]
      · have hf2 : (s.pressed_count + 255) % 256 ≠ 0 ∨ l ≠ TXBOLT := by
          by_cases h0 : (s.pressed_count + 255) % 256 = 0
          · exact Or.inr (fun hl => hf ⟨h0, hl⟩)
          · exact Or.inl h0
        exact congrArg State.pressed_count (key_event_releaseM_noflush s id l hf2)

/-- When the guard holds the event clears the chord and sends the flush message. -/
theorem key_event_of_flushGuard (s : State) (e : KeyEvent) (h : flushGuard s e) :
    key_event s e = { s with pressed_count := 0, chord := ⟨0, 0, 0, 0⟩,
                             virtser := s.virtser ++ flushMessage s.chord } := by
  obtain ⟨b, p, l⟩ := e
  obtain ⟨hp, hm, h0, hl⟩ := h
  simp only at hp hl
  subst hp hl
  cases b with
  | plain kc => simp [KeyEvent.isMacro] at hm
  | M id => exact key_event_releaseM_flush s id h0

/-- When the guard fails the event leaves the serial link alone. -/
theorem key_event_virtser_of_not_flushGuard (s : State) (e : KeyEvent) (h : ¬ flushGuard s e) :
    (key_event s e).virtser = s.virtser := by
  obtain ⟨b, p, l⟩ := e
  cases b with
  | plain kc => rw [key_event_plain]
  | M id =>
    cases p with
    | true =>
      by_cases hl : l = TXBOLT
      · subst hl
        show (key_event s (pressM id TXBOLT)).virtser = s.virtser
        rw [key_event_pressM_steno]
      · show (key_event s (pressM id l)).virtser = s.virtser
        rw [key_event_pressM_other s id l hl]
    | false =>
      have hf2 : (s.pressed_count + 255) % 256 ≠ 0 ∨ l ≠ TXBOLT := by
        by_cases h0 : (s.pressed_count + 255) % 256 = 0
        · exact Or.inr (fun hl => h ⟨rfl, rfl, h0, hl⟩)
        · exact Or.inl h0
      show (key_event s (releaseM id l)).virtser = s.virtser
      rw [key_event_releaseM_noflush s id l hf2]

theorem emitted_of_flushGuard (s : State) (e : KeyEvent) (h : flushGuard s e) :
    emitted s e = flushMessage s.chord := by
  rw [emitted, key_event_of_flushGuard s e h]
  simp

theorem emitted_of_not_flushGuard (s : State) (e : KeyEvent) (h : ¬ flushGuard s e) :
    emitted s e = [] := by
  rw [emitted, key_event_virtser_of_not_flushGuard s e h]
  simp

theorem flushMessage_ne_nil (c : Chord) : flushMessage c ≠ [] := by
  simp [flushMessage]

theorem flushes_iff_flushGuard (s : State) (e : KeyEvent) : flushes s e ↔ flushGuard s e := by
  unfold flushes
  constructor
  · intro h
    by_contra hn
    exact h (emitted_of_not_flushGuard s e hn)
  · intro h
    rw [emitted_of_flushGuard s e h]
    exact flushMessage_ne_nil _

theorem key_event_virtser (s : State) (e : KeyEvent) :
    (key_event s e).virtser = s.virtser ++ emitted s e := by
  by_cases h : flushGuard s e
  · rw [emitted_of_flushGuard s e h, key_event_of_flushGuard s e h]
  · rw [emitted_of_not_flushGuard s e h, key_event_virtser_of_not_flushGuard s e h]
    simp

theorem key_event_pressed_count_lt (s : State) (e : KeyEvent) :
    (key_event s e).pressed_count < 256 := by
  rw [key_event_pressed_count]
  exact Nat.mod_lt _ (by decide)

theorem presses_cons (e : KeyEvent) (es : List KeyEvent) :
    presses (e :: es) = presses es + (if e.pressed then 1 else 0) := by
  simp [presses, List.countP_cons]

theorem releases_cons (e : KeyEvent) (es : List KeyEvent) :
    releases (e :: es) = releases es + (if e.pressed then 0 else 1) := by
  cases h : e.pressed <;> simp [releases, List.countP_cons, h]

/-- The counter follows presses minus releases modulo 256, from any 8-bit start. -/
theorem run_pressed_count (es : List KeyEvent) (s : State) (hpc : s.pressed_count < 256) :
    ((run s es).pressed_count : Int)
      = ((s.pressed_count : Int) + (presses es : Int) - (releases es : Int)) % 256 := by
  induction es generalizing s with
  | nil =>
    simp only [run_nil, presses, releases, List.countP_nil]
    omega
  | cons e t ih =>
    rw [run_cons, ih _ (key_event_pressed_count_lt s e), key_event_pressed_count,
      presses_cons, releases_cons]
    cases e.pressed <;> simp <;> omega

theorem run_virtser_of_off_steno (es : List KeyEvent) (s : State)
    (h : ∀ e ∈ es, e.layer ≠ TXBOLT) : (run s es).virtser = s.virtser := by
  induction es generalizing s with
  | nil => rfl
  | cons e t ih =>
    have he : ¬ flushGuard s e := fun hg => h e (List.mem_cons_self _ _) hg.2.2.2
    rw [run_cons, ih _ (fun x hx => h x (List.mem_cons_of_mem _ hx)),
      key_event_virtser_of_not_flushGuard s e he]

theorem orGroup_append (g : Nat) (a b : List Nat) :
    orGroup g (a ++ b) = orGroup g a ||| orGroup g b := by
  induction a with
  | nil => simp [orGroup_nil]
  | cons x t ih =>
    rw [List.cons_append, orGroup_cons, orGroup_cons, ih]
    split_ifs
    · rw [Nat.lor_assoc]
    · rfl

theorem orGroup_single (g id : Nat) :
    orGroup g [id] = if groupOf id = g then id else 0 := by
  rw [orGroup_cons, orGroup_nil, Nat.or_zero]

theorem Chord.holds_WF (c : Chord) (ids : List Nat) (h : c.holds ids)
    (hid : ∀ id ∈ ids, id < 256) : c.WF := by
  rw [h]
  exact ⟨orGroup_lt 0 ids hid, orGroup_lt 1 ids hid, orGroup_lt 2 ids hid, orGroup_lt 3 ids hid⟩

/-- A steno press adds its id to what the chord holds. -/
theorem holds_after_stenoPress (c : Chord) (ids : List Nat) (id : Nat) (h : c.holds ids)
    (hid : ∀ x ∈ ids, x < 256) (hlt : id < 256) :
    (c.set ((id &&& GRPMASK) >>> 6) ((c.get ((id &&& GRPMASK) >>> 6) ||| id) % 256)).holds
      (ids ++ [id]) := by
  have hwf := Chord.holds_WF c ids h hid
  have hg : groupOf id < 4 := by
    rw [← grp_eq_groupOf id hlt]
    exact grp_lt_four id
  rw [grp_eq_groupOf id hlt]
  obtain ⟨w0, w1, w2, w3⟩ := hwf
  unfold Chord.holds at h ⊢
  simp only [orGroup_append, orGroup_single]
  generalize hgv : groupOf id = g at hg
  obtain ⟨c0, c1, c2, c3⟩ := c
  simp only [Chord.mk.injEq] at h
  obtain ⟨h0, h1, h2, h3⟩ := h
  simp only at w0 w1 w2 w3
  interval_cases g
  · simp [Chord.set, Chord.get, byte_or_mod c0 id w0 hlt, h0, h1, h2, h3]
    exact byte_or_lt _ _ (orGroup_lt _ ids hid) hlt
  · simp [Chord.set, Chord.get, byte_or_mod c1 id w1 hlt, h0, h1, h2, h3]
    exact byte_or_lt _ _ (orGroup_lt _ ids hid) hlt
  · simp [Chord.set, Chord.get, byte_or_mod c2 id w2 hlt, h0, h1, h2, h3]
    exact byte_or_lt _ _ (orGroup_lt _ ids hid) hlt
  · simp [Chord.set, Chord.get, byte_or_mod c3 id w3 hlt, h0, h1, h2, h3]
    exact byte_or_lt _ _ (orGroup_lt _ ids hid) hlt

theorem stenoPress_eq_some (e : KeyEvent) (id : Nat) (h : e.stenoPress = some id) :
    e = pressM id TXBOLT := by
  obtain ⟨b, p, l⟩ := e
  cases b with
  | plain kc => simp [KeyEvent.stenoPress] at h
  | M i =>
    simp only [KeyEvent.stenoPress] at h
    split_ifs at h with hc
    obtain ⟨hp, hl⟩ := hc
    simp only [Option.some.injEq] at h
    subst hp hl h
    rfl

theorem key_event_chord_of_stenoPress (s : State) (e : KeyEvent) (id : Nat)
    (h : e.stenoPress = some id) :
    (key_event s e).chord =
      s.chord.set ((id &&& GRPMASK) >>> 6) ((s.chord.get ((id &&& GRPMASK) >>> 6) ||| id) % 256) := by
  rw [stenoPress_eq_some e id h, key_event_pressM_steno]

theorem key_event_chord_of_other (s : State) (e : KeyEvent) (hf : ¬ flushGuard s e)
    (h : e.stenoPress = none) : (key_event s e).chord = s.chord := by
  obtain ⟨b, p, l⟩ := e
  cases b with
  | plain kc => rw [key_event_plain]
  | M id =>
    cases p with
    | true =>
      have hl : l ≠ TXBOLT := by
        intro hl
        simp [KeyEvent.stenoPress, hl] at h
      show (key_event s (pressM id l)).chord = s.chord
      rw [key_event_pressM_other s id l hl]
    | false =>
      have hf2 : (s.pressed_count + 255) % 256 ≠ 0 ∨ l ≠ TXBOLT := by
        by_cases h0 : (s.pressed_count + 255) % 256 = 0
        · exact Or.inr (fun hl => hf ⟨rfl, rfl, h0, hl⟩)
        · exact Or.inl h0
      show (key_event s (releaseM id l)).chord = s.chord
      rw [key_event_releaseM_noflush s id l hf2]

theorem holds_nil : Chord.holds ⟨0, 0, 0, 0⟩ [] := rfl

/-- Along any run the chord bytes are the group-wise OR of the steno ids pressed
since the last flush. -/
theorem run_holds_pressedSinceFlush (es : List KeyEvent) (s : State) (acc : List Nat)
    (hid : ∀ x ∈ es, x.byteId) (hacc : ∀ x ∈ acc, x < 256) (h : s.chord.holds acc) :
    (run s es).chord.holds (pressedSinceFlush s acc es)
      ∧ ∀ x ∈ pressedSinceFlush s acc es, x < 256 := by
  induction es generalizing s acc with
  | nil => exact ⟨h, hacc⟩
  | cons e t ih =>
    have ht : ∀ x ∈ t, x.byteId := fun x hx => hid x (List.mem_cons_of_mem _ hx)
    have he : e.byteId := hid e (List.mem_cons_self _ _)
    rw [run_cons]
    unfold pressedSinceFlush
    by_cases hf : flushes s e
    · rw [if_pos hf]
      have hg := (flushes_iff_flushGuard s e).mp hf
      refine ih _ [] ht (by simp) ?_
      rw [key_event_of_flushGuard s e hg]
      exact holds_nil
    · rw [if_neg hf]
      have hg : ¬ flushGuard s e := fun hg => hf ((flushes_iff_flushGuard s e).mpr hg)
      cases hsp : e.stenoPress with
      | none =>
        refine ih _ acc ht hacc ?_
        rw [key_event_chord_of_other s e hg hsp]
        exact h
      | some id =>
        have hlt : id < 256 := by
          have := stenoPress_eq_some e id hsp
          rw [this] at he
          exact he
        refine ih _ (acc ++ [id]) ht ?_ ?_
        · intro x hx
          rcases List.mem_append.mp hx with hx | hx
          · exact hacc x hx
          · rw [List.mem_singleton.mp hx]
            exact hlt
        · rw [key_event_chord_of_stenoPress s e id hsp]
          exact holds_after_stenoPress s.chord acc id h hacc hlt

theorem flushMessage_of_holds (c : Chord) (ids : List Nat) (h : c.holds ids) :
    flushMessage c = expectedMessage ids := by
  rw [h]
  rfl

/-- Idle invariant along well-formed traffic whose chords all end on the steno layer. -/
theorem run_idle_invariant (es : List KeyEvent) (s : State) (held : Nat)
    (hpc : s.pressed_count = held) (hheld : held ≤ 255)
    (hinv : held = 0 → s.chord = ⟨0, 0, 0, 0⟩)
    (hwf : wellFormed held es = true) (hz : chordsEndOnSteno s es = true) :
    (run s es).pressed_count = 0 → (run s es).chord = ⟨0, 0, 0, 0⟩ := by
  induction es generalizing s held with
  | nil =>
    intro h0
    exact hinv (hpc ▸ h0)
  | cons e t ih =>
    rw [run_cons]
    simp only [wellFormed] at hwf
    simp only [chordsEndOnSteno, Bool.and_eq_true] at hz
    obtain ⟨hz1, hz2⟩ := hz
    have hcount := key_event_pressed_count s e
    cases hp : e.pressed with
    | true =>
      simp only [hp, if_true, Bool.and_eq_true, decide_eq_true_eq] at hwf
      rw [hp, if_pos rfl, hpc] at hcount
      have hc1 : (key_event s e).pressed_count = held + 1 := by omega
      exact ih _ (held + 1) hc1 (by omega) (by omega) hwf.2 hz2
    | false =>
      simp only [hp, Bool.false_eq_true, if_false, Bool.and_eq_true, decide_eq_true_eq] at hwf
      rw [hp, if_neg (by simp), hpc] at hcount
      have hc1 : (key_event s e).pressed_count = held - 1 := by omega
      refine ih _ (held - 1) hc1 (by omega) ?_ hwf.2 hz2
      intro h1
      have hzero : (key_event s e).pressed_count = 0 := by omega
      rw [if_pos ⟨hp, hzero⟩] at hz1
      simp only [Bool.and_eq_true, decide_eq_true_eq] at hz1
      have hg : flushGuard s e := ⟨hp, hz1.1, by omega, hz1.2⟩
      rw [key_event_of_flushGuard s e hg]

theorem Chord.get_set (c : Chord) (g v k : Nat) :
    (c.set g v).get k = if g = k ∧ g < 4 then v else c.get k := by
  unfold Chord.set Chord.get
  split <;> split <;> simp_all <;> omega

theorem byte_testBit_lt (a i : Nat) (ha : a < 256) (h : a.testBit i = true) : i < 8 := by
  by_contra hn
  have h2 : a < 2 ^ i :=
    lt_of_lt_of_le ha (by
      have : (2 : Nat) ^ 8 ≤ 2 ^ i := Nat.pow_le_pow_right (by decide) (by omega)
      simpa using this)
  rw [Nat.testBit_lt_two_pow h2] at h
  exact Bool.false_ne_true h

/-- An event that does not satisfy the flush guard keeps every chord bit that is set. -/
theorem chord_bits_kept_of_not_flushGuard (s : State) (e : KeyEvent) (hwf : s.chord.WF)
    (hg : ¬ flushGuard s e) (g i : Nat) (h : (s.chord.get g).testBit i = true) :
    ((key_event s e).chord.get g).testBit i = true := by
  cases hsp : e.stenoPress with
  | none =>
    rw [key_event_chord_of_other s e hg hsp]
    exact h
  | some id =>
    rw [key_event_chord_of_stenoPress s e id hsp, Chord.get_set]
    split_ifs with hc
    · obtain ⟨hgk, _⟩ := hc
      rw [hgk]
      have hlt : s.chord.get g < 256 := by
        obtain ⟨w0, w1, w2, w3⟩ := hwf
        unfold Chord.get
        split <;> first | assumption | decide
      have hi : i < 8 := byte_testBit_lt _ i hlt h
      have h256 : (256 : Nat) = 2 ^ 8 := by decide
      rw [h256, Nat.testBit_mod_two_pow, Nat.testBit_or, h]
      simp [hi]
    · exact h

theorem flushMessage_data (c : Chord) :
    (c.toList.filter (fun b => b ≠ 0)).length ≤ 4
      ∧ (∀ b ∈ c.toList.filter (fun b => b ≠ 0), b ≠ 0)
      ∧ (c.toList.filter (fun b => b ≠ 0) = [] ↔ c = ⟨0, 0, 0, 0⟩) := by
  refine ⟨?_, ?_, ?_⟩
  · exact le_trans (List.length_filter_le _ _) (by simp [Chord.toList])
  · intro b hb
    simpa using (List.mem_filter.mp hb).2
  · obtain ⟨a, b, c, d⟩ := c
    simp [Chord.toList, List.filter_eq_nil_iff]

/-- Fewer than 256 macro keys with 8-bit ids, all pressed from idle on the steno layer
and then released in any order: nothing is sent before the last release, which sends
the expected message and leaves the accumulator idle. -/
theorem chord_of_ids_flushed_once (ids rel : List Nat) (hne : ids ≠ [])
    (hlen : ids.length < 256) (hid : ∀ id ∈ ids, id < 256) (hperm : rel.Perm ids) :
    (∀ n, n < (pressAll ids ++ releaseAll rel).length →
        (run init ((pressAll ids ++ releaseAll rel).take n)).virtser = [])
      ∧ (run init (pressAll ids ++ releaseAll rel)).virtser = expectedMessage ids
      ∧ (run init (pressAll ids ++ releaseAll rel)).chord = ⟨0, 0, 0, 0⟩
      ∧ (run init (pressAll ids ++ releaseAll rel)).pressed_count = 0 := by
  have hrl : rel.length = ids.length := hperm.length_eq
  have hrne : rel ≠ [] := by
    intro h
    rw [h] at hrl
    exact hne (List.length_eq_zero.mp hrl.symm)
  have hP : run init (pressAll ids) =
      { init with pressed_count := ids.length,
                  chord := ⟨orGroup 0 ids, orGroup 1 ids, orGroup 2 ids, orGroup 3 ids⟩ } := by
    rw [run_pressAll ids hid init init_WF (by decide)]
    simp [init, Nat.mod_eq_of_lt hlen]
  have hfull : run init (pressAll ids ++ releaseAll rel) =
      { init with virtser := expectedMessage ids } := by
    rw [run_append, hP, run_releaseAll_full rel _ hlen hrne hrl]
    simp [init, flushMessage, expectedMessage, Chord.toList]
  refine ⟨?_, ?_, ?_, ?_⟩
  · intro n hn
    rw [List.length_append, pressAll_length, releaseAll_length] at hn
    rw [List.take_append_eq_append_take, pressAll_take, releaseAll_take, run_append,
      pressAll_length]
    have htk : ∀ id ∈ ids.take n, id < 256 := fun id hm => hid id (List.mem_of_mem_take hm)
    rw [run_pressAll _ htk init init_WF (by decide)]
    have hl1 : (ids.take n).length ≤ ids.length := by
      rw [List.length_take]; exact Nat.min_le_right _ _
    by_cases hcase : n ≤ ids.length
    · have : n - ids.length = 0 := by omega
      rw [this, List.take_zero]
      rfl
    · have hn1 : (ids.take n).length = ids.length := by
        rw [List.length_take]; omega
      have hk : (rel.take (n - ids.length)).length < ids.length := by
        rw [List.length_take]; omega
      rw [run_releaseAll_not_all]
      · rfl
      · exact Nat.mod_lt _ (by decide)
      · simp only [init, Nat.zero_add, hn1, Nat.mod_eq_of_lt hlen]
        exact hk
  · rw [hfull]
  · rw [hfull]; rfl
  · rw [hfull]; rfl

theorem TXBOLT_KEYMAP_length : TXBOLT_KEYMAP.length = 76 := by decide

theorem TXBOLT_KEYMAP_ids_lt :
    ∀ a ∈ TXBOLT_KEYMAP, ∀ id, a = KeyAction.M id → id < 256 := by
  have h : ∀ a ∈ TXBOLT_KEYMAP,
      (match a with
        | KeyAction.M id => decide (id < 256)
        | _ => true) = true := by decide
  intro a ha id hid
  have := h a ha
  rw [hid] at this
  simpa using this

theorem stenoIdAt_some (k id : Nat) (h : stenoIdAt k = some id) : k < 76 ∧ id < 256 := by
  unfold stenoIdAt at h
  split at h
  · rename_i i hget
    simp only [Option.some.injEq] at h
    subst h
    obtain ⟨hk, hget2⟩ := List.get?_eq_some.mp hget
    refine ⟨by rw [← TXBOLT_KEYMAP_length]; exact hk, ?_⟩
    exact TXBOLT_KEYMAP_ids_lt _ (hget2 ▸ List.get_mem _ _ _) _ rfl
  · exact absurd h (by simp)

theorem stenoId_lt (k : Nat) : stenoId k < 256 := by
  unfold stenoId
  cases h : stenoIdAt k with
  | none => simp
  | some id => simpa using (stenoIdAt_some k id h).2

/-- Distinct keys of the board are fewer than 256. -/
theorem distinct_keys_length (ks : List Nat) (hnd : ks.Nodup)
    (hsteno : ∀ k ∈ ks, (stenoIdAt k).isSome = true) : ks.length < 256 := by
  have hsub : ks ⊆ List.range 76 := by
    intro k hk
    obtain ⟨id, hid⟩ := Option.isSome_iff_exists.mp (hsteno k hk)
    exact List.mem_range.mpr (stenoIdAt_some k id hid).1
  have := (hnd.subperm hsub).length_le
  rw [List.length_range] at this
  omega

theorem groupOf_or (a b : Nat) : groupOf (a ||| b) = groupOf a ||| groupOf b := by
  unfold groupOf
  apply Nat.eq_of_testBit_eq
  intro i
  simp [Nat.testBit_shiftRight, Nat.testBit_or]

theorem and_or_mask (a b m : Nat) : (a ||| b) &&& m = (a &&& m) ||| (b &&& m) := by
  apply Nat.eq_of_testBit_eq
  intro i
  simp [Nat.testBit_and, Nat.testBit_or, Bool.and_or_distrib_right]

theorem groupOf_zero : groupOf 0 = 0 := by simp [groupOf]

/-- A group byte built from ids of group `g` is 0 or carries `g` in its top bits. -/
theorem orGroup_zero_or_group (g : Nat) (ids : List Nat) :
    orGroup g ids = 0 ∨ groupOf (orGroup g ids) = g := by
  induction ids with
  | nil => exact Or.inl rfl
  | cons a t ih =>
    rw [orGroup_cons]
    split_ifs with h
    · right
      rw [groupOf_or, h]
      rcases ih with h0 | hg
      · rw [h0, groupOf_zero, Nat.or_zero]
      · rw [hg, Nat.or_self]
    · exact ih

theorem orMask_cons (g id : Nat) (ids : List Nat) :
    orMask g (id :: ids)
      = if groupOf id = g then (id &&& 0x3F) ||| orMask g ids else orMask g ids := by
  unfold orMask
  by_cases h : groupOf id = g <;> simp [List.filter, h]

/-- The low six bits of a group byte are the OR of the masks of its keys. -/
theorem orGroup_and_mask (g : Nat) (ids : List Nat) : orGroup g ids &&& 0x3F = orMask g ids := by
  induction ids with
  | nil => simp [orGroup, orMask]
  | cons a t ih =>
    rw [orGroup_cons, orMask_cons]
    split_ifs
    · rw [and_or_mask, ih]
    · exact ih

theorem Chord.mem_toList (c : Chord) (b : Nat) (h : b ∈ c.toList) :
    ∃ g, g < 4 ∧ b = c.get g := by
  obtain ⟨c0, c1, c2, c3⟩ := c
  simp only [Chord.toList, List.mem_cons, List.mem_singleton, List.not_mem_nil, or_false] at h
  rcases h with h | h | h | h
  · exact ⟨0, by decide, h⟩
  · exact ⟨1, by decide, h⟩
  · exact ⟨2, by decide, h⟩
  · exact ⟨3, by decide, h⟩

/-- When every chord byte is 0 or tagged with its index, the data bytes of the flush
message come in strictly increasing group order. -/
theorem flush_groups_increasing (c : Chord)
    (h : ∀ g, g < 4 → c.get g = 0 ∨ groupOf (c.get g) = g) :
    ((c.toList.filter (fun b => b ≠ 0)).map groupOf).Pairwise (fun a b => a < b) := by
  obtain ⟨c0, c1, c2, c3⟩ := c
  have h0 := h 0 (by decide)
  have h1 := h 1 (by decide)
  have h2 := h 2 (by decide)
  have h3 := h 3 (by decide)
  simp only [Chord.get] at h0 h1 h2 h3
  simp only [Chord.toList]
  have g0 : ¬ c0 = 0 → groupOf c0 = 0 := fun z => h0.resolve_left z
  have g1 : ¬ c1 = 0 → groupOf c1 = 1 := fun z => h1.resolve_left z
  have g2 : ¬ c2 = 0 → groupOf c2 = 2 := fun z => h2.resolve_left z
  have g3 : ¬ c3 = 0 → groupOf c3 = 3 := fun z => h3.resolve_left z
  clear h h0 h1 h2 h3
  by_cases z0 : c0 = 0 <;> by_cases z1 : c1 = 0 <;> by_cases z2 : c2 = 0 <;>
    by_cases z3 : c3 = 0 <;>
    simp_all [List.filter]

/-! ## Claims -/

/-- C1: from the idle state with the steno layer active, pressing and then releasing
one macro key with a nonzero 8-bit id (each event running process_record_user and then
action_get_macro) puts exactly the two bytes id, 0 on the serial link: the press
sends nothing, the release sends id followed by the terminator.  The id is its group
(id >> 6) shifted left by 6, ORed with its mask (id AND 0x3F). -/
theorem C1_single_steno_key_sends_id_then_zero (id : Nat) (h0 : id ≠ 0) (h : id < 256) :
    (run init [pressM id TXBOLT]).virtser = []
      ∧ (run init [pressM id TXBOLT, releaseM id TXBOLT]).virtser = [id, 0]
      ∧ emitted (run init [pressM id TXBOLT]) (releaseM id TXBOLT) = [id, 0]
      ∧ id = ((groupOf id) <<< 6) ||| (id &&& 0x3F) := by
  have hg := grp_lt_four id
  have key : ∀ s : State, s = run init [pressM id TXBOLT] →
      s.virtser = [] ∧ (key_event s (releaseM id TXBOLT)).virtser = [id, 0] := by
    intro s hs
    simp only [run, List.foldl, key_event_pressM_steno, init] at hs
    generalize (id &&& GRPMASK) >>> 6 = g at hs hg
    have h1 : (s.pressed_count + 255) % 256 = 0 := by simp [hs]
    have hm2 : id % 256 = id := Nat.mod_eq_of_lt h
    rw [key_event_releaseM_flush s id h1]
    interval_cases g <;>
      simp [hs, Chord.set, Chord.get, hm2, flushMessage, Chord.toList, h0, List.filter]
  obtain ⟨k1, k2⟩ := key _ rfl
  refine ⟨k1, k2, ?_, id_eq_group_mask id h⟩
  rw [emitted, k2, k1]
  rfl

theorem C1_witness :
    Rl ≠ 0 ∧ Rl < 256 ∧ (run init [pressM Rl TXBOLT, releaseM Rl TXBOLT]).virtser = [0x41, 0] :=
  ⟨by decide, by decide,
    ( C1_single_steno_key_sends_id_then_zero Rl (by decide) (by decide)).2.1⟩

/-- C2: from idle on the steno layer, N distinct steno macro keys of the layer (N at
least 1; a key is named by its position among the KEYMAP arguments) are all pressed
and then released in an arbitrary order rel, a permutation of the pressed keys.
Nothing is sent before the last release; the last release sends, whatever the order of
the releases, for each group 0..3 in order the OR of the ids of the pressed keys of
that group, left out when zero, then one 0 byte; the accumulator is idle afterwards. -/
theorem C2_chord_flushed_once_release_order_irrelevant (ks rel : List Nat) (hne : ks ≠ [])
    (hsteno : ∀ k ∈ ks, (stenoIdAt k).isSome = true) (hnd : ks.Nodup)
    (hperm : rel.Perm ks) :
    (∀ n, n < (pressAll (ks.map stenoId) ++ releaseAll (rel.map stenoId)).length →
        (run init ((pressAll (ks.map stenoId) ++ releaseAll (rel.map stenoId)).take n)).virtser
          = [])
      ∧ (run init (pressAll (ks.map stenoId) ++ releaseAll (rel.map stenoId))).virtser
          = expectedMessage (ks.map stenoId)
      ∧ (run init (pressAll (ks.map stenoId) ++ releaseAll (rel.map stenoId))).chord
          = ⟨0, 0, 0, 0⟩
      ∧ (run init (pressAll (ks.map stenoId) ++ releaseAll (rel.map stenoId))).pressed_count
          = 0 := by
  apply chord_of_ids_flushed_once
  · intro h
    exact hne (List.map_eq_nil_iff.mp h)
  · rw [List.length_map]
    exact distinct_keys_length ks hnd hsteno
  · intro id hid
    obtain ⟨k, _, hk⟩ := List.mem_map.mp hid
    rw [← hk]
    exact stenoId_lt k
  · exact hperm.map stenoId

theorem C2_witness :
    (run init (pressAll ([15, 16, 35, 53].map stenoId)
        ++ releaseAll ([35, 53, 15, 16].map stenoId))).virtser = [3, 0x42, 0x81, 0]
      ∧ (run init (pressAll ([15, 16, 35, 53].map stenoId)
        ++ releaseAll ([16, 15, 53, 35].map stenoId))).virtser = [3, 0x42, 0x81, 0] :=
  ⟨(( C2_chord_flushed_once_release_order_irrelevant [15, 16, 35, 53] [35, 53, 15, 16]
      (by decide) (by decide) (by decide) (by decide)).2.1).trans (by decide),
   (( C2_chord_flushed_once_release_order_irrelevant [15, 16, 35, 53] [16, 15, 53, 35]
      (by decide) (by decide) (by decide) (by decide)).2.1).trans (by decide)⟩

/-- C3: a flush, that is the release branch of action_get_macro taken with
pressed_count equal to 0 and the steno layer active, sends the four chord bytes in
group order with the zero bytes left out, then a single 0 byte; it leaves the four
chord bytes 0, touches nothing else and returns MACRO_NONE.  The terminator is the
last byte of the message and its only zero byte. -/
theorem C3_flush_sends_nonzero_groups_then_terminator (s : State) (id opt : Nat)
    (h : s.pressed_count = 0) :
    ( action_get_macro s TXBOLT false id opt).1.virtser
        = s.virtser ++ ([s.chord.get 0, s.chord.get 1, s.chord.get 2, s.chord.get 3].filter
            (fun b => b ≠ 0) ++ [0])
      ∧ ( action_get_macro s TXBOLT false id opt).1.chord = ⟨0, 0, 0, 0⟩
      ∧ ( action_get_macro s TXBOLT false id opt).1.pressed_count = s.pressed_count
      ∧ ( action_get_macro s TXBOLT false id opt).1.scan_no = s.scan_no
      ∧ ( action_get_macro s TXBOLT false id opt).2 = MACRO_NONE
      ∧ ([s.chord.get 0, s.chord.get 1, s.chord.get 2, s.chord.get 3].filter
            (fun b => b ≠ 0) ++ [0]).getLast? = some 0
      ∧ ([s.chord.get 0, s.chord.get 1, s.chord.get 2, s.chord.get 3].filter
            (fun b => b ≠ 0) ++ [0]).count 0 = 1 := by
  rw [ action_get_macro_flush s id opt h]
  refine ⟨rfl, rfl, rfl, rfl, ?_, ?_, ?_⟩
  · simp [ action_get_macro, h]
  · simp
  · rw [List.count_append, List.count_eq_zero_of_not_mem]
    · simp
    · intro hm
      have := (List.mem_filter.mp hm).2
      simp at this

theorem C3_witness :
    ({ chord := ⟨3, 0, 0x90, 0⟩, pressed_count := 0, scan_no := 0, virtser := [] } : State).pressed_count = 0
      ∧ ( action_get_macro { chord := ⟨3, 0, 0x90, 0⟩, pressed_count := 0, scan_no := 0, virtser := [] }
          TXBOLT false Sl 0).1.virtser = [3, 0x90, 0] := by
  refine ⟨rfl, ?_⟩
  have h := (C3_flush_sends_nonzero_groups_then_terminator
    { chord := ⟨3, 0, 0x90, 0⟩, pressed_count := 0, scan_no := 0, virtser := [] } Sl 0 rfl).1
  rw [h]
  decide

/-- C4, as stated, fails: a key that is not macro-backed is pressed and released on
the steno layer; its release brings pressed_count to 0 with the steno layer active,
yet nothing is flushed, because action_get_macro does not run for such a key. -/
theorem C4_counterexample_plain_release_to_zero_no_flush :
    ¬ (flushes (run init [pressK 0 TXBOLT]) (releaseK 0 TXBOLT) ↔
        ((key_event (run init [pressK 0 TXBOLT]) (releaseK 0 TXBOLT)).pressed_count = 0
          ∧ (releaseK 0 TXBOLT).layer = TXBOLT)) := by
  decide

/-- C4, amended: after any sequence of key events, a flush occurs at the next event
if and only if that event is the release of a macro-backed key and brings
pressed_count to exactly 0 while the steno layer is the active layer. -/
theorem C4_flush_iff_macro_release_to_zero_on_steno (es : List KeyEvent) (e : KeyEvent) :
    flushes (run init es) e ↔
      (e.pressed = false ∧ e.isMacro = true
        ∧ (key_event (run init es) e).pressed_count = 0 ∧ e.layer = TXBOLT) := by
  rw [flushes_iff_flushGuard, flushGuard, key_event_pressed_count]
  constructor
  · rintro ⟨hp, hm, h0, hl⟩
    exact ⟨hp, hm, by simpa [hp] using h0, hl⟩
  · rintro ⟨hp, hm, h0, hl⟩
    exact ⟨hp, hm, by simpa [hp] using h0, hl⟩

/-- C5, as stated, fails: a single release delivered in the initial state leaves
pressed_count at 255, while presses minus releases is -1. -/
theorem C5_counterexample_unmatched_release :
    ((run init [releaseK 0 QWERTZ_NEO2]).pressed_count : Int)
      ≠ (presses [releaseK 0 QWERTZ_NEO2] : Int) - (releases [releaseK 0 QWERTZ_NEO2] : Int) := by
  decide

/-- C5, amended: for any sequence of press and release events starting from the
initial state, after every initial segment of it pressed_count equals the number
of presses minus the number of releases in that segment, reduced modulo 256 to
the range 0..255. -/
theorem C5_pressed_count_is_presses_minus_releases_mod_256 (es : List KeyEvent) (n : Nat) :
    ((run init (es.take n)).pressed_count : Int)
      = ((presses (es.take n) : Int) - (releases (es.take n) : Int)) % 256 := by
  rw [run_pressed_count (es.take n) init (by decide)]
  simp [init]

/-- C6: key events delivered while the active layer is not the steno layer send
nothing, in whatever state they arrive, in particular in the middle of a chord:
after any list of such events the serial log is what it was before. -/
theorem C6_no_byte_sent_off_steno_layer (s : State) (es : List KeyEvent)
    (h : ∀ e ∈ es, e.layer ≠ TXBOLT) :
    (run s es).virtser = s.virtser ∧ ∀ e ∈ es, ∀ t : State, emitted t e = [] := by
  refine ⟨run_virtser_of_off_steno es s h, ?_⟩
  intro e he t
  exact emitted_of_not_flushGuard t e (fun hg => h e he hg.2.2.2)

theorem C6_witness :
    (∀ e ∈ [releaseK 0 QWERTZ_NEO2, releaseM Sl QWERTZ_NEO2, releaseM Tl QWERTZ_NEO2],
        e.layer ≠ TXBOLT)
      ∧ (run init [pressM Sl TXBOLT, pressM Tl TXBOLT, pressK 0 TXBOLT]).chord = ⟨3, 0, 0, 0⟩
      ∧ (run (run init [pressM Sl TXBOLT, pressM Tl TXBOLT, pressK 0 TXBOLT])
          [releaseK 0 QWERTZ_NEO2, releaseM Sl QWERTZ_NEO2, releaseM Tl QWERTZ_NEO2]).pressed_count
          = 0
      ∧ (run (run init [pressM Sl TXBOLT, pressM Tl TXBOLT, pressK 0 TXBOLT])
          [releaseK 0 QWERTZ_NEO2, releaseM Sl QWERTZ_NEO2, releaseM Tl QWERTZ_NEO2]).virtser
          = [] :=
  ⟨by decide, by decide, by decide,
    ( C6_no_byte_sent_off_steno_layer
      (run init [pressM Sl TXBOLT, pressM Tl TXBOLT, pressK 0 TXBOLT])
      [releaseK 0 QWERTZ_NEO2, releaseM Sl QWERTZ_NEO2, releaseM Tl QWERTZ_NEO2]
      (by decide)).1.trans (by decide)⟩

/-- C7, as stated, fails.  The steno key Sl is pressed on the steno layer, the layer
toggle key is pressed and released (the layer is now 0), and Sl is released on layer
0: pressed_count is back at 0 and nothing was flushed.  The toggle key is pressed and
released again (back on the steno layer), then Tl is pressed and released.  Since
pressed_count was last 0 only Tl was pressed, so the claim expects the bytes 2, 0; the
flush sends 3, 0, which still carries the bit of Sl from the abandoned chord. -/
theorem C7_counterexample_abandoned_chord_bits_in_later_flush :
    flushes (run init [pressM Sl TXBOLT, pressK 0 TXBOLT, releaseK 0 QWERTZ_NEO2,
        releaseM Sl QWERTZ_NEO2, pressK 0 QWERTZ_NEO2, releaseK 0 TXBOLT, pressM Tl TXBOLT])
        (releaseM Tl TXBOLT)
      ∧ emitted (run init [pressM Sl TXBOLT, pressK 0 TXBOLT, releaseK 0 QWERTZ_NEO2,
        releaseM Sl QWERTZ_NEO2, pressK 0 QWERTZ_NEO2, releaseK 0 TXBOLT, pressM Tl TXBOLT])
        (releaseM Tl TXBOLT) = [3, 0]
      ∧ expectedMessage (pressedSinceIdle init [] [pressM Sl TXBOLT, pressK 0 TXBOLT,
        releaseK 0 QWERTZ_NEO2, releaseM Sl QWERTZ_NEO2, pressK 0 QWERTZ_NEO2,
        releaseK 0 TXBOLT, pressM Tl TXBOLT]) = [2, 0]
      ∧ emitted (run init [pressM Sl TXBOLT, pressK 0 TXBOLT, releaseK 0 QWERTZ_NEO2,
        releaseM Sl QWERTZ_NEO2, pressK 0 QWERTZ_NEO2, releaseK 0 TXBOLT, pressM Tl TXBOLT])
        (releaseM Tl TXBOLT)
        ≠ expectedMessage (pressedSinceIdle init [] [pressM Sl TXBOLT, pressK 0 TXBOLT,
        releaseK 0 QWERTZ_NEO2, releaseM Sl QWERTZ_NEO2, pressK 0 QWERTZ_NEO2,
        releaseK 0 TXBOLT, pressM Tl TXBOLT]) := by
  decide

/-- C7, amended: for every sequence of key events (macro ids being 8-bit values), the
data bytes of a flush are, for each group 0..3 in order, the bitwise OR of the ids of
those steno keys of that group that were pressed with the steno layer active since
the previous flush (since the start when there was none), left out when zero, followed
by the 0 terminator. -/
theorem C7_flush_bytes_are_or_of_keys_since_last_flush (es : List KeyEvent) (e : KeyEvent)
    (hid : ∀ x ∈ es, x.byteId) (hf : flushes (run init es) e) :
    emitted (run init es) e = expectedMessage (pressedSinceFlush init [] es) := by
  have hg := (flushes_iff_flushGuard _ e).mp hf
  rw [emitted_of_flushGuard _ e hg]
  exact flushMessage_of_holds _ _
    (run_holds_pressedSinceFlush es init [] hid (by simp) holds_nil).1

theorem C7_witness :
    (∀ x ∈ [pressM Sl TXBOLT, releaseM Sl TXBOLT, pressM Tl TXBOLT, pressM Al TXBOLT,
        releaseM Al TXBOLT], x.byteId)
      ∧ flushes (run init [pressM Sl TXBOLT, releaseM Sl TXBOLT, pressM Tl TXBOLT,
        pressM Al TXBOLT, releaseM Al TXBOLT]) (releaseM Tl TXBOLT)
      ∧ emitted (run init [pressM Sl TXBOLT, releaseM Sl TXBOLT, pressM Tl TXBOLT,
        pressM Al TXBOLT, releaseM Al TXBOLT]) (releaseM Tl TXBOLT) = [2, 0x42, 0] :=
  ⟨by decide, by decide,
    ( C7_flush_bytes_are_or_of_keys_since_last_flush
      [pressM Sl TXBOLT, releaseM Sl TXBOLT, pressM Tl TXBOLT, pressM Al TXBOLT,
        releaseM Al TXBOLT] (releaseM Tl TXBOLT) (by decide) (by decide)).trans (by decide)⟩

/-- C8, as stated, fails.  The steno key Sl is pressed on the steno layer, the layer
toggle key is pressed (steno layer still active) and released (layer 0 now active),
and Sl is released on layer 0.  The sequence is well formed and pressed_count is 0
again, but chord[0] still holds the bit of Sl. -/
theorem C8_counterexample_idle_with_stale_chord :
    wellFormed 0 [pressM Sl TXBOLT, pressK 0 TXBOLT, releaseK 0 QWERTZ_NEO2,
        releaseM Sl QWERTZ_NEO2] = true
      ∧ (run init [pressM Sl TXBOLT, pressK 0 TXBOLT, releaseK 0 QWERTZ_NEO2,
        releaseM Sl QWERTZ_NEO2]).pressed_count = 0
      ∧ (run init [pressM Sl TXBOLT, pressK 0 TXBOLT, releaseK 0 QWERTZ_NEO2,
        releaseM Sl QWERTZ_NEO2]).chord = ⟨1, 0, 0, 0⟩
      ∧ (run init [pressM Sl TXBOLT, pressK 0 TXBOLT, releaseK 0 QWERTZ_NEO2,
        releaseM Sl QWERTZ_NEO2]).chord ≠ ⟨0, 0, 0, 0⟩ := by
  decide

/-- C9: chord bytes are only cleared by a flush.  For every state whose chord bytes
are 8-bit values and every key event (any binding, edge and layer): if some chord
byte has a bit set before the event that is not set after it, then the event is a
macro-key release handled with pressed_count equal to 0 and the steno layer active,
and the event sent the chord (its nonzero bytes in group order, then 0); in every
other step each chord byte keeps all the bits it had. -/
theorem C9_chord_bits_cleared_only_by_flush (s : State) (e : KeyEvent) (hwf : s.chord.WF) :
    ((∃ g i, (s.chord.get g).testBit i = true
          ∧ ((key_event s e).chord.get g).testBit i = false) →
        e.pressed = false ∧ e.isMacro = true ∧ (key_event s e).pressed_count = 0
          ∧ e.layer = TXBOLT ∧ emitted s e = flushMessage s.chord)
      ∧ (¬ (e.pressed = false ∧ e.isMacro = true ∧ (key_event s e).pressed_count = 0
            ∧ e.layer = TXBOLT) →
          ∀ g i, (s.chord.get g).testBit i = true →
            ((key_event s e).chord.get g).testBit i = true) := by
  have hiff : flushGuard s e ↔ (e.pressed = false ∧ e.isMacro = true
      ∧ (key_event s e).pressed_count = 0 ∧ e.layer = TXBOLT) := by
    rw [flushGuard, key_event_pressed_count]
    constructor
    · rintro ⟨hp, hm, h0, hl⟩
      exact ⟨hp, hm, by simpa [hp] using h0, hl⟩
    · rintro ⟨hp, hm, h0, hl⟩
      exact ⟨hp, hm, by simpa [hp] using h0, hl⟩
  constructor
  · rintro ⟨g, i, hb, ha⟩
    by_cases hg : flushGuard s e
    · obtain ⟨hp, hm, h0, hl⟩ := hiff.mp hg
      exact ⟨hp, hm, h0, hl, emitted_of_flushGuard s e hg⟩
    · have := chord_bits_kept_of_not_flushGuard s e hwf hg g i hb
      rw [ha] at this
      exact absurd this Bool.false_ne_true
  · intro hn g i hb
    exact chord_bits_kept_of_not_flushGuard s e hwf (fun hg => hn (hiff.mp hg)) g i hb

theorem C9_witness :
    ({ chord := ⟨3, 0, 0x90, 0⟩, pressed_count := 1, scan_no := 0, virtser := [] } : State).chord.WF
      ∧ emitted { chord := ⟨3, 0, 0x90, 0⟩, pressed_count := 1, scan_no := 0, virtser := [] }
          (releaseM Sl TXBOLT) = [3, 0x90, 0] := by
  refine ⟨by decide, ?_⟩
  have h := (C9_chord_bits_cleared_only_by_flush
    { chord := ⟨3, 0, 0x90, 0⟩, pressed_count := 1, scan_no := 0, virtser := [] }
    (releaseM Sl TXBOLT) (by decide)).1 ⟨0, 0, by decide, by decide⟩
  rw [h.2.2.2.2]
  decide

/-- C10, as stated, fails.  The key holding the SYMBOLS layer is pressed, the macro
key M(CIRC) of that layer is pressed, the steno toggle key is pressed and released,
the SYMBOLS key is released, and finally the macro key is released with the steno
layer active and pressed_count back at 0: the flush sends the terminator alone, with
no data byte before it. -/
theorem C10_counterexample_flush_of_empty_chord :
    flushes (run init [pressK 0 QWERTZ_NEO2, pressM CIRC SYMBOLS, pressK 0 SYMBOLS,
        releaseK 0 TXBOLT, releaseK 0 TXBOLT]) (releaseM CIRC TXBOLT)
      ∧ emitted (run init [pressK 0 QWERTZ_NEO2, pressM CIRC SYMBOLS, pressK 0 SYMBOLS,
        releaseK 0 TXBOLT, releaseK 0 TXBOLT]) (releaseM CIRC TXBOLT) = [0]
      ∧ ¬ (1 ≤ ((emitted (run init [pressK 0 QWERTZ_NEO2, pressM CIRC SYMBOLS,
        pressK 0 SYMBOLS, releaseK 0 TXBOLT, releaseK 0 TXBOLT])
        (releaseM CIRC TXBOLT)).dropLast).length) := by
  decide

/-- C10, amended: every flush emits at most four data bytes, all nonzero, before its
single 0x00 terminator; it emits no data byte at all exactly when the four chord
bytes are all 0 at the flush, and at least one otherwise. -/
theorem C10_flush_has_at_most_four_nonzero_data_bytes (s : State) (e : KeyEvent)
    (hf : flushes s e) :
    ∃ data : List Nat, emitted s e = data ++ [0] ∧ data.length ≤ 4
      ∧ (∀ b ∈ data, b ≠ 0) ∧ (data = [] ↔ s.chord = ⟨0, 0, 0, 0⟩)
      ∧ (1 ≤ data.length ↔ s.chord ≠ ⟨0, 0, 0, 0⟩) := by
  have hg := (flushes_iff_flushGuard s e).mp hf
  obtain ⟨h1, h2, h3⟩ := flushMessage_data s.chord
  refine ⟨s.chord.toList.filter (fun b => b ≠ 0), ?_, h1, h2, h3, ?_⟩
  · rw [emitted_of_flushGuard s e hg]
    rfl
  · rw [Nat.one_le_iff_ne_zero, ne_eq, List.length_eq_zero, h3]

theorem C10_witness :
    flushes (run init (pressAll [Sl, Al, Fr, Tr] ++ releaseAll [Al, Fr, Tr]))
        (releaseM Sl TXBOLT)
      ∧ ∃ data : List Nat,
          emitted (run init (pressAll [Sl, Al, Fr, Tr] ++ releaseAll [Al, Fr, Tr]))
            (releaseM Sl TXBOLT) = data ++ [0] ∧ data.length ≤ 4 := by
  refine ⟨by decide, ?_⟩
  obtain ⟨data, h1, h2, _⟩ := C10_flush_has_at_most_four_nonzero_data_bytes
    (run init (pressAll [Sl, Al, Fr, Tr] ++ releaseAll [Al, Fr, Tr])) (releaseM Sl TXBOLT)
    (by decide)
  exact ⟨data, h1, h2⟩

/-- C11: in every state reached from the initial state by key events (macro ids being
8-bit values) and for every group g in 0..3, chord[g] is a byte that is 0 or has its
top two bits equal to g.  Hence in every flush the data bytes come in strictly
increasing group order, and each data byte is nonzero, is the chord byte of the group
named by its top two bits, and has as its low six bits the OR of the masks of the keys
of that group accumulated since the previous flush. -/
theorem C11_chord_bytes_carry_their_group (es : List KeyEvent) (hid : ∀ x ∈ es, x.byteId) :
    (∀ g, g < 4 → (run init es).chord.get g < 256
        ∧ ((run init es).chord.get g = 0 ∨ groupOf ((run init es).chord.get g) = g))
      ∧ ∀ e, flushes (run init es) e →
          ∃ data, emitted (run init es) e = data ++ [0]
            ∧ (data.map groupOf).Pairwise (fun a b => a < b)
            ∧ ∀ b ∈ data, b ≠ 0 ∧ groupOf b < 4
                ∧ b = (run init es).chord.get (groupOf b)
                ∧ b &&& 0x3F = orMask (groupOf b) (pressedSinceFlush init [] es) := by
  obtain ⟨hholds, hlt⟩ := run_holds_pressedSinceFlush es init [] hid (by simp) holds_nil
  have hget : ∀ g, g < 4 →
      (run init es).chord.get g = orGroup g (pressedSinceFlush init [] es) := by
    intro g hg
    rw [hholds]
    interval_cases g <;> rfl
  have hinv : ∀ g, g < 4 → (run init es).chord.get g < 256
      ∧ ((run init es).chord.get g = 0 ∨ groupOf ((run init es).chord.get g) = g) := by
    intro g hg
    rw [hget g hg]
    exact ⟨orGroup_lt g _ hlt, orGroup_zero_or_group g _⟩
  refine ⟨hinv, ?_⟩
  intro e hf
  have hg := (flushes_iff_flushGuard _ e).mp hf
  refine ⟨(run init es).chord.toList.filter (fun b => b ≠ 0), ?_, ?_, ?_⟩
  · rw [emitted_of_flushGuard _ e hg]
    rfl
  · exact flush_groups_increasing _ (fun g hg4 => (hinv g hg4).2)
  · intro b hb
    obtain ⟨hmem, hne⟩ := List.mem_filter.mp hb
    have hb0 : b ≠ 0 := by simpa using hne
    obtain ⟨g, hg4, hbg⟩ := Chord.mem_toList _ b hmem
    have hgrp : groupOf b = g := by
      rcases (hinv g hg4).2 with h0 | h1
      · exact absurd (hbg.trans h0) hb0
      · rw [hbg]; exact h1
    refine ⟨hb0, by rw [hgrp]; exact hg4, by rw [hgrp]; exact hbg, ?_⟩
    rw [hgrp, hbg, hget g hg4]
    exact orGroup_and_mask g _

theorem C11_witness :
    (∀ x ∈ [pressM Tl TXBOLT, pressM Fr TXBOLT, pressM Kl TXBOLT, releaseM Fr TXBOLT,
        releaseM Kl TXBOLT], x.byteId)
      ∧ (run init [pressM Tl TXBOLT, pressM Fr TXBOLT, pressM Kl TXBOLT, releaseM Fr TXBOLT,
        releaseM Kl TXBOLT]).chord = ⟨6, 0, 0x81, 0⟩
      ∧ emitted (run init [pressM Tl TXBOLT, pressM Fr TXBOLT, pressM Kl TXBOLT,
        releaseM Fr TXBOLT, releaseM Kl TXBOLT]) (releaseM Tl TXBOLT) = [6, 0x81, 0]
      ∧ groupOf ((run init [pressM Tl TXBOLT, pressM Fr TXBOLT, pressM Kl TXBOLT,
        releaseM Fr TXBOLT, releaseM Kl TXBOLT]).chord.get 2) = 2 := by
  refine ⟨by decide, by decide, by decide, ?_⟩
  have h := ((C11_chord_bytes_carry_their_group
    [pressM Tl TXBOLT, pressM Fr TXBOLT, pressM Kl TXBOLT, releaseM Fr TXBOLT,
      releaseM Kl TXBOLT] (by decide)).1 2 (by decide)).2
  rcases h with h | h
  · exact absurd h (by decide)
  · exact h

/-- C12: a press of a macro key with 8-bit id, handled by action_get_macro while the
steno layer is active (chord bytes being 8-bit values), sets chord[id >> 6] to its
previous value OR id, leaves the other chord bytes, pressed_count, scan_no and the
serial link untouched, and returns the empty macro sequence MACRO_NONE. -/
theorem C12_steno_press_ors_id_into_its_group (s : State) (id opt : Nat) (hid : id < 256)
    (hwf : s.chord.WF) :
    (( action_get_macro s TXBOLT true id opt).1.chord.get (id >>> 6)
        = s.chord.get (id >>> 6) ||| id)
      ∧ (∀ k, k ≠ id >>> 6 →
          ( action_get_macro s TXBOLT true id opt).1.chord.get k = s.chord.get k)
      ∧ ( action_get_macro s TXBOLT true id opt).1.pressed_count = s.pressed_count
      ∧ ( action_get_macro s TXBOLT true id opt).1.scan_no = s.scan_no
      ∧ ( action_get_macro s TXBOLT true id opt).1.virtser = s.virtser
      ∧ ( action_get_macro s TXBOLT true id opt).2 = MACRO_NONE := by
  have hgrp : (id &&& GRPMASK) >>> 6 = id >>> 6 := grp_eq_groupOf id hid
  have hg4 : id >>> 6 < 4 := by
    rw [← hgrp]
    exact grp_lt_four id
  have hbyte : s.chord.get (id >>> 6) < 256 := by
    obtain ⟨w0, w1, w2, w3⟩ := hwf
    unfold Chord.get
    split <;> first | assumption | decide
  have hst : ( action_get_macro s TXBOLT true id opt)
      = ({ s with chord := s.chord.set (id >>> 6) (s.chord.get (id >>> 6) ||| id) },
          MACRO_NONE) := by
    simp only [ action_get_macro, if_true, hgrp, byte_or_mod _ _ hbyte hid]
  rw [hst]
  refine ⟨?_, ?_, rfl, rfl, rfl, rfl⟩
  · show (s.chord.set (id >>> 6) (s.chord.get (id >>> 6) ||| id)).get (id >>> 6) = _
    rw [Chord.get_set, if_pos ⟨rfl, hg4⟩]
  · intro k hk
    show (s.chord.set (id >>> 6) (s.chord.get (id >>> 6) ||| id)).get k = _
    rw [Chord.get_set, if_neg (fun h => hk h.1.symm)]

theorem C12_witness :
    Rl < 256 ∧ (⟨⟨1, 0x42, 0, 0⟩, 1, 0, []⟩ : State).chord.WF
      ∧ ( action_get_macro ⟨⟨1, 0x42, 0, 0⟩, 1, 0, []⟩ TXBOLT true Rl 0).1.chord
          = ⟨1, 0x43, 0, 0⟩
      ∧ ( action_get_macro ⟨⟨1, 0x42, 0, 0⟩, 1, 0, []⟩ TXBOLT true Rl 0).1.chord.get (Rl >>> 6)
          = (⟨⟨1, 0x42, 0, 0⟩, 1, 0, []⟩ : State).chord.get (Rl >>> 6) ||| Rl :=
  ⟨by decide, by decide, by decide,
    ( C12_steno_press_ors_id_into_its_group ⟨⟨1, 0x42, 0, 0⟩, 1, 0, []⟩ Rl 0
      (by decide) (by decide)).1⟩

/-- C13: for every state and every keycode, process_record_user adds one to
pressed_count on a press and subtracts one on a release, in 8-bit arithmetic (255 + 1
is 0, 0 - 1 is 255), touches nothing else and returns true; the result does not depend
on the keycode, and the count after a whole key event does not depend on the binding
or the active layer of the event. -/
theorem C13_process_record_user_counts_every_event (s : State) (keycode : Nat) :
    (((process_record_user s keycode true).1.pressed_count : Int)
        = ((s.pressed_count : Int) + 1) % 256)
      ∧ (((process_record_user s keycode false).1.pressed_count : Int)
        = ((s.pressed_count : Int) - 1) % 256)
      ∧ (∀ p, (process_record_user s keycode p).2 = true)
      ∧ (∀ p, (process_record_user s keycode p).1.chord = s.chord
          ∧ (process_record_user s keycode p).1.scan_no = s.scan_no
          ∧ (process_record_user s keycode p).1.virtser = s.virtser)
      ∧ (∀ p kc, process_record_user s kc p = process_record_user s keycode p)
      ∧ (∀ e : KeyEvent, (key_event s e).pressed_count
          = (process_record_user s keycode e.pressed).1.pressed_count) := by
  refine ⟨?_, ?_, ?_, ?_, ?_, ?_⟩
  · simp only [process_record_user, if_true]
    omega
  · simp only [process_record_user, Bool.false_eq_true, if_false]
    omega
  · intro p
    exact process_record_user_snd s keycode p
  · intro p
    rw [process_record_user_fst]
    exact ⟨rfl, rfl, rfl⟩
  · intro p kc
    cases p <;> rfl
  · intro e
    rw [key_event_pressed_count, process_record_user_fst]

/-- C14: a key event, press or release, for a key that is not macro-backed (only
process_record_user runs for it), delivered with the steno layer or any other layer
active, leaves all four chord bytes unchanged and sends nothing. -/
theorem C14_plain_key_event_leaves_chord_and_link (s : State) (kc l : Nat) (p : Bool) :
    (key_event s ⟨.plain kc, p, TXBOLT⟩).chord = s.chord
      ∧ (key_event s ⟨.plain kc, p, TXBOLT⟩).virtser = s.virtser
      ∧ emitted s ⟨.plain kc, p, TXBOLT⟩ = []
      ∧ (key_event s ⟨.plain kc, p, l⟩).chord = s.chord
      ∧ (key_event s ⟨.plain kc, p, l⟩).virtser = s.virtser := by
  refine ⟨?_, ?_, ?_, ?_, ?_⟩
  · rw [key_event_plain]
  · rw [key_event_plain]
  · rw [emitted, key_event_plain]
    simp
  · rw [key_event_plain]
  · rw [key_event_plain]

end Older

/-! ## Facts about the layer indicator and the newer variant -/

namespace Older

theorem matrix_scan_user_native (s : State) :
    matrix_scan_user s NEO2_NEO2 =
      ({ s with scan_no := (s.scan_no + 1) % 65536 },
        [.ergodox_board_led_off, .ergodox_right_led_1_off, .ergodox_right_led_2_off,
          .ergodox_right_led_3_off]
        ++ (if ((s.scan_no + 1) % 65536) % 1000 < 500 then [.ergodox_board_led_on] else [])) := by
  simp only [matrix_scan_user, if_true]
  split_ifs <;> simp

theorem leds_after_native_scan (s : State) (leds : Leds) :
    applyLedOps leds (matrix_scan_user s NEO2_NEO2).2 =
      ⟨decide (((s.scan_no + 1) % 65536) % 1000 < 500), false, false, false⟩ := by
  rw [matrix_scan_user_native]
  by_cases h : ((s.scan_no + 1) % 65536) % 1000 < 500 <;>
    simp [applyLedOps, LedOp.apply, h]

theorem boardLedTrace_native (n : Nat) (s : State) (leds : Leds) :
    boardLedTrace NEO2_NEO2 n s leds = blinkFrom s.scan_no n := by
  induction n generalizing s leds with
  | zero => rfl
  | succ n ih =>
    rw [boardLedTrace, blinkFrom, ih, leds_after_native_scan, matrix_scan_user_native]

theorem scans_native (n : Nat) (s : State) (h : s.scan_no < 65536) :
    scans NEO2_NEO2 n s = { s with scan_no := (s.scan_no + n) % 65536 } := by
  induction n generalizing s with
  | zero =>
    obtain ⟨c, pc, sn, v⟩ := s
    simp only at h
    simp [scans, Nat.mod_eq_of_lt h]
  | succ n ih =>
    rw [scans, matrix_scan_user_native, ih _ (Nat.mod_lt _ (by decide))]
    simp only [State.mk.injEq, true_and, and_true]
    omega

end Older

namespace Newer

open Older (LedOp Leds applyLedOps blinkFrom)

theorem matrix_scan_user_native_newer (s : State) :
    matrix_scan_user s NEO2_NEO2 =
      ({ s with scan_no := (s.scan_no + 1) % 65536 },
        [.ergodox_board_led_off, .ergodox_right_led_1_off, .ergodox_right_led_2_off,
          .ergodox_right_led_3_off]
        ++ (if ((s.scan_no + 1) % 65536) % 1000 < 500 then [.ergodox_board_led_on] else [])) := by
  simp only [matrix_scan_user, if_true]
  split_ifs <;> simp

theorem leds_after_native_scan_newer (s : State) (leds : Leds) :
    applyLedOps leds (matrix_scan_user s NEO2_NEO2).2 =
      ⟨decide (((s.scan_no + 1) % 65536) % 1000 < 500), false, false, false⟩ := by
  rw [matrix_scan_user_native_newer]
  by_cases h : ((s.scan_no + 1) % 65536) % 1000 < 500 <;>
    simp [applyLedOps, Older.LedOp.apply, h]

theorem boardLedTrace_native_newer (n : Nat) (s : State) (leds : Leds) :
    boardLedTrace NEO2_NEO2 n s leds = blinkFrom s.scan_no n := by
  induction n generalizing s leds with
  | zero => rfl
  | succ n ih =>
    rw [boardLedTrace, blinkFrom, ih, leds_after_native_scan_newer, matrix_scan_user_native_newer]

end Newer

theorem Older.windows_blinkFrom_zero_2000 :
    Older.windows (Older.blinkFrom 0 2000) =
      [(true, 499), (false, 500), (true, 500), (false, 500), (true, 1)] := by
  decide!

/-! ## Claims about the macro resolver and the layer indicator, both variants -/

open Older.MacroOp Older.Keycode in
/-- C15: in both variants (older variant: with a layer other than the steno layer
active), action_get_macro for macro id GRV returns on the press edge the sequence
I(15), DOWN(KC_LSFT), TYPE(DE_ACUT), UP(KC_LSFT), TYPE(KC_SPC), whose key operations
are, in order: press left shift, type the acute-accent key, release left shift, type
space; on the release edge it returns the empty sequence MACRO_NONE. -/
theorem C15_grv_resolves_to_shifted_acute_then_space (s : Older.State) (l opt : Nat)
    (hl : l ≠ Older.TXBOLT) (sN : Newer.State) (optN : Nat) :
    (( Older.action_get_macro s l true Older.GRV opt).2
        = [I 15, DOWN KC_LSFT, TYPE DE_ACUT, UP KC_LSFT, TYPE KC_SPC])
      ∧ (Older.keyOps ( Older.action_get_macro s l true Older.GRV opt).2
        = [DOWN KC_LSFT, TYPE DE_ACUT, UP KC_LSFT, TYPE KC_SPC])
      ∧ ( Older.action_get_macro s l false Older.GRV opt).2 = Older.MACRO_NONE
      ∧ (( Newer.action_get_macro sN true Newer.GRV optN).2
        = [I 15, DOWN KC_LSFT, TYPE DE_ACUT, UP KC_LSFT, TYPE KC_SPC])
      ∧ (Older.keyOps ( Newer.action_get_macro sN true Newer.GRV optN).2
        = [DOWN KC_LSFT, TYPE DE_ACUT, UP KC_LSFT, TYPE KC_SPC])
      ∧ ( Newer.action_get_macro sN false Newer.GRV optN).2 = Older.MACRO_NONE := by
  have hO : ( Older.action_get_macro s l true Older.GRV opt).2
      = [I 15, DOWN KC_LSFT, TYPE DE_ACUT, UP KC_LSFT, TYPE KC_SPC] := by
    simp [ Older.action_get_macro, hl, Older.GRV, Older.CIRC, Older.MOD_ND]
  have hN : ( Newer.action_get_macro sN true Newer.GRV optN).2
      = [I 15, DOWN KC_LSFT, TYPE DE_ACUT, UP KC_LSFT, TYPE KC_SPC] := by
    simp [ Newer.action_get_macro, Newer.GRV, Newer.CIRC, Newer.MOD_ND]
  refine ⟨hO, ?_, ?_, hN, ?_, ?_⟩
  · rw [hO]; rfl
  · simp only [ Older.action_get_macro, Bool.false_eq_true, if_false]
    split_ifs <;> rfl
  · rw [hN]; rfl
  · simp [ Newer.action_get_macro]

theorem C15_witness :
    Older.SYMBOLS ≠ Older.TXBOLT
      ∧ Older.keyOps ( Older.action_get_macro Older.init Older.SYMBOLS true Older.GRV 0).2
        = [Older.MacroOp.DOWN Older.Keycode.KC_LSFT, Older.MacroOp.TYPE Older.Keycode.DE_ACUT,
            Older.MacroOp.UP Older.Keycode.KC_LSFT, Older.MacroOp.TYPE Older.Keycode.KC_SPC] :=
  ⟨by decide,
    ( C15_grv_resolves_to_shifted_acute_then_space Older.init Older.SYMBOLS 0 (by decide)
      Newer.init 0).2.1⟩

open Older.MacroOp Older.Keycode in
/-- C16: in the newer variant action_get_macro resolves on the press edge CIRC to
I(15), TYPE(DE_CIRC), TYPE(KC_SPC) (type circumflex, type space), LESS to I(15),
TYPE(DE_LESS) (type the less-than key), and MORE to I(15), DOWN(KC_LSFT),
TYPE(DE_LESS), UP(KC_LSFT) (press left shift, type the less-than key, release left
shift); the state is left as it was. -/
theorem C16_newer_circ_less_more_resolutions (s : Newer.State) (opt : Nat) :
    ( Newer.action_get_macro s true Newer.CIRC opt)
        = (s, [I 15, TYPE DE_CIRC, TYPE KC_SPC])
      ∧ Older.keyOps ( Newer.action_get_macro s true Newer.CIRC opt).2
        = [TYPE DE_CIRC, TYPE KC_SPC]
      ∧ ( Newer.action_get_macro s true Newer.LESS opt) = (s, [I 15, TYPE DE_LESS])
      ∧ Older.keyOps ( Newer.action_get_macro s true Newer.LESS opt).2 = [TYPE DE_LESS]
      ∧ ( Newer.action_get_macro s true Newer.MORE opt)
        = (s, [I 15, DOWN KC_LSFT, TYPE DE_LESS, UP KC_LSFT])
      ∧ Older.keyOps ( Newer.action_get_macro s true Newer.MORE opt).2
        = [DOWN KC_LSFT, TYPE DE_LESS, UP KC_LSFT] := by
  refine ⟨?_, ?_, ?_, ?_, ?_, ?_⟩ <;>
    simp [ Newer.action_get_macro, Newer.CIRC, Newer.GRV, Newer.LESS, Newer.MORE,
      Newer.TPE_ND, Newer.TPE, Newer.MOD, Older.keyOps, List.filter]

/-- C17: in both variants action_get_macro returns the empty sequence MACRO_NONE on
the release edge, for every macro id and option byte and, in the older variant, for
every active layer and every state of the chord buffer and of pressed_count: no key
operation is synthesized on release. -/
theorem C17_release_edge_plays_nothing (s : Older.State) (l id opt : Nat)
    (sN : Newer.State) (idN optN : Nat) :
    ( Older.action_get_macro s l false id opt).2 = Older.MACRO_NONE
      ∧ Older.keyOps ( Older.action_get_macro s l false id opt).2 = []
      ∧ ( Newer.action_get_macro sN false idN optN).2 = Older.MACRO_NONE
      ∧ Older.keyOps ( Newer.action_get_macro sN false idN optN).2 = [] := by
  have hO : ( Older.action_get_macro s l false id opt).2 = Older.MACRO_NONE := by
    simp only [ Older.action_get_macro, Bool.false_eq_true, if_false]
    split_ifs <;> rfl
  have hN : ( Newer.action_get_macro sN false idN optN).2 = Older.MACRO_NONE := by
    simp [ Newer.action_get_macro]
  refine ⟨hO, ?_, hN, ?_⟩
  · rw [hO]; rfl
  · rw [hN]; rfl

/-- C18: macro ids outside the defined set are ignored.  In the older variant with a
layer other than the steno layer active and an id other than CIRC (0) and GRV (1), and
in the newer variant with an id other than CIRC, GRV, LESS (2) and MORE (3),
action_get_macro on the press edge returns the empty sequence MACRO_NONE and leaves the
whole state, the serial log included, as it was. -/
theorem C18_unknown_macro_id_ignored (s : Older.State) (l id opt : Nat)
    (hl : l ≠ Older.TXBOLT) (h0 : id ≠ 0) (h1 : id ≠ 1)
    (sN : Newer.State) (idN optN : Nat)
    (n0 : idN ≠ 0) (n1 : idN ≠ 1) (n2 : idN ≠ 2) (n3 : idN ≠ 3) :
    ( Older.action_get_macro s l true id opt) = (s, Older.MACRO_NONE)
      ∧ ( Older.action_get_macro s l true id opt).1.virtser = s.virtser
      ∧ ( Newer.action_get_macro sN true idN optN) = (sN, Older.MACRO_NONE) := by
  have hO : ( Older.action_get_macro s l true id opt) = (s, Older.MACRO_NONE) := by
    simp [ Older.action_get_macro, hl, Older.CIRC, Older.GRV, h0, h1]
  refine ⟨hO, by rw [hO], ?_⟩
  simp [ Newer.action_get_macro, Newer.CIRC, Newer.GRV, Newer.LESS, Newer.MORE, n0, n1, n2, n3]

theorem C18_witness :
    Older.SYMBOLS ≠ Older.TXBOLT ∧ (2 : Nat) ≠ 0 ∧ (2 : Nat) ≠ 1
      ∧ ( Older.action_get_macro Older.init Older.SYMBOLS true 2 0)
          = (Older.init, Older.MACRO_NONE)
      ∧ ( Newer.action_get_macro Newer.init true 4 0) = (Newer.init, Older.MACRO_NONE) :=
  ⟨by decide, by decide, by decide,
    ( C18_unknown_macro_id_ignored Older.init Older.SYMBOLS 2 0 (by decide) (by decide)
      (by decide) Newer.init 4 0 (by decide) (by decide) (by decide) (by decide)).1,
    ( C18_unknown_macro_id_ignored Older.init Older.SYMBOLS 2 0 (by decide) (by decide)
      (by decide) Newer.init 4 0 (by decide) (by decide) (by decide) (by decide)).2.2⟩

/-- C19, as stated, fails.  After 65535 scan calls with the native-layout layer active
the 16-bit counter scan_no holds 65535; the next call leaves it at 0, not at the
previous value plus one. -/
theorem C19_counterexample_counter_wraps_at_65535 :
    Older.scans Older.NEO2_NEO2 65535 Older.init = { Older.init with scan_no := 65535 }
      ∧ (Older.matrix_scan_user { Older.init with scan_no := 65535 } Older.NEO2_NEO2).1.scan_no
          = 0
      ∧ (Older.matrix_scan_user { Older.init with scan_no := 65535 } Older.NEO2_NEO2).1.scan_no
          ≠ 65535 + 1 := by
  refine ⟨?_, by decide, by decide⟩
  rw [Older.scans_native 65535 Older.init (by decide)]
  rfl

/-- C19, amended: matrix_scan_user with the native-layout layer NEO2_NEO2 active, in
either variant: scan_no after the call is the previous value plus one modulo 65536 (the
counter is 16 bits wide, 65535 is followed by 0); whatever the LEDs showed before, the
board LED is on after the call if and only if the new scan_no modulo 1000 is below 500,
and the right-hand LEDs 1 to 3 are off. -/
theorem C19_native_layer_scan_counts_and_blinks (s : Older.State) (sN : Newer.State)
    (leds : Older.Leds) :
    ((Older.matrix_scan_user s Older.NEO2_NEO2).1.scan_no = (s.scan_no + 1) % 65536
      ∧ ((Older.applyLedOps leds (Older.matrix_scan_user s Older.NEO2_NEO2).2).board = true
          ↔ (Older.matrix_scan_user s Older.NEO2_NEO2).1.scan_no % 1000 < 500)
      ∧ (Older.applyLedOps leds (Older.matrix_scan_user s Older.NEO2_NEO2).2).right_1 = false
      ∧ (Older.applyLedOps leds (Older.matrix_scan_user s Older.NEO2_NEO2).2).right_2 = false
      ∧ (Older.applyLedOps leds (Older.matrix_scan_user s Older.NEO2_NEO2).2).right_3 = false)
    ∧ ((Newer.matrix_scan_user sN Newer.NEO2_NEO2).1.scan_no = (sN.scan_no + 1) % 65536
      ∧ ((Older.applyLedOps leds (Newer.matrix_scan_user sN Newer.NEO2_NEO2).2).board = true
          ↔ (Newer.matrix_scan_user sN Newer.NEO2_NEO2).1.scan_no % 1000 < 500)
      ∧ (Older.applyLedOps leds (Newer.matrix_scan_user sN Newer.NEO2_NEO2).2).right_1 = false
      ∧ (Older.applyLedOps leds (Newer.matrix_scan_user sN Newer.NEO2_NEO2).2).right_2 = false
      ∧ (Older.applyLedOps leds (Newer.matrix_scan_user sN Newer.NEO2_NEO2).2).right_3 = false) := by
  constructor
  · rw [Older.leds_after_native_scan, Older.matrix_scan_user_native]
    simp
  · rw [Newer.leds_after_native_scan_newer, Newer.matrix_scan_user_native_newer]
    simp

/-- C20, as stated, fails.  From scan_no = 0 with the native-layout layer active, the
board LED after the 2000 calls shows five maximal windows, not four: the 2000th call
brings scan_no to 2000, whose remainder modulo 1000 is 0, so the LED is on again. -/
theorem C20_counterexample_fifth_window_at_call_2000 :
    (Older.windows (Older.boardLedTrace Older.NEO2_NEO2 2000 Older.init
        ⟨false, false, false, false⟩)).length = 5
      ∧ (Older.windows (Older.boardLedTrace Older.NEO2_NEO2 2000 Older.init
        ⟨false, false, false, false⟩)).map Prod.fst ≠ [true, false, true, false]
      ∧ (Older.boardLedTrace Older.NEO2_NEO2 2000 Older.init
        ⟨false, false, false, false⟩).getLast? = some true := by
  rw [Older.boardLedTrace_native]
  decide!

/-- C20, amended: starting from scan_no = 0 with the native-layout layer active for
2000 consecutive matrix_scan_user calls, in either variant and whatever the LEDs showed
before, the board-LED states after the calls form five maximal windows: on for 499
calls, off for 500, on for 500, off for 500, and on again at the 2000th call. -/
theorem C20_blink_windows_over_2000_scans (s : Older.State) (sN : Newer.State)
    (leds : Older.Leds) (h : s.scan_no = 0) (hN : sN.scan_no = 0) :
    Older.windows (Older.boardLedTrace Older.NEO2_NEO2 2000 s leds)
        = [(true, 499), (false, 500), (true, 500), (false, 500), (true, 1)]
      ∧ Older.windows (Newer.boardLedTrace Newer.NEO2_NEO2 2000 sN leds)
        = [(true, 499), (false, 500), (true, 500), (false, 500), (true, 1)] := by
  rw [Older.boardLedTrace_native, Newer.boardLedTrace_native_newer, h, hN]
  exact ⟨Older.windows_blinkFrom_zero_2000, Older.windows_blinkFrom_zero_2000⟩

theorem C20_witness :
    Older.init.scan_no = 0 ∧ Newer.init.scan_no = 0
      ∧ (Older.windows (Older.boardLedTrace Older.NEO2_NEO2 2000 Older.init
          ⟨true, true, true, true⟩)).length = 5 := by
  refine ⟨rfl, rfl, ?_⟩
  rw [( C20_blink_windows_over_2000_scans Older.init Newer.init ⟨true, true, true, true⟩
    rfl rfl).1]
  rfl

/-! ## Further facts about the layer indicator -/

namespace Older

theorem matrix_scan_user_steno (s : State) :
    matrix_scan_user s TXBOLT =
      ({ s with scan_no := 0 },
        [.ergodox_board_led_off, .ergodox_right_led_1_off, .ergodox_right_led_2_off,
          .ergodox_right_led_3_off, .ergodox_board_led_on]) := by
  simp [matrix_scan_user, TXBOLT, NEO2_NEO2]

theorem matrix_scan_user_other (s : State) (layer : Nat) (h1 : layer ≠ 1) (h6 : layer ≠ 6) :
    matrix_scan_user s layer =
      ({ s with scan_no := 0 },
        [.ergodox_board_led_off, .ergodox_right_led_1_off, .ergodox_right_led_2_off,
          .ergodox_right_led_3_off]) := by
  simp [matrix_scan_user, TXBOLT, NEO2_NEO2, h1, h6]

theorem boardLedTrace_steno (n : Nat) (s : State) (leds : Leds) :
    boardLedTrace TXBOLT n s leds = List.replicate n true := by
  induction n generalizing s leds with
  | zero => rfl
  | succ n ih =>
    rw [boardLedTrace, ih, matrix_scan_user_steno, List.replicate_succ]
    rfl

theorem scans_steno_scan_no (n : Nat) (s : State) : (scans TXBOLT (n + 1) s).scan_no = 0 := by
  induction n generalizing s with
  | zero =>
    rw [scans, scans, matrix_scan_user_steno]
  | succ n ih =>
    rw [scans]
    exact ih _

/-- While the 16-bit counter does not wrap, the blink phase is read off the counter
values c+1, c+2, ... -/
theorem blinkFrom_eq_map (n c : Nat) (h : c + n ≤ 65535) :
    blinkFrom c n = (List.range' (c + 1) n).map (fun k => decide (k % 1000 < 500)) := by
  induction n generalizing c with
  | zero => rfl
  | succ n ih =>
    have hc : (c + 1) % 65536 = c + 1 := Nat.mod_eq_of_lt (by omega)
    rw [blinkFrom, hc, ih (c + 1) (by omega), List.range'_succ, List.map_cons]

/-- Sliding a window of 1000 consecutive counter values by one does not change how
often each LED state occurs in it. -/
theorem window_count_shift (b : Bool) (c : Nat) :
    ((List.range' (c + 2) 1000).map (fun k => decide (k % 1000 < 500))).count b
      = ((List.range' (c + 1) 1000).map (fun k => decide (k % 1000 < 500))).count b := by
  have e : (c + 1) :: List.range' (c + 2) 1000 = List.range' (c + 1) 1000 ++ [c + 1 + 1000] := by
    have h1 : List.range' (c + 1) (1000 + 1) = (c + 1) :: List.range' (c + 1 + 1) 1000 :=
      List.range'_succ (c + 1) 1000 1
    have h2 : List.range' (c + 1) (1000 + 1) = List.range' (c + 1) 1000 ++ [c + 1 + 1 * 1000] :=
      List.range'_concat (c + 1) 1000
    rw [Nat.one_mul] at h2
    exact h1.symm.trans h2
  have hmod : (c + 1 + 1000) % 1000 = (c + 1) % 1000 := by omega
  have h := congrArg (fun l => (l.map (fun k => decide (k % 1000 < 500))).count b) e
  simp only [List.map_cons, List.map_append, List.map_nil, List.count_append, List.count_cons,
    List.count_nil, hmod] at h
  omega

set_option maxRecDepth 100000 in
theorem window_count_zero :
    ((List.range' 1 1000).map (fun k => decide (k % 1000 < 500))).count true = 500
      ∧ ((List.range' 1 1000).map (fun k => decide (k % 1000 < 500))).count false = 500 := by
  decide!

theorem window_count (c : Nat) :
    ((List.range' (c + 1) 1000).map (fun k => decide (k % 1000 < 500))).count true = 500
      ∧ ((List.range' (c + 1) 1000).map (fun k => decide (k % 1000 < 500))).count false
          = 500 := by
  induction c with
  | zero => exact window_count_zero
  | succ c ih =>
    rw [window_count_shift true c, window_count_shift false c]
    exact ih

end Older

namespace Newer

open Older (LedOp Leds applyLedOps blinkFrom)

theorem matrix_scan_user_steno_newer (s : State) :
    matrix_scan_user s TXBOLT =
      ({ s with scan_no := 0 },
        [.ergodox_board_led_off, .ergodox_right_led_1_off, .ergodox_right_led_2_off,
          .ergodox_right_led_3_off, .ergodox_board_led_on]) := by
  simp [matrix_scan_user, TXBOLT, NEO2_NEO2]

theorem matrix_scan_user_other_newer (s : State) (layer : Nat) (h1 : layer ≠ 1)
    (h6 : layer ≠ 6) :
    matrix_scan_user s layer =
      ({ s with scan_no := 0 },
        [.ergodox_board_led_off, .ergodox_right_led_1_off, .ergodox_right_led_2_off,
          .ergodox_right_led_3_off]) := by
  simp [matrix_scan_user, TXBOLT, NEO2_NEO2, h1, h6]

theorem boardLedTrace_steno_newer (n : Nat) (s : State) (leds : Leds) :
    boardLedTrace TXBOLT n s leds = List.replicate n true := by
  induction n generalizing s leds with
  | zero => rfl
  | succ n ih =>
    rw [boardLedTrace, ih, matrix_scan_user_steno_newer, List.replicate_succ]
    rfl

theorem scans_steno_scan_no_newer (n : Nat) (s : State) :
    (scans TXBOLT (n + 1) s).scan_no = 0 := by
  induction n generalizing s with
  | zero =>
    rw [scans, scans, matrix_scan_user_steno_newer]
  | succ n ih =>
    rw [scans]
    exact ih _

end Newer

/-! ## Claims about the layer indicator, continued -/

/-- C21: matrix_scan_user with the steno layer TXBOLT active, in either variant: for
every previous counter value, whatever the LEDs showed before, the board LED is on
after the call and scan_no is 0; over any number n of consecutive calls the board LED
is on after every call, and scan_no is 0 after every call. -/
theorem C21_steno_layer_led_solid_on (s : Older.State) (sN : Newer.State)
    (leds : Older.Leds) (n : Nat) :
    ((Older.matrix_scan_user s Older.TXBOLT).1.scan_no = 0
      ∧ (Older.applyLedOps leds (Older.matrix_scan_user s Older.TXBOLT).2).board = true
      ∧ Older.boardLedTrace Older.TXBOLT n s leds = List.replicate n true
      ∧ (Older.scans Older.TXBOLT (n + 1) s).scan_no = 0)
    ∧ ((Newer.matrix_scan_user sN Newer.TXBOLT).1.scan_no = 0
      ∧ (Older.applyLedOps leds (Newer.matrix_scan_user sN Newer.TXBOLT).2).board = true
      ∧ Newer.boardLedTrace Newer.TXBOLT n sN leds = List.replicate n true
      ∧ (Newer.scans Newer.TXBOLT (n + 1) sN).scan_no = 0) := by
  refine ⟨⟨?_, ?_, Older.boardLedTrace_steno n s leds, Older.scans_steno_scan_no n s⟩,
    ⟨?_, ?_, Newer.boardLedTrace_steno_newer n sN leds, Newer.scans_steno_scan_no_newer n sN⟩⟩
  · rw [Older.matrix_scan_user_steno]
  · rw [Older.matrix_scan_user_steno]; rfl
  · rw [Newer.matrix_scan_user_steno_newer]
  · rw [Newer.matrix_scan_user_steno_newer]; rfl

/-- C22: matrix_scan_user with an active layer other than NEO2_NEO2 (1) and TXBOLT
(6), in either variant: whatever scan_no and the LEDs were before, scan_no is 0 after
the call and the board LED and the right LEDs 1 to 3 are all off. -/
theorem C22_other_layers_leds_off_counter_reset (s : Older.State) (sN : Newer.State)
    (leds : Older.Leds) (layer : Nat) (h1 : layer ≠ 1) (h6 : layer ≠ 6) :
    ((Older.matrix_scan_user s layer).1.scan_no = 0
      ∧ Older.applyLedOps leds (Older.matrix_scan_user s layer).2
          = ⟨false, false, false, false⟩)
    ∧ ((Newer.matrix_scan_user sN layer).1.scan_no = 0
      ∧ Older.applyLedOps leds (Newer.matrix_scan_user sN layer).2
          = ⟨false, false, false, false⟩) := by
  rw [Older.matrix_scan_user_other s layer h1 h6, Newer.matrix_scan_user_other_newer sN layer h1 h6]
  exact ⟨⟨rfl, rfl⟩, ⟨rfl, rfl⟩⟩

theorem C22_witness :
    Older.SYMBOLS ≠ 1 ∧ Older.SYMBOLS ≠ 6
      ∧ Older.applyLedOps ⟨true, true, true, true⟩
          (Older.matrix_scan_user { Older.init with scan_no := 777 } Older.SYMBOLS).2
          = ⟨false, false, false, false⟩
      ∧ (Older.matrix_scan_user { Older.init with scan_no := 777 } Older.SYMBOLS).1.scan_no = 0 :=
  ⟨by decide, by decide,
    ( C22_other_layers_leds_off_counter_reset { Older.init with scan_no := 777 } Newer.init
      ⟨true, true, true, true⟩ Older.SYMBOLS (by decide) (by decide)).1.2,
    ( C22_other_layers_leds_off_counter_reset { Older.init with scan_no := 777 } Newer.init
      ⟨true, true, true, true⟩ Older.SYMBOLS (by decide) (by decide)).1.1⟩

/-- C23, as stated, fails.  After 65535 scan calls with the native-layout layer
active scan_no is 65535; one more call with that layer leaves it at 0, which is not
greater than before. -/
theorem C23_counterexample_counter_falls_to_zero :
    (Older.scans Older.NEO2_NEO2 65535 Older.init).scan_no = 65535
      ∧ ¬ ((Older.scans Older.NEO2_NEO2 65535 Older.init).scan_no
          < (Older.matrix_scan_user (Older.scans Older.NEO2_NEO2 65535 Older.init)
              Older.NEO2_NEO2).1.scan_no) := by
  rw [Older.scans_native 65535 Older.init (by decide)]
  decide

/-- C23, amended: while the native-layout layer stays active the counter increases
until it wraps: in either variant a matrix_scan_user call with layer NEO2_NEO2 leaves
scan_no exactly one greater than before for every counter value below 65535, and
leaves it at 0 when it was 65535 (scan_no is a 16-bit unsigned integer). -/
theorem C23_counter_increases_below_65535_then_wraps (s : Older.State) (sN : Newer.State) :
    (s.scan_no < 65535 →
        s.scan_no < (Older.matrix_scan_user s Older.NEO2_NEO2).1.scan_no
          ∧ (Older.matrix_scan_user s Older.NEO2_NEO2).1.scan_no = s.scan_no + 1)
      ∧ (s.scan_no = 65535 → (Older.matrix_scan_user s Older.NEO2_NEO2).1.scan_no = 0)
      ∧ (sN.scan_no < 65535 →
        sN.scan_no < (Newer.matrix_scan_user sN Newer.NEO2_NEO2).1.scan_no
          ∧ (Newer.matrix_scan_user sN Newer.NEO2_NEO2).1.scan_no = sN.scan_no + 1)
      ∧ (sN.scan_no = 65535 → (Newer.matrix_scan_user sN Newer.NEO2_NEO2).1.scan_no = 0) := by
  rw [Older.matrix_scan_user_native, Newer.matrix_scan_user_native_newer]
  refine ⟨?_, ?_, ?_, ?_⟩
  · intro h
    have : (s.scan_no + 1) % 65536 = s.scan_no + 1 := Nat.mod_eq_of_lt (by omega)
    simp [this]
  · intro h
    simp only [h]
  · intro h
    have : (sN.scan_no + 1) % 65536 = sN.scan_no + 1 := Nat.mod_eq_of_lt (by omega)
    simp [this]
  · intro h
    simp only [h]

/-- C24: the layer indicator is a function of the active layer and the counter alone.
Two calls of matrix_scan_user that agree on the layer and on the previous scan_no
issue the same LED operations and leave the same scan_no, whatever the chord buffer,
pressed_count and serial log hold; the LEDs after the call do not depend on the LEDs
before it; and in the older variant the call leaves chord, pressed_count and the serial
log unchanged. -/
theorem C24_indicator_depends_on_layer_and_counter_only (s1 s2 : Older.State)
    (t1 t2 : Newer.State) (layer : Nat) (leds1 leds2 : Older.Leds)
    (h : s1.scan_no = s2.scan_no) (hN : t1.scan_no = t2.scan_no) :
    (Older.matrix_scan_user s1 layer).2 = (Older.matrix_scan_user s2 layer).2
      ∧ (Older.matrix_scan_user s1 layer).1.scan_no = (Older.matrix_scan_user s2 layer).1.scan_no
      ∧ Older.applyLedOps leds1 (Older.matrix_scan_user s1 layer).2
          = Older.applyLedOps leds2 (Older.matrix_scan_user s2 layer).2
      ∧ (Older.matrix_scan_user s1 layer).1.chord = s1.chord
      ∧ (Older.matrix_scan_user s1 layer).1.pressed_count = s1.pressed_count
      ∧ (Older.matrix_scan_user s1 layer).1.virtser = s1.virtser
      ∧ Newer.matrix_scan_user t1 layer = Newer.matrix_scan_user t2 layer
      ∧ Older.applyLedOps leds1 (Newer.matrix_scan_user t1 layer).2
          = Older.applyLedOps leds2 (Newer.matrix_scan_user t2 layer).2 := by
  have ht : t1 = t2 := by
    cases t1; cases t2; simp_all
  subst ht
  refine ⟨?_, ?_, ?_, ?_, ?_, ?_, rfl, ?_⟩
  · simp only [Older.matrix_scan_user, h]
    split_ifs <;> rfl
  · simp only [Older.matrix_scan_user, h]
    split_ifs <;> rfl
  · simp only [Older.matrix_scan_user, h]
    split_ifs <;> rfl
  · simp only [Older.matrix_scan_user]
    split_ifs <;> rfl
  · simp only [Older.matrix_scan_user]
    split_ifs <;> rfl
  · simp only [Older.matrix_scan_user]
    split_ifs <;> rfl
  · simp only [Newer.matrix_scan_user]
    split_ifs <;> rfl

theorem C24_witness :
    ({ Older.init with scan_no := 499 } : Older.State).scan_no
        = (⟨⟨3, 0, 0, 0⟩, 2, 499, [3, 0]⟩ : Older.State).scan_no
      ∧ (Older.matrix_scan_user { Older.init with scan_no := 499 } Older.NEO2_NEO2).2
        = (Older.matrix_scan_user ⟨⟨3, 0, 0, 0⟩, 2, 499, [3, 0]⟩ Older.NEO2_NEO2).2 :=
  ⟨rfl,
    ( C24_indicator_depends_on_layer_and_counter_only { Older.init with scan_no := 499 }
      ⟨⟨3, 0, 0, 0⟩, 2, 499, [3, 0]⟩ Newer.init Newer.init Older.NEO2_NEO2
      ⟨false, false, false, false⟩ ⟨true, true, true, true⟩ rfl rfl).1⟩

/-- C30: 50 percent duty cycle.  For every starting counter value c with c + 1000 at
most 65535, in either variant and whatever the LEDs showed before, among 1000
consecutive matrix_scan_user calls with the native-layout layer active the board LED is
on after exactly 500 of the calls and off after exactly 500. -/
theorem C30_half_duty_over_1000_scans (s : Older.State) (sN : Newer.State)
    (leds : Older.Leds) (h : s.scan_no + 1000 ≤ 65535) (hN : sN.scan_no + 1000 ≤ 65535) :
    ((Older.boardLedTrace Older.NEO2_NEO2 1000 s leds).count true = 500
      ∧ (Older.boardLedTrace Older.NEO2_NEO2 1000 s leds).count false = 500)
    ∧ ((Newer.boardLedTrace Newer.NEO2_NEO2 1000 sN leds).count true = 500
      ∧ (Newer.boardLedTrace Newer.NEO2_NEO2 1000 sN leds).count false = 500) := by
  rw [Older.boardLedTrace_native, Newer.boardLedTrace_native_newer,
    Older.blinkFrom_eq_map 1000 s.scan_no h, Older.blinkFrom_eq_map 1000 sN.scan_no hN]
  exact ⟨Older.window_count s.scan_no, Older.window_count sN.scan_no⟩

theorem C30_witness :
    ({ Older.init with scan_no := 64535 } : Older.State).scan_no + 1000 ≤ 65535
      ∧ Newer.init.scan_no + 1000 ≤ 65535
      ∧ (Older.boardLedTrace Older.NEO2_NEO2 1000 { Older.init with scan_no := 64535 }
          ⟨false, false, false, false⟩).count true = 500 :=
  ⟨by decide, by decide,
    ( C30_half_duty_over_1000_scans { Older.init with scan_no := 64535 } Newer.init
      ⟨false, false, false, false⟩ (by decide) (by decide)).1.1⟩

/-! ## Facts about the layer tables -/

namespace Older

theorem keymaps_lengths : ∀ l ∈ keymaps, l.length = 76 := by decide!

theorem entry_eq_none_iff (L P : Nat) (hL : L < 7) : entry L P = none ↔ 76 ≤ P := by
  have hlen : keymaps.length = 7 := rfl
  have hget : keymaps.get? L = some (keymaps.get ⟨L, by rw [hlen]; exact hL⟩) :=
    List.get?_eq_get _
  have h76 := keymaps_lengths _ (List.get_mem keymaps L (by rw [hlen]; exact hL))
  simp only [entry, hget]
  rw [List.get?_eq_none, h76]

theorem entry_of_layer_ge (L P : Nat) (hL : 7 ≤ L) : entry L P = none := by
  have hnone : keymaps.get? L = none := List.get?_eq_none.mpr hL
  simp only [entry, hnone]

theorem reset_positions :
    ∀ L, L < 7 → ∀ P, P < 76 → (entry L P = some .RESET ↔ (L = FKEYS ∧ P = 0)) := by
  decide!

theorem base_layers_kinds :
    ∀ P, P < 76 →
      (((NEO2_NEO2_KEYMAP.getD P .KC_NO).kind = .transparent
          ∨ (NEO2_NEO2_KEYMAP.getD P .KC_NO).kind = .literal)
        ∧ (((NEO2_NEO2_KEYMAP.getD P .KC_NO).over (QWERTZ_NEO2_KEYMAP.getD P .KC_NO)).kind
              = (QWERTZ_NEO2_KEYMAP.getD P .KC_NO).kind
            ↔ ¬ (P = 31 ∨ P = 35 ∨ P = 65))) := by
  decide!

end Older

namespace Newer

open Older (KeyAction)

theorem keymaps_lengths_newer : ∀ l ∈ keymaps, l.length = 76 := by decide!

theorem entry_eq_none_iff_newer (L P : Nat) (hL : L < 7) : entry L P = none ↔ 76 ≤ P := by
  have hlen : keymaps.length = 7 := rfl
  have hget : keymaps.get? L = some (keymaps.get ⟨L, by rw [hlen]; exact hL⟩) :=
    List.get?_eq_get _
  have h76 := keymaps_lengths_newer _ (List.get_mem keymaps L (by rw [hlen]; exact hL))
  simp only [entry, hget]
  rw [List.get?_eq_none, h76]

theorem entry_of_layer_ge_newer (L P : Nat) (hL : 7 ≤ L) : entry L P = none := by
  have hnone : keymaps.get? L = none := List.get?_eq_none.mpr hL
  simp only [entry, hnone]

theorem reset_positions_newer :
    ∀ L, L < 7 → ∀ P, P < 76 → (entry L P = some .RESET ↔ (L = FKEYS ∧ P = 0)) := by
  decide!

theorem base_layers_kinds_newer :
    ∀ P, P < 76 →
      (((NEO2_NEO2_LAYOUT.getD P .KC_NO).kind = .transparent
          ∨ (NEO2_NEO2_LAYOUT.getD P .KC_NO).kind = .literal)
        ∧ (((NEO2_NEO2_LAYOUT.getD P .KC_NO).over (QWERTZ_NEO2_LAYOUT.getD P .KC_NO)).kind
              = (QWERTZ_NEO2_LAYOUT.getD P .KC_NO).kind
            ↔ ¬ (P = 35))) := by
  decide!

end Newer

/-! ## Claims about the layer tables and the two macro resolvers -/

open Older.KeyAction in
/-- C25, as stated, fails.  In the older variant the key at position 35 (the first
key of the bottom row of the left thumb cluster) is bound to the layer action
MO(SYMBOLS) by QWERTZ_NEO2 and to the literal keycode KC_CAPS by NEO2_NEO2: the two
entries are not of the same kind, also when transparency is resolved. -/
theorem C25_counterexample_layer_action_replaced_by_literal :
    Older.QWERTZ_NEO2_KEYMAP.get? 35 = some (MO Older.SYMBOLS)
      ∧ Older.NEO2_NEO2_KEYMAP.get? 35 = some (KC "KC_CAPS")
      ∧ (MO Older.SYMBOLS).kind = Older.Kind.layerAction
      ∧ (KC "KC_CAPS").kind = Older.Kind.literal
      ∧ ((KC "KC_CAPS").over (MO Older.SYMBOLS)).kind ≠ (MO Older.SYMBOLS).kind := by
  refine ⟨rfl, rfl, rfl, rfl, ?_⟩
  decide

open Older.KeyAction in
/-- C25, amended: in each variant NEO2_NEO2 is an overlay on QWERTZ_NEO2 over the same
76 key positions: every entry of NEO2_NEO2 is transparent (the QWERTZ_NEO2 binding
stays in force) or a literal keycode, and with transparency resolved the two layers
bind entries of the same kind at every position except where NEO2_NEO2 puts a literal
keycode in the place of a layer action: in the older variant at positions 31
(MO(NUMBERS) becomes KC_RALT), 35 (MO(SYMBOLS) becomes KC_CAPS) and 65 (MO(FUNCTIONS)
becomes KC_RALT), in the newer variant at position 35 (MO(SYMBOLS) becomes
NEO_L1_L). -/
theorem C25_neo2_layer_is_overlay_of_literals :
    (Older.QWERTZ_NEO2_KEYMAP.length = 76 ∧ Older.NEO2_NEO2_KEYMAP.length = 76
      ∧ (∀ P, P < 76 →
        (((Older.NEO2_NEO2_KEYMAP.getD P KC_NO).kind = Older.Kind.transparent
            ∨ (Older.NEO2_NEO2_KEYMAP.getD P KC_NO).kind = Older.Kind.literal)
          ∧ (((Older.NEO2_NEO2_KEYMAP.getD P KC_NO).over
                (Older.QWERTZ_NEO2_KEYMAP.getD P KC_NO)).kind
                = (Older.QWERTZ_NEO2_KEYMAP.getD P KC_NO).kind
              ↔ ¬ (P = 31 ∨ P = 35 ∨ P = 65))))
      ∧ Older.QWERTZ_NEO2_KEYMAP.get? 31 = some (MO Older.NUMBERS)
      ∧ Older.NEO2_NEO2_KEYMAP.get? 31 = some (KC "KC_RALT")
      ∧ Older.QWERTZ_NEO2_KEYMAP.get? 35 = some (MO Older.SYMBOLS)
      ∧ Older.NEO2_NEO2_KEYMAP.get? 35 = some (KC "KC_CAPS")
      ∧ Older.QWERTZ_NEO2_KEYMAP.get? 65 = some (MO Older.FUNCTIONS)
      ∧ Older.NEO2_NEO2_KEYMAP.get? 65 = some (KC "KC_RALT"))
    ∧ (Newer.QWERTZ_NEO2_LAYOUT.length = 76 ∧ Newer.NEO2_NEO2_LAYOUT.length = 76
      ∧ (∀ P, P < 76 →
        (((Newer.NEO2_NEO2_LAYOUT.getD P KC_NO).kind = Older.Kind.transparent
            ∨ (Newer.NEO2_NEO2_LAYOUT.getD P KC_NO).kind = Older.Kind.literal)
          ∧ (((Newer.NEO2_NEO2_LAYOUT.getD P KC_NO).over
                (Newer.QWERTZ_NEO2_LAYOUT.getD P KC_NO)).kind
                = (Newer.QWERTZ_NEO2_LAYOUT.getD P KC_NO).kind
              ↔ ¬ (P = 35))))
      ∧ Newer.QWERTZ_NEO2_LAYOUT.get? 35 = some (MO Newer.SYMBOLS)
      ∧ Newer.NEO2_NEO2_LAYOUT.get? 35 = some (KC "NEO_L1_L")) :=
  ⟨⟨rfl, rfl, Older.base_layers_kinds, rfl, rfl, rfl, rfl, rfl, rfl⟩,
    ⟨rfl, rfl, Newer.base_layers_kinds_newer, rfl, rfl⟩⟩

/-- C26: for every layer L in 0..6 of either variant, the positions that the
initialiser of the layer does not explicitly define are exactly the positions from 76
on; the lookup of (L, P) yields the no-op action KC_NO at each of them, and the
defined entry at every other position.  The lookup is a total function. -/
theorem C26_undefined_positions_look_up_as_no_op (L P : Nat) (hL : L < 7) :
    ((Older.entry L P = none ↔ 76 ≤ P)
      ∧ (Older.entry L P = none → Older.lookup L P = Older.KeyAction.KC_NO)
      ∧ (∀ a, Older.entry L P = some a → Older.lookup L P = a))
    ∧ ((Newer.entry L P = none ↔ 76 ≤ P)
      ∧ (Newer.entry L P = none → Newer.lookup L P = Older.KeyAction.KC_NO)
      ∧ (∀ a, Newer.entry L P = some a → Newer.lookup L P = a)) := by
  refine ⟨⟨Older.entry_eq_none_iff L P hL, ?_, ?_⟩,
    ⟨Newer.entry_eq_none_iff_newer L P hL, ?_, ?_⟩⟩
  · intro h
    rw [Older.lookup, h]
    rfl
  · intro a h
    rw [Older.lookup, h]
    rfl
  · intro h
    rw [Newer.lookup, h]
    rfl
  · intro a h
    rw [Newer.lookup, h]
    rfl

theorem C26_witness :
    Older.TXBOLT < 7 ∧ Older.lookup Older.TXBOLT 80 = Older.KeyAction.KC_NO
      ∧ Newer.lookup Newer.TXBOLT 80 = Older.KeyAction.KC_NO :=
  ⟨by decide,
    ( C26_undefined_positions_look_up_as_no_op Older.TXBOLT 80 (by decide)).1.2.1
      ((( C26_undefined_positions_look_up_as_no_op Older.TXBOLT 80 (by decide)).1.1).mpr
        (by decide)),
    ( C26_undefined_positions_look_up_as_no_op Older.TXBOLT 80 (by decide)).2.2.1
      ((( C26_undefined_positions_look_up_as_no_op Older.TXBOLT 80 (by decide)).2.1).mpr
        (by decide))⟩

/-- C27: in each variant the entry RESET is defined at exactly one (layer, position)
pair of the whole layer table: layer FKEYS, position 0, the first key of that layer. -/
theorem C27_reset_bound_once_on_fkeys (L P : Nat) :
    (Older.entry L P = some Older.KeyAction.RESET ↔ (L = Older.FKEYS ∧ P = 0))
      ∧ (Newer.entry L P = some Older.KeyAction.RESET ↔ (L = Newer.FKEYS ∧ P = 0)) := by
  by_cases hL : L < 7
  · by_cases hP : P < 76
    · exact ⟨Older.reset_positions L hL P hP, Newer.reset_positions_newer L hL P hP⟩
    · have hO : Older.entry L P = none := (Older.entry_eq_none_iff L P hL).mpr (by omega)
      have hN : Newer.entry L P = none := (Newer.entry_eq_none_iff_newer L P hL).mpr (by omega)
      rw [hO, hN]
      constructor <;>
      · constructor
        · intro h
          exact absurd h (by simp)
        · rintro ⟨_, h0⟩
          omega
  · have hO : Older.entry L P = none := Older.entry_of_layer_ge L P (by omega)
    have hN : Newer.entry L P = none := Newer.entry_of_layer_ge_newer L P (by omega)
    rw [hO, hN]
    constructor
    · constructor
      · intro h
        exact absurd h (by simp)
      · rintro ⟨h5, _⟩
        rw [h5] at hL
        exact absurd (by decide) hL
    · constructor
      · intro h
        exact absurd h (by simp)
      · rintro ⟨h5, _⟩
        rw [h5] at hL
        exact absurd (by decide) hL

open Older.MacroOp Older.Keycode in
/-- C28, as stated, fails.  For macro id 2 on the press edge, with the base layer
active, the older action_get_macro returns the empty sequence, while the newer one,
where 2 is LESS, returns I(15), TYPE(DE_LESS). -/
theorem C28_counterexample_less_only_in_newer :
    ( Older.action_get_macro Older.init Older.QWERTZ_NEO2 true 2 0).2 = []
      ∧ ( Newer.action_get_macro Newer.init true 2 0).2 = [I 15, TYPE DE_LESS]
      ∧ ( Older.action_get_macro Older.init Older.QWERTZ_NEO2 true 2 0).2
          ≠ ( Newer.action_get_macro Newer.init true 2 0).2 := by
  decide

open Older.MacroOp Older.Keycode in
/-- C28, amended: the older action_get_macro called with a layer other than the steno
layer active returns the same key sequence as the newer action_get_macro for every
macro id on the release edge, and on the press edge for every macro id other than
LESS (2) and MORE (3); for these two ids the older variant returns the empty sequence
on the press edge, while the newer variant returns I(15), TYPE(DE_LESS) for LESS and
I(15), DOWN(KC_LSFT), TYPE(DE_LESS), UP(KC_LSFT) for MORE. -/
theorem C28_resolvers_agree_except_less_and_more (s : Older.State) (l id opt : Nat)
    (sN : Newer.State) (optN : Nat) (hl : l ≠ Older.TXBOLT) :
    (( Older.action_get_macro s l false id opt).2 = ( Newer.action_get_macro sN false id optN).2)
      ∧ (id ≠ 2 → id ≠ 3 →
          ( Older.action_get_macro s l true id opt).2
            = ( Newer.action_get_macro sN true id optN).2)
      ∧ ( Older.action_get_macro s l true 2 opt).2 = Older.MACRO_NONE
      ∧ ( Newer.action_get_macro sN true 2 optN).2 = [I 15, TYPE DE_LESS]
      ∧ ( Older.action_get_macro s l true 3 opt).2 = Older.MACRO_NONE
      ∧ ( Newer.action_get_macro sN true 3 optN).2
          = [I 15, DOWN KC_LSFT, TYPE DE_LESS, UP KC_LSFT] := by
  refine ⟨?_, ?_, ?_, ?_, ?_, ?_⟩
  · simp only [ Older.action_get_macro, Newer.action_get_macro, Bool.false_eq_true, if_false]
    split_ifs <;> rfl
  · intro h2 h3
    simp only [ Older.action_get_macro, Newer.action_get_macro, if_true, if_neg hl,
      Older.CIRC, Older.GRV, Newer.CIRC, Newer.GRV, Newer.LESS, Newer.MORE, if_neg h2,
      if_neg h3]
    split_ifs <;> rfl
  · simp [ Older.action_get_macro, hl, Older.CIRC, Older.GRV]
  · simp [ Newer.action_get_macro, Newer.CIRC, Newer.GRV, Newer.LESS, Newer.TPE]
  · simp [ Older.action_get_macro, hl, Older.CIRC, Older.GRV]
  · simp [ Newer.action_get_macro, Newer.CIRC, Newer.GRV, Newer.LESS, Newer.MORE, Newer.MOD]

theorem C28_witness :
    Older.SYMBOLS ≠ Older.TXBOLT
      ∧ ( Older.action_get_macro Older.init Older.SYMBOLS true Older.CIRC 0).2
          = ( Newer.action_get_macro Newer.init true Newer.CIRC 0).2 :=
  ⟨by decide,
    ( C28_resolvers_agree_except_less_and_more Older.init Older.SYMBOLS Older.CIRC 0
      Newer.init 0 (by decide)).2.1 (by decide) (by decide)⟩

/-- C29: counter underflow in the older variant.  A release event (of any key, on any
layer) delivered when pressed_count is 0 sets pressed_count to 255.  If that unmatched
release is followed by a press and then a release of one steno key with 8-bit id on
the steno layer, no byte is sent by any of the three events, pressed_count ends at 255,
and the id is ORed into its chord byte and stays there; the other chord bytes are as
before. -/
theorem Older.C29_unmatched_release_underflows_and_blocks_flush (s : Older.State)
    (e0 : Older.KeyEvent) (id : Nat) (h0 : s.pressed_count = 0) (he : e0.pressed = false)
    (hid : id < 256) (hwf : s.chord.WF) :
    (Older.key_event s e0).pressed_count = 255
      ∧ (Older.run s [e0, Older.pressM id Older.TXBOLT, Older.releaseM id Older.TXBOLT]).virtser
          = s.virtser
      ∧ (Older.run s [e0, Older.pressM id Older.TXBOLT,
          Older.releaseM id Older.TXBOLT]).pressed_count = 255
      ∧ (Older.run s [e0, Older.pressM id Older.TXBOLT, Older.releaseM id Older.TXBOLT]).chord
          = s.chord.set (id >>> 6) (s.chord.get (id >>> 6) ||| id)
      ∧ (Older.run s [e0, Older.pressM id Older.TXBOLT,
          Older.releaseM id Older.TXBOLT]).chord.get (id >>> 6) = s.chord.get (id >>> 6) ||| id := by
  have hng : ¬ Older.flushGuard s e0 := by
    rintro ⟨_, _, hz, _⟩
    rw [h0] at hz
    exact absurd hz (by decide)
  have hsp : e0.stenoPress = none := by
    obtain ⟨b, p, l⟩ := e0
    simp only at he
    subst he
    cases b <;> simp [Older.KeyEvent.stenoPress]
  have hpc1 : (Older.key_event s e0).pressed_count = 255 := by
    rw [Older.key_event_pressed_count, he, h0]
    rfl
  have hch1 : (Older.key_event s e0).chord = s.chord := Older.key_event_chord_of_other s e0 hng hsp
  have hv1 : (Older.key_event s e0).virtser = s.virtser :=
    Older.key_event_virtser_of_not_flushGuard s e0 hng
  have hgrp : (id &&& Older.GRPMASK) >>> 6 = id >>> 6 := Older.grp_eq_groupOf id hid
  have hg4 : id >>> 6 < 4 := by
    rw [← hgrp]
    exact Older.grp_lt_four id
  have hbyte : s.chord.get (id >>> 6) < 256 := by
    obtain ⟨w0, w1, w2, w3⟩ := hwf
    unfold Older.Chord.get
    split <;> first | assumption | decide
  have hrun : Older.run s [e0, Older.pressM id Older.TXBOLT, Older.releaseM id Older.TXBOLT]
      = { Older.key_event s e0 with
          pressed_count := 255,
          chord := s.chord.set (id >>> 6) (s.chord.get (id >>> 6) ||| id) } := by
    rw [Older.run_cons, Older.run_cons, Older.run_cons, Older.run_nil,
      Older.key_event_pressM_steno, Older.key_event_releaseM_noflush _ _ _
        (Or.inl (by simp only [hpc1]; decide))]
    simp only [hpc1, hch1, hgrp, Older.byte_or_mod _ _ hbyte hid]
  refine ⟨hpc1, ?_, ?_, ?_, ?_⟩
  · rw [hrun]
    exact hv1
  · rw [hrun]
  · rw [hrun]
  · rw [hrun]
    show (s.chord.set (id >>> 6) (s.chord.get (id >>> 6) ||| id)).get (id >>> 6) = _
    rw [Older.Chord.get_set, if_pos ⟨rfl, hg4⟩]

theorem Older.C29_witness :
    Older.init.pressed_count = 0 ∧ (Older.releaseK 0 Older.TXBOLT).pressed = false
      ∧ Older.Sl < 256 ∧ Older.init.chord.WF
      ∧ (Older.run Older.init [Older.releaseK 0 Older.TXBOLT, Older.pressM Older.Sl Older.TXBOLT,
          Older.releaseM Older.Sl Older.TXBOLT]).virtser = []
      ∧ (Older.run Older.init [Older.releaseK 0 Older.TXBOLT, Older.pressM Older.Sl Older.TXBOLT,
          Older.releaseM Older.Sl Older.TXBOLT]).pressed_count = 255 :=
  ⟨rfl, rfl, by decide, by decide,
    ( Older.C29_unmatched_release_underflows_and_blocks_flush Older.init
      (Older.releaseK 0 Older.TXBOLT) Older.Sl rfl rfl (by decide) (by decide)).2.1,
    ( Older.C29_unmatched_release_underflows_and_blocks_flush Older.init
      (Older.releaseK 0 Older.TXBOLT) Older.Sl rfl rfl (by decide) (by decide)).2.2.1⟩

/-! ## Claims about macro balance, layer dispatch and the group index -/

/-- C31: every key sequence returned by action_get_macro, in both variants, for every
state, macro id, option byte and edge and, in the older variant, every active layer,
is balanced: played from no key held, every release in it finds its key pressed
earlier in the sequence, and no key or modifier is held when the sequence ends. -/
theorem C31_returned_macro_sequences_balanced (s : Older.State) (l id opt : Nat) (p : Bool)
    (sN : Newer.State) (idN optN : Nat) (pN : Bool) :
    Older.playMacro [] ( Older.action_get_macro s l p id opt).2 = some []
      ∧ Older.balanced ( Older.action_get_macro s l p id opt).2 = true
      ∧ Older.playMacro [] ( Newer.action_get_macro sN pN idN optN).2 = some []
      ∧ Older.balanced ( Newer.action_get_macro sN pN idN optN).2 = true := by
  have hO : Older.playMacro [] ( Older.action_get_macro s l p id opt).2 = some [] := by
    simp only [ Older.action_get_macro]
    split_ifs <;> rfl
  have hN : Older.playMacro [] ( Newer.action_get_macro sN pN idN optN).2 = some [] := by
    simp only [ Newer.action_get_macro]
    split_ifs <;> rfl
  refine ⟨hO, ?_, hN, ?_⟩
  · simp [Older.balanced, hO]
  · simp [Older.balanced, hN]

open Older.MacroOp Older.Keycode in
/-- C32: in the older variant the active layer, not the macro id, decides between key
macros and chord bits.  GRV and Sl are both 1.  With the steno layer active
action_get_macro returns the empty sequence for every id and edge, and a press of id 1
sets bit 0 of chord[0].  With any other layer active a press of id 1 returns the
grave-accent sequence I(15), DOWN(KC_LSFT), TYPE(DE_ACUT), UP(KC_LSFT), TYPE(KC_SPC),
and no press of any id changes the chord buffer. -/
theorem Older.C32_layer_decides_between_macro_and_chord (s : Older.State) (l id opt : Nat)
    (p : Bool) (hl : l ≠ Older.TXBOLT) :
    Older.GRV = Older.Sl ∧ Older.GRV = 1 ∧ Older.CIRC = 0
      ∧ ( Older.action_get_macro s Older.TXBOLT p id opt).2 = Older.MACRO_NONE
      ∧ (( Older.action_get_macro s Older.TXBOLT true 1 opt).1.chord.get 0).testBit 0 = true
      ∧ ( Older.action_get_macro s Older.TXBOLT true 1 opt).1.chord
          = { s.chord with c0 := (s.chord.c0 ||| 1) % 256 }
      ∧ ( Older.action_get_macro s l true 1 opt).2
          = [I 15, DOWN KC_LSFT, TYPE DE_ACUT, UP KC_LSFT, TYPE KC_SPC]
      ∧ ( Older.action_get_macro s l true id opt).1.chord = s.chord := by
  have hc : ( Older.action_get_macro s Older.TXBOLT true 1 opt).1.chord
      = { s.chord with c0 := (s.chord.c0 ||| 1) % 256 } := by
    simp [ Older.action_get_macro, Older.GRPMASK, Older.Chord.set, Older.Chord.get]
  refine ⟨rfl, rfl, rfl, ?_, ?_, hc, ?_, ?_⟩
  · simp only [ Older.action_get_macro]
    split_ifs <;> rfl
  · rw [hc]
    show ((s.chord.c0 ||| 1) % 256).testBit 0 = true
    have h256 : (256 : Nat) = 2 ^ 8 := by decide
    rw [h256, Nat.testBit_mod_two_pow, Nat.testBit_or]
    simp
  · simp [ Older.action_get_macro, hl, Older.GRV, Older.CIRC, Older.MOD_ND]
  · simp only [ Older.action_get_macro, if_true, if_neg hl]
    split_ifs <;> rfl

theorem Older.C32_witness :
    Older.SYMBOLS ≠ Older.TXBOLT
      ∧ ( Older.action_get_macro Older.init Older.TXBOLT true 1 0).1.chord = ⟨1, 0, 0, 0⟩
      ∧ ( Older.action_get_macro Older.init Older.SYMBOLS true 1 0).1.chord = ⟨0, 0, 0, 0⟩ :=
  ⟨by decide,
    (( Older.C32_layer_decides_between_macro_and_chord Older.init Older.SYMBOLS 1 0 true
      (by decide)).2.2.2.2.2.1).trans (by decide),
    ( Older.C32_layer_decides_between_macro_and_chord Older.init Older.SYMBOLS 1 0 true
      (by decide)).2.2.2.2.2.2.2⟩

/-- C35: for every 8-bit macro id the group index (id AND GRPMASK) >> 6 computed by
action_get_macro is id / 64 and lies in 0..3, so chord[grp] is an element of the
4-element array: a write to chord[grp] is read back from chord[grp] and leaves the
other three elements alone, which the out-of-bounds branch of the total indexing
functions would not do. -/
theorem Older.C35_group_index_within_chord_array (id : Nat) (hid : id < 256)
    (c : Older.Chord) (v : Nat) :
    (id &&& Older.GRPMASK) >>> 6 < 4
      ∧ (id &&& Older.GRPMASK) >>> 6 = id / 64
      ∧ (c.set ((id &&& Older.GRPMASK) >>> 6) v).get ((id &&& Older.GRPMASK) >>> 6) = v
      ∧ (∀ k, k ≠ (id &&& Older.GRPMASK) >>> 6 →
          (c.set ((id &&& Older.GRPMASK) >>> 6) v).get k = c.get k)
      ∧ ((c.set ((id &&& Older.GRPMASK) >>> 6) v).toList.length = 4) := by
  have h4 := Older.grp_lt_four id
  refine ⟨h4, Older.grp_eq_div id hid, ?_, ?_, rfl⟩
  · rw [Older.Chord.get_set, if_pos ⟨rfl, h4⟩]
  · intro k hk
    rw [Older.Chord.get_set, if_neg (fun h => hk h.1.symm)]

theorem Older.C35_witness :
    Older.NM < 256 ∧ (Older.NM &&& Older.GRPMASK) >>> 6 = 3
      ∧ (Older.NM &&& Older.GRPMASK) >>> 6 < 4 :=
  ⟨by decide, by decide,
    ( Older.C35_group_index_within_chord_array Older.NM (by decide) ⟨0, 0, 0, 0⟩ 0).1⟩

/-! ## Facts about chords as sets of codes and about the steno toggle key -/

namespace Older

theorem orGroup_testBit (g : Nat) (ids : List Nat) (i : Nat) :
    (orGroup g ids).testBit i
      = ids.any (fun id => decide (groupOf id = g) && id.testBit i) := by
  induction ids with
  | nil => simp [orGroup_nil]
  | cons a t ih =>
    rw [orGroup_cons, List.any_cons]
    split_ifs with h
    · rw [Nat.testBit_or, ih]
      simp [h]
    · rw [ih]
      simp [h]

/-- The group byte of a list of ids depends only on which ids occur in it. -/
theorem orGroup_congr_mem (g : Nat) (a b : List Nat) (h : ∀ x, x ∈ a ↔ x ∈ b) :
    orGroup g a = orGroup g b := by
  apply Nat.eq_of_testBit_eq
  intro i
  rw [orGroup_testBit, orGroup_testBit, Bool.eq_iff_iff, List.any_eq_true, List.any_eq_true]
  constructor
  · rintro ⟨x, hx, hp⟩
    exact ⟨x, (h x).mp hx, hp⟩
  · rintro ⟨x, hx, hp⟩
    exact ⟨x, (h x).mpr hx, hp⟩

theorem or_eq_zero (a b : Nat) : a ||| b = 0 ↔ a = 0 ∧ b = 0 := by
  constructor
  · intro h
    have key : ∀ i, a.testBit i = false ∧ b.testBit i = false := by
      intro i
      have := congrArg (fun n => Nat.testBit n i) h
      simpa [Nat.testBit_or] using this
    constructor
    · apply Nat.eq_of_testBit_eq
      intro i
      rw [(key i).1, Nat.zero_testBit]
    · apply Nat.eq_of_testBit_eq
      intro i
      rw [(key i).2, Nat.zero_testBit]
  · rintro ⟨ha, hb⟩
    rw [ha, hb]
    rfl

/-- A mask meets a group byte exactly when it meets one of the ids of that group. -/
theorem orGroup_and_ne_zero (g : Nat) (ids : List Nat) (m : Nat) :
    orGroup g ids &&& m ≠ 0 ↔ ∃ id ∈ ids, groupOf id = g ∧ id &&& m ≠ 0 := by
  induction ids with
  | nil => simp [orGroup_nil]
  | cons a t ih =>
    rw [orGroup_cons]
    split_ifs with h
    · rw [and_or_mask, ne_eq, or_eq_zero, not_and_or]
      constructor
      · rintro (ha | ht)
        · exact ⟨a, List.mem_cons_self _ _, h, ha⟩
        · obtain ⟨x, hx, hg, hm⟩ := ih.mp ht
          exact ⟨x, List.mem_cons_of_mem _ hx, hg, hm⟩
      · rintro ⟨x, hx, hg, hm⟩
        rcases List.mem_cons.mp hx with hxa | hxt
        · left
          rw [← hxa]
          exact hm
        · right
          exact ih.mpr ⟨x, hxt, hg, hm⟩
    · rw [ih]
      constructor
      · rintro ⟨x, hx, hg, hm⟩
        exact ⟨x, List.mem_cons_of_mem _ hx, hg, hm⟩
      · rintro ⟨x, hx, hg, hm⟩
        rcases List.mem_cons.mp hx with hxa | hxt
        · rw [hxa] at hg
          exact absurd hg h
        · exact ⟨x, hxt, hg, hm⟩

/-- The chord after pressing the steno keys `ids` from idle. -/
theorem chord_after_pressAll_init (ids : List Nat) (hid : ∀ id ∈ ids, id < 256) :
    (run init (pressAll ids)).chord
      = ⟨orGroup 0 ids, orGroup 1 ids, orGroup 2 ids, orGroup 3 ids⟩ := by
  rw [run_pressAll ids hid init init_WF (by decide)]
  simp [init]

theorem chord_get_after_pressAll_init (ids : List Nat) (hid : ∀ id ∈ ids, id < 256)
    (g : Nat) (hg : g < 4) :
    (run init (pressAll ids)).chord.get g = orGroup g ids := by
  rw [chord_after_pressAll_init ids hid]
  interval_cases g <;> rfl

theorem txboltCodes_facts :
    txboltCodes.length = 23 ∧ txboltCodes.Nodup
      ∧ (∀ c ∈ txboltCodes, c < 256 ∧ c ≠ 0 ∧ groupOf c < 4
          ∧ (c &&& 0x3F) ∈ [1, 2, 4, 8, 16, 32] ∧ c &&& (c &&& 0x3F) ≠ 0) := by
  decide!

theorem txboltCodes_separate :
    ∀ a ∈ txboltCodes, ∀ c ∈ txboltCodes,
      groupOf a = groupOf c → a &&& (c &&& 0x3F) ≠ 0 → a = c := by
  decide!

/-- Decoding: a TxBolt code was pressed exactly when its mask bit is set in the byte
of its group. -/
theorem txbolt_decode (S : List Nat) (hS : ∀ x ∈ S, x ∈ txboltCodes) (c : Nat)
    (hc : c ∈ txboltCodes) :
    c ∈ S ↔ (run init (pressAll S)).chord.get (c >>> 6) &&& (c &&& 0x3F) ≠ 0 := by
  have hid : ∀ id ∈ S, id < 256 := fun id h => (txboltCodes_facts.2.2 id (hS id h)).1
  have hcf := txboltCodes_facts.2.2 c hc
  have hg : c >>> 6 = groupOf c := rfl
  rw [hg, chord_get_after_pressAll_init S hid (groupOf c) hcf.2.2.1, orGroup_and_ne_zero]
  constructor
  · intro h
    exact ⟨c, h, rfl, hcf.2.2.2.2⟩
  · rintro ⟨x, hx, hgx, hm⟩
    have := txboltCodes_separate x (hS x hx) c hc hgx hm
    rw [← this]
    exact hx

theorem steno_toggle_older :
    (∀ P, P < 76 → (entryOf keymaps 0 P = .TG TXBOLT ↔ P = 32))
      ∧ (∀ L, 1 ≤ L → L < 7 → entryOf keymaps L 32 = .KC_TRNS)
      ∧ (∀ P, P < 76 → (entryOf keymaps 6 P = .KC_TRNS ↔ P = 32))
      ∧ (∀ P, P < 76 → P ≠ 32 →
          entryOf keymaps 6 P = .KC_NO ∨ (entryOf keymaps 6 P).isStenoMacro = true) := by
  decide!

theorem resolveKey_of_transparent (km : List (List KeyAction)) (active : Nat → Bool)
    (P : Nat) (h : ∀ L, 1 ≤ L → L < 7 → entryOf km L P = .KC_TRNS) :
    resolveKey km active P = entryOf km 0 P := by
  have h1 := h 1 (by decide) (by decide)
  have h2 := h 2 (by decide) (by decide)
  have h3 := h 3 (by decide) (by decide)
  have h4 := h 4 (by decide) (by decide)
  have h5 := h 5 (by decide) (by decide)
  have h6 := h 6 (by decide) (by decide)
  simp [resolveKey, List.find?, h1, h2, h3, h4, h5, h6]

end Older

namespace Newer

open Older (KeyAction entryOf)

theorem steno_toggle_newer :
    (∀ P, P < 76 → (entryOf keymaps 0 P = .TG TXBOLT ↔ P = 32))
      ∧ (∀ L, 1 ≤ L → L < 7 → entryOf keymaps L 32 = .KC_TRNS)
      ∧ (∀ P, P < 76 → (entryOf keymaps 6 P = .KC_TRNS ↔ P = 32))
      ∧ (∀ P, P < 76 → P ≠ 32 →
          entryOf keymaps 6 P = .KC_NO ∨ (entryOf keymaps 6 P).isStenoKeycode = true) := by
  decide!

end Newer

/-! ## Claims about chords as sets of codes and about leaving steno mode -/

namespace Older

theorem chord_pressAll_congr (s : State) (hwf : s.chord.WF) (hpc : s.pressed_count < 256)
    (a b : List Nat) (ha : ∀ id ∈ a, id < 256) (hb : ∀ id ∈ b, id < 256)
    (h : ∀ x, x ∈ a ↔ x ∈ b) :
    (run s (pressAll a)).chord = (run s (pressAll b)).chord := by
  rw [run_pressAll a ha s hwf hpc, run_pressAll b hb s hwf hpc]
  simp only [orGroup_congr_mem _ a b h]

/-- C33 (older variant): the chord buffer after a run of steno key presses on the steno
layer depends only on the set of ids pressed: two runs that press the same ids, in any
order and any number of times each, leave the same four chord bytes; in particular a
permutation of the presses and a further press of an id already pressed change nothing.
No press sends anything, so no flush lies in between.  The steno layer binds the id of
S to two keys, that of the number bar to eleven and that of the star to four. -/
theorem C33_chord_depends_only_on_set_of_pressed_ids (s : State) (hwf : s.chord.WF)
    (hpc : s.pressed_count < 256) (a b : List Nat)
    (ha : ∀ id ∈ a, id < 256) (hb : ∀ id ∈ b, id < 256) :
    ((∀ x, x ∈ a ↔ x ∈ b) → (run s (pressAll a)).chord = (run s (pressAll b)).chord)
      ∧ (a.Perm b → (run s (pressAll a)).chord = (run s (pressAll b)).chord)
      ∧ (∀ id, id ∈ a →
          (run s (pressAll (a ++ [id]))).chord = (run s (pressAll a)).chord)
      ∧ (run s (pressAll a)).virtser = s.virtser
      ∧ TXBOLT_KEYMAP.count (.M Sl) = 2
      ∧ TXBOLT_KEYMAP.count (.M NM) = 11
      ∧ TXBOLT_KEYMAP.count (.M X) = 4 := by
  refine ⟨chord_pressAll_congr s hwf hpc a b ha hb, ?_, ?_, ?_, by decide!, by decide!,
    by decide!⟩
  · intro hp
    exact chord_pressAll_congr s hwf hpc a b ha hb (fun x => hp.mem_iff)
  · intro id hid
    apply chord_pressAll_congr s hwf hpc (a ++ [id]) a _ ha
    · intro x
      simp only [List.mem_append, List.mem_singleton]
      constructor
      · rintro (h | h)
        · exact h
        · rw [h]
          exact hid
      · intro h
        exact Or.inl h
    · intro x hx
      rcases List.mem_append.mp hx with h | h
      · exact ha x h
      · rw [List.mem_singleton.mp h]
        exact ha id hid
  · rw [run_pressAll a ha s hwf hpc]

theorem C33_witness :
    init.chord.WF ∧ init.pressed_count < 256
      ∧ (run init (pressAll ([Tl, Sl] ++ [Sl]))).chord = (run init (pressAll [Tl, Sl])).chord
      ∧ (run init (pressAll [Tl, Sl])).chord = (run init (pressAll [Sl, Tl])).chord :=
  ⟨init_WF, by decide,
    (C33_chord_depends_only_on_set_of_pressed_ids init init_WF (by decide) [Tl, Sl] [Sl, Tl]
      (by decide) (by decide)).2.2.1 Sl (by decide),
    (C33_chord_depends_only_on_set_of_pressed_ids init init_WF (by decide) [Tl, Sl] [Sl, Tl]
      (by decide) (by decide)).2.1 (List.Perm.swap Sl Tl [])⟩

/-- C34 (older variant): the 23 TxBolt codes Sl .. NM are pairwise distinct, each has
exactly one bit set among its low 6 bits, and each is bound to a key of the steno layer.
For every list S of TxBolt codes pressed from idle on the steno layer and every TxBolt
code c, c is in S exactly when chord[c >> 6] AND (c AND 0x3F) is nonzero; hence two
lists of codes that leave the same chord buffer have the same members. -/
theorem C34_txbolt_codes_decode_the_chord (S : List Nat)
    (hS : ∀ x ∈ S, x ∈ txboltCodes) :
    txboltCodes.length = 23 ∧ txboltCodes.Nodup
      ∧ (∀ c ∈ txboltCodes, (c &&& 0x3F) ∈ [1, 2, 4, 8, 16, 32])
      ∧ (∀ c ∈ txboltCodes, KeyAction.M c ∈ TXBOLT_KEYMAP)
      ∧ (∀ c ∈ txboltCodes,
          (c ∈ S ↔ (run init (pressAll S)).chord.get (c >>> 6) &&& (c &&& 0x3F) ≠ 0))
      ∧ (∀ T : List Nat, (∀ x ∈ T, x ∈ txboltCodes) →
          (run init (pressAll T)).chord = (run init (pressAll S)).chord →
          ∀ x, x ∈ T ↔ x ∈ S) := by
  refine ⟨txboltCodes_facts.1, txboltCodes_facts.2.1,
    fun c hc => (txboltCodes_facts.2.2 c hc).2.2.2.1, by decide!,
    fun c hc => txbolt_decode S hS c hc, ?_⟩
  intro T hT heq x
  by_cases hx : x ∈ txboltCodes
  · rw [txbolt_decode T hT x hx, txbolt_decode S hS x hx, heq]
  · constructor
    · intro h
      exact absurd (hT x h) hx
    · intro h
      exact absurd (hS x h) hx

theorem C34_witness :
    (∀ x ∈ [Sl, Tl], x ∈ txboltCodes)
      ∧ (Tl ∈ [Sl, Tl]
          ↔ (run init (pressAll [Sl, Tl])).chord.get (Tl >>> 6) &&& (Tl &&& 0x3F) ≠ 0)
      ∧ (Kl ∈ [Sl, Tl]
          ↔ (run init (pressAll [Sl, Tl])).chord.get (Kl >>> 6) &&& (Kl &&& 0x3F) ≠ 0) :=
  ⟨by decide,
    (C34_txbolt_codes_decode_the_chord [Sl, Tl] (by decide)).2.2.2.2.1 Tl (by decide),
    (C34_txbolt_codes_decode_the_chord [Sl, Tl] (by decide)).2.2.2.2.1 Kl (by decide)⟩

end Older

/-- C36: in both variants the base layer QWERTZ_NEO2 binds TG(TXBOLT) at exactly one
key position, position 32.  At that position every layer 1..6 is transparent, and it is
the only transparent entry of the TXBOLT layer; every other entry of the TXBOLT layer
is a no-op or a steno key (a macro key with a TxBolt code in the older variant, an
STN_ keycode in the newer).  Hence for every set of active layers the key at that
position resolves to TG(TXBOLT). -/
theorem C36_steno_toggle_key_resolves_on_every_layer (active : Nat → Bool) :
    ((∀ P, P < 76 →
        (Older.entryOf Older.keymaps Older.QWERTZ_NEO2 P = .TG Older.TXBOLT ↔ P = 32))
      ∧ (∀ L, 1 ≤ L → L < 7 → Older.entryOf Older.keymaps L 32 = .KC_TRNS)
      ∧ (∀ P, P < 76 → (Older.entryOf Older.keymaps Older.TXBOLT P = .KC_TRNS ↔ P = 32))
      ∧ (∀ P, P < 76 → P ≠ 32 →
          Older.entryOf Older.keymaps Older.TXBOLT P = .KC_NO
            ∨ (Older.entryOf Older.keymaps Older.TXBOLT P).isStenoMacro = true)
      ∧ Older.resolveKey Older.keymaps active 32 = .TG Older.TXBOLT)
    ∧ ((∀ P, P < 76 →
        (Older.entryOf Newer.keymaps Newer.QWERTZ_NEO2 P = .TG Newer.TXBOLT ↔ P = 32))
      ∧ (∀ L, 1 ≤ L → L < 7 → Older.entryOf Newer.keymaps L 32 = .KC_TRNS)
      ∧ (∀ P, P < 76 → (Older.entryOf Newer.keymaps Newer.TXBOLT P = .KC_TRNS ↔ P = 32))
      ∧ (∀ P, P < 76 → P ≠ 32 →
          Older.entryOf Newer.keymaps Newer.TXBOLT P = .KC_NO
            ∨ (Older.entryOf Newer.keymaps Newer.TXBOLT P).isStenoKeycode = true)
      ∧ Older.resolveKey Newer.keymaps active 32 = .TG Newer.TXBOLT) := by
  refine ⟨⟨Older.steno_toggle_older.1, Older.steno_toggle_older.2.1,
      Older.steno_toggle_older.2.2.1, Older.steno_toggle_older.2.2.2, ?_⟩,
    ⟨Newer.steno_toggle_newer.1, Newer.steno_toggle_newer.2.1,
      Newer.steno_toggle_newer.2.2.1, Newer.steno_toggle_newer.2.2.2, ?_⟩⟩
  · rw [Older.resolveKey_of_transparent _ _ _ Older.steno_toggle_older.2.1]
    exact (Older.steno_toggle_older.1 32 (by decide)).mpr rfl
  · rw [Older.resolveKey_of_transparent _ _ _ Newer.steno_toggle_newer.2.1]
    exact (Newer.steno_toggle_newer.1 32 (by decide)).mpr rfl

/-! ## The idle invariant: when the chord buffer is clear -/

namespace Older

theorem groupOf_lt_four (id : Nat) (h : id < 256) : groupOf id < 4 := by
  unfold groupOf
  rw [Nat.shiftRight_eq_div_pow]
  omega

/-- A group byte is 0 exactly when every id of that group is 0. -/
theorem orGroup_eq_zero_iff (g : Nat) (ids : List Nat) :
    orGroup g ids = 0 ↔ ∀ id ∈ ids, groupOf id = g → id = 0 := by
  induction ids with
  | nil => simp [orGroup_nil]
  | cons a t ih =>
    rw [orGroup_cons]
    split_ifs with h
    · rw [or_eq_zero, ih]
      constructor
      · rintro ⟨ha, ht⟩ id hid hg
        rcases List.mem_cons.mp hid with hx | hx
        · rw [hx]
          exact ha
        · exact ht id hx hg
      · intro hall
        exact ⟨hall a (List.mem_cons_self _ _) h,
          fun id hid hg => hall id (List.mem_cons_of_mem _ hid) hg⟩
    · rw [ih]
      constructor
      · intro ht id hid hg
        rcases List.mem_cons.mp hid with hx | hx
        · rw [hx] at hg
          exact absurd hg h
        · exact ht id hx hg
      · intro hall id hid hg
        exact hall id (List.mem_cons_of_mem _ hid) hg

/-- The chord of a list of 8-bit ids is clear exactly when every id is 0. -/
theorem holds_clear_iff (c : Chord) (ids : List Nat) (hid : ∀ x ∈ ids, x < 256)
    (h : c.holds ids) : c = ⟨0, 0, 0, 0⟩ ↔ ∀ id ∈ ids, id = 0 := by
  unfold Chord.holds at h
  rw [h]
  constructor
  · intro hz id hmem
    have h0 : orGroup 0 ids = 0 := congrArg Chord.c0 hz
    have h1 : orGroup 1 ids = 0 := congrArg Chord.c1 hz
    have h2 : orGroup 2 ids = 0 := congrArg Chord.c2 hz
    have h3 : orGroup 3 ids = 0 := congrArg Chord.c3 hz
    have hg := groupOf_lt_four id (hid id hmem)
    have hcases : groupOf id = 0 ∨ groupOf id = 1 ∨ groupOf id = 2 ∨ groupOf id = 3 := by
      omega
    rcases hcases with hg0 | hg1 | hg2 | hg3
    · exact (orGroup_eq_zero_iff 0 ids).mp h0 id hmem hg0
    · exact (orGroup_eq_zero_iff 1 ids).mp h1 id hmem hg1
    · exact (orGroup_eq_zero_iff 2 ids).mp h2 id hmem hg2
    · exact (orGroup_eq_zero_iff 3 ids).mp h3 id hmem hg3
  · intro hall
    have hz : ∀ g, orGroup g ids = 0 := fun g =>
      (orGroup_eq_zero_iff g ids).mpr (fun id hmem _ => hall id hmem)
    rw [hz 0, hz 1, hz 2, hz 3]

/-- Traffic without steno presses leaves a clear chord buffer clear. -/
theorem run_chord_clear_of_no_stenoPress (es : List KeyEvent) (s : State)
    (hch : s.chord = ⟨0, 0, 0, 0⟩) (h : ∀ e ∈ es, e.stenoPress = none) :
    (run s es).chord = ⟨0, 0, 0, 0⟩ := by
  induction es generalizing s with
  | nil => exact hch
  | cons e t ih =>
    rw [run_cons]
    apply ih
    · by_cases hg : flushGuard s e
      · rw [key_event_of_flushGuard s e hg]
      · rw [key_event_chord_of_other s e hg (h e (List.mem_cons_self _ _)), hch]
    · intro x hx
      exact h x (List.mem_cons_of_mem _ hx)

/-- C8, amended: in every state reachable from an idle state (pressed_count 0 and all
four chord bytes 0, such as the initial state) by a sequence of key events with 8-bit
macro ids, all four chord bytes are 0 if and only if no steno key with a nonzero id
has been pressed with the steno layer active since the last flush (since the start
when there has been none); so pressed_count equal to 0 implies a clear chord buffer
exactly when no chord has been abandoned since the last flush.  The invariant holds
in particular when the traffic has no steno press at all (pressed_count reaching 0
while a non-steno layer is active, no bit ever having been set), after a flush
followed by traffic without steno presses, and along well-formed traffic in which
every release that brings pressed_count to 0 is a macro-key release on the steno
layer. -/
theorem C8_idle_chord_clear_iff_no_steno_press_since_flush (s0 : State)
    (es : List KeyEvent) (hpc : s0.pressed_count = 0) (hch : s0.chord = ⟨0, 0, 0, 0⟩)
    (hid : ∀ e ∈ es, e.byteId) :
    ((run s0 es).chord = ⟨0, 0, 0, 0⟩ ↔ ∀ id ∈ pressedSinceFlush s0 [] es, id = 0)
      ∧ (wellFormed 0 es = true → (run s0 es).pressed_count = 0 →
          ((run s0 es).chord = ⟨0, 0, 0, 0⟩ ↔ ∀ id ∈ pressedSinceFlush s0 [] es, id = 0))
      ∧ ((∀ e ∈ es, e.stenoPress = none) → (run s0 es).chord = ⟨0, 0, 0, 0⟩)
      ∧ (∀ es1 e es2, es = es1 ++ e :: es2 → flushes (run s0 es1) e →
          (∀ x ∈ es2, x.stenoPress = none) → (run s0 es).chord = ⟨0, 0, 0, 0⟩)
      ∧ (wellFormed 0 es = true → chordsEndOnSteno s0 es = true →
          (run s0 es).pressed_count = 0 → (run s0 es).chord = ⟨0, 0, 0, 0⟩) := by
  have hholds := run_holds_pressedSinceFlush es s0 [] hid (by simp) (hch ▸ holds_nil)
  have hiff := holds_clear_iff _ _ hholds.2 hholds.1
  refine ⟨hiff, fun _ _ => hiff, run_chord_clear_of_no_stenoPress es s0 hch, ?_,
    run_idle_invariant es s0 0 hpc (by decide) (fun _ => hch)⟩
  intro es1 e es2 hes hf hno
  rw [hes, run_append, run_cons]
  apply run_chord_clear_of_no_stenoPress es2 _ _ hno
  rw [key_event_of_flushGuard _ e ((flushes_iff_flushGuard _ e).mp hf)]

theorem C8_witness :
    init.pressed_count = 0 ∧ init.chord = ⟨0, 0, 0, 0⟩
      ∧ (∀ e ∈ [pressK 4 QWERTZ_NEO2, releaseK 4 QWERTZ_NEO2], e.byteId)
      ∧ (run init [pressK 4 QWERTZ_NEO2, releaseK 4 QWERTZ_NEO2]).pressed_count = 0
      ∧ (run init [pressK 4 QWERTZ_NEO2, releaseK 4 QWERTZ_NEO2]).chord = ⟨0, 0, 0, 0⟩
      ∧ (run init [pressM Sl TXBOLT, releaseM Sl TXBOLT, pressK 4 TXBOLT,
          releaseK 4 TXBOLT]).chord = ⟨0, 0, 0, 0⟩
      ∧ (run init [pressM Sl QWERTZ_NEO2, pressK 0 QWERTZ_NEO2, releaseK 0 TXBOLT,
          releaseM Sl TXBOLT]).chord = ⟨0, 0, 0, 0⟩
      ∧ ((run init [pressM Sl TXBOLT, pressK 0 TXBOLT, releaseK 0 QWERTZ_NEO2,
            releaseM Sl QWERTZ_NEO2]).chord = ⟨0, 0, 0, 0⟩
          ↔ ∀ id ∈ [Sl], id = 0) :=
  ⟨rfl, rfl, by decide, by decide,
    (C8_idle_chord_clear_iff_no_steno_press_since_flush init
      [pressK 4 QWERTZ_NEO2, releaseK 4 QWERTZ_NEO2] rfl rfl (by decide)).2.2.1 (by decide),
    (C8_idle_chord_clear_iff_no_steno_press_since_flush init
      [pressM Sl TXBOLT, releaseM Sl TXBOLT, pressK 4 TXBOLT, releaseK 4 TXBOLT]
      rfl rfl (by decide)).2.2.2.1 [pressM Sl TXBOLT] (releaseM Sl TXBOLT)
      [pressK 4 TXBOLT, releaseK 4 TXBOLT] rfl (by decide) (by decide),
    (C8_idle_chord_clear_iff_no_steno_press_since_flush init
      [pressM Sl QWERTZ_NEO2, pressK 0 QWERTZ_NEO2, releaseK 0 TXBOLT, releaseM Sl TXBOLT]
      rfl rfl (by decide)).2.2.2.2 (by decide) (by decide) (by decide),
    (C8_idle_chord_clear_iff_no_steno_press_since_flush init
      [pressM Sl TXBOLT, pressK 0 TXBOLT, releaseK 0 QWERTZ_NEO2, releaseM Sl QWERTZ_NEO2]
      rfl rfl (by decide)).1⟩

end Older
